import Mathlib

/-!
# Octant: resource mapper and relationship queryer

A shallow embedding of `internal/cluster/cluster.go` (`Cluster.Resource`) and
`internal/queryer/queryer.go` (`ObjectStoreQueryer`) together with the
statements proved about them.

Conventions of the embedding.

* A Go function returning `(T, error)` becomes a function into `Except Error T`
  (or `Outcome T` where the Go code can also fault on a nil pointer);
  `.error e` stands for the Go result `(zero value, e)`.
* Collaborators reached through an interface (REST mapper, object store,
  discovery client) are parameters.  Every call made on them is appended to a
  trace, so that statements about how often something is called are statements
  about that trace.
* A Go `map[string]string` is an association list read through `List.lookup`.
-/

namespace Octant

/-! ## Errors -/

/-- Go `error` values.  `NoKindMatchError` and `NoResourceMatchError` are the two
error types of `k8s.io/apimachinery/pkg/api/meta` recognised by
`meta.IsNoMatchError`; `NotFound` is the API status error for a missing object;
`New` is an error made by `errors.New`, `errors.Errorf` or `fmt.Errorf`; `Wrap` is
`errors.Wrap`, `errors.Wrapf` or `errors.WithMessage` around a cause. -/
inductive Error where
  | NoKindMatchError
  | NoResourceMatchError
  | NotFound (name : String)
  | New (msg : String)
  | Wrap (cause : Error) (msg : String)
  deriving DecidableEq, Repr

/-- `meta.IsNoMatchError`: a type switch on the error value itself. -/
def IsNoMatchError : Error → Bool
  | .NoKindMatchError => true
  | .NoResourceMatchError => true
  | _ => false

/-! ## `internal/cluster/cluster.go` -/

/-- `schema.GroupKind`. -/
structure GroupKind where
  Group : String
  Kind : String
  deriving DecidableEq, Repr

/-- `schema.GroupVersionResource`. -/
structure GroupVersionResource where
  Group : String
  Version : String
  Resource : String
  deriving DecidableEq, Repr

/-- `meta.RESTMapping`, reduced to the field `Cluster.Resource` reads. -/
structure RESTMapping where
  Resource : GroupVersionResource
  deriving DecidableEq, Repr

/-- `schema.GroupVersionKind`. -/
structure GroupVersionKind where
  Group : String
  Version : String
  Kind : String
  deriving DecidableEq, Repr

/-- The REST mapper behind `c.restMapper`, as a machine over a state `σ`:
`RESTMapping` answers a lookup (and may change the state, as the deferred mapper
does when it loads discovery lazily), `Reset` drops the discovery cache, `KindFor`
answers with the kind of a resource (a mapper that is given no `KindFor` knows no
resource). -/
structure RESTMapper (σ : Type) where
  RESTMapping : σ → GroupKind → Except Error RESTMapping × σ
  Reset : σ → σ
  KindFor : σ → GroupVersionResource → Except Error GroupVersionKind × σ :=
    fun s _ => (.error .NoResourceMatchError, s)

/-- `rest.Config`, reduced to the field `Cluster.Resource` reads. -/
structure Config where
  Host : String
  deriving DecidableEq, Repr

/-- `Cluster`, reduced to what `Resource` uses: the answer of
`c.clientConfig.ClientConfig()` and the REST mapper. -/
structure Cluster (σ : Type) where
  clientConfig : Except Error Config
  restMapper : RESTMapper σ

/-- What `Cluster.Resource` and `Cluster.ResourceExists` do to the outside world, in
order. -/
inductive Call where
  | RESTMapping (gk : GroupKind)
  | Reset
  | Errorf (msg : String)
  | Sleep (seconds : Nat)
  | KindFor (gvr : GroupVersionResource)
  deriving DecidableEq, Repr

/-- One run of `Cluster.Resource`: the returned pair, the mapper state left
behind, and the calls made. -/
structure Run (σ : Type) where
  result : Except Error GroupVersionResource
  mapper : σ
  trace : List Call

/-- The `for retries < 5` loop of `Cluster.Resource` (cluster.go:163-185), entered
with the current values of `retries` and `resetRestMapper`, the mapper state `s` and
the calls made so far. -/
def Cluster.Resource.loop {σ : Type} (c : Cluster σ) (host : String) (gk : GroupKind)
    (retries : Nat) (resetRestMapper : Bool) (s : σ) (tr : List Call) : Run σ :=
  if retries < 5 then
    match c.restMapper.RESTMapping s gk with
    | (.error err, s1) =>
      if IsNoMatchError err then
        if !resetRestMapper then
          Cluster.Resource.loop c host gk retries true (c.restMapper.Reset s1)
            (tr ++ [.RESTMapping gk, .Reset])
        else
          Cluster.Resource.loop c host gk (retries + 1) resetRestMapper s1
            (tr ++ [.RESTMapping gk,
              .Errorf ("Having trouble retrieving the REST mapping from your cluster at "
                ++ host ++ ". Retrying....."),
              .Sleep 5])
      else
        ⟨.error (.Wrap err "unable to retrieve rest mapping"), s1, tr ++ [.RESTMapping gk]⟩
    | (.ok restMapping, s1) =>
      ⟨.ok restMapping.Resource, s1, tr ++ [.RESTMapping gk]⟩
  else
    ⟨.error (.New "unable to retrieve rest mapping"), s,
      tr ++ [.Errorf ("Unable to retrieve the REST mapping from your cluster at "
        ++ host ++ ". Full error details below.")]⟩
termination_by (5 - retries) * 2 + (if resetRestMapper then 0 else 1)
decreasing_by
  all_goals simp_wf
  all_goals (cases resetRestMapper <;> simp at * <;> omega)

/-- `Cluster.Resource` (cluster.go:154-190) run on a mapper in state `s`. -/
def Cluster.Resource {σ : Type} (c : Cluster σ) (gk : GroupKind) (s : σ) : Run σ :=
  match c.clientConfig with
  | .error err => ⟨.error (.Wrap err "get rest config"), s, []⟩
  | .ok restConfig => Cluster.Resource.loop c restConfig.Host gk 0 false s []

/-- Number of `RESTMapping` attempts in a trace. -/
def attempts (tr : List Call) : Nat :=
  tr.countP (fun c => match c with | .RESTMapping _ => true | _ => false)

/-- Number of `Reset` calls in a trace. -/
def resets (tr : List Call) : Nat :=
  tr.countP (fun c => c == .Reset)

/-- Number of `time.Sleep` calls in a trace. -/
def sleeps (tr : List Call) : Nat :=
  tr.countP (fun c => match c with | .Sleep _ => true | _ => false)

/-- A mapper that never resolves anything: every `RESTMapping` is a no-match. -/
def neverMapper : RESTMapper Unit where
  RESTMapping := fun _ _ => (.error .NoKindMatchError, ())
  Reset := fun _ => ()

/-- A cluster whose client configuration loads and whose mapper never resolves. -/
def neverCluster : Cluster Unit where
  clientConfig := .ok ⟨"https://cluster.example"⟩
  restMapper := neverMapper

/-- A cluster whose client configuration cannot be loaded. -/
def noConfigCluster : Cluster Unit where
  clientConfig := .error (.New "invalid configuration")
  restMapper := neverMapper

/-- A mapper whose discovery cache is stale (`false`) until it is reset (`true`):
stale, it knows no kind; fresh, it maps every kind to a `v1` resource of the same
group. -/
def staleMapper : RESTMapper Bool where
  RESTMapping := fun fresh gk =>
    if fresh then (.ok ⟨⟨gk.Group, "v1", gk.Kind⟩⟩, fresh) else (.error .NoKindMatchError, fresh)
  Reset := fun _ => true

/-- A cluster whose client configuration loads and whose mapper starts stale. -/
def staleCluster : Cluster Bool where
  clientConfig := .ok ⟨"https://cluster.example"⟩
  restMapper := staleMapper

/-- One run of `Cluster.ResourceExists`: the returned boolean (the function has no
error result), the mapper state left behind, and the calls made. -/
structure Probe (σ : Type) where
  result : Bool
  mapper : σ
  trace : List Call

/-- `Cluster.ResourceExists` (cluster.go:148-152): `err == nil` of one `KindFor`. -/
def Cluster.ResourceExists {σ : Type} (c : Cluster σ) (gvr : GroupVersionResource) (s : σ) :
    Probe σ :=
  match c.restMapper.KindFor s gvr with
  | (.ok _, s1) => ⟨true, s1, [.KindFor gvr]⟩
  | (.error _, s1) => ⟨false, s1, [.KindFor gvr]⟩

/-- A mapper over a list of known resources (the state): `KindFor` finds the kind of a
known resource and fails with a no-match error otherwise; `RESTMapping` knows nothing. -/
def tableMapper : RESTMapper (List (GroupVersionResource × GroupVersionKind)) where
  RESTMapping := fun s _ => (.error .NoKindMatchError, s)
  Reset := fun s => s
  KindFor := fun s gvr =>
    match s.lookup gvr with
    | some gvk => (.ok gvk, s)
    | none => (.error .NoResourceMatchError, s)

/-- A cluster over `tableMapper`. -/
def tableCluster : Cluster (List (GroupVersionResource × GroupVersionKind)) where
  clientConfig := .ok ⟨"https://cluster.example"⟩
  restMapper := tableMapper

/-- A group/kind the mapper of `c` never resolves: whatever the mapper state, the
lookup fails with an error that `meta.IsNoMatchError` accepts. -/
def NeverResolves {σ : Type} (c : Cluster σ) (gk : GroupKind) : Prop :=
  ∀ s, ∃ err, (c.restMapper.RESTMapping s gk).1 = .error err ∧ IsNoMatchError err = true

/-! ## Kubernetes data model -/

/-- `metav1.OwnerReference`. `Controller` is a `*bool`. -/
structure OwnerReference where
  APIVersion : String := ""
  Kind : String := ""
  Name : String := ""
  UID : String := ""
  Controller : Option Bool := none
  BlockOwnerDeletion : Option Bool := none
  deriving DecidableEq, Repr

/-- `metav1.ObjectMeta`: the metadata that `metav1.Object` reads and writes.  Times are
seconds since the epoch; `Labels` and `Annotations` are Go maps; `Initializers` is the
list of pending initializers behind the `*metav1.Initializers` pointer. -/
structure ObjectMeta where
  Namespace : String := ""
  Name : String := ""
  GenerateName : String := ""
  UID : String := ""
  ResourceVersion : String := ""
  Generation : Int := 0
  SelfLink : String := ""
  CreationTimestamp : Int := 0
  DeletionTimestamp : Option Int := none
  DeletionGracePeriodSeconds : Option Int := none
  Labels : List (String × String) := []
  Annotations : List (String × String) := []
  Initializers : Option (List String) := none
  OwnerReferences : List OwnerReference := []
  ClusterName : String := ""
  Finalizers : List String := []
  deriving DecidableEq, Repr

/-- `metav1.TypeMeta`. -/
structure TypeMeta where
  APIVersion : String := ""
  Kind : String := ""
  deriving DecidableEq, Repr

/-- `unstructured.Unstructured`: the envelope the accessors (`GetNamespace`,
`GetLabels`, `GetOwnerReferences`, ...) read, and the rest of the object as an
uninterpreted payload. -/
structure Unstructured where
  TypeMeta : TypeMeta := {}
  ObjectMeta : ObjectMeta := {}
  Content : String := ""
  deriving DecidableEq, Repr

/-- `store.Key`. -/
structure Key where
  Namespace : String := ""
  APIVersion : String := ""
  Kind : String := ""
  Name : String := ""
  Selector : Option (List (String × String)) := none
  deriving DecidableEq, Repr

/-- `metav1.APIResource`, reduced to the fields `Children` reads. -/
structure APIResource where
  Name : String := ""
  Namespaced : Bool := false
  Kind : String := ""
  Verbs : List String := []
  deriving DecidableEq, Repr

/-- `metav1.APIResourceList`. -/
structure APIResourceList where
  GroupVersion : String := ""
  APIResources : List APIResource := []
  deriving DecidableEq, Repr

/-- `schema.GroupVersion`. -/
structure GroupVersion where
  Group : String
  Version : String
  deriving DecidableEq, Repr

/-- `schema.ParseGroupVersion` of k8s.io/apimachinery: the empty string and `/` give the
empty group/version; without a slash the whole string is the version; with one slash the
string splits at it; with more it is an error. -/
def ParseGroupVersion (gv : String) : Except Error GroupVersion :=
  if gv.toList.length = 0 ∨ gv = "/" then .ok ⟨"", ""⟩
  else
    match gv.toList.count '/' with
    | 0 => .ok ⟨"", gv⟩
    | 1 => .ok ⟨String.mk (gv.toList.takeWhile (fun ch => ch != '/')),
                String.mk ((gv.toList.dropWhile (fun ch => ch != '/')).drop 1)⟩
    | _ => .error (.New ("unexpected GroupVersion string: " ++ gv))

/-- `metav1.GetControllerOf`: the first owner reference whose `Controller` is set and
true. -/
def GetControllerOf (controllee : ObjectMeta) : Option OwnerReference :=
  controllee.OwnerReferences.find? (fun ref => ref.Controller == some true)

/-- `metav1.IsControlledBy`. -/
def IsControlledBy (obj owner : ObjectMeta) : Bool :=
  match GetControllerOf obj with
  | none => false
  | some ref => ref.UID == owner.UID

/-- Modelled from the spec: `dashstrings.Contains` of `internal/util/strings` is not
among the sources; the spec reads its two uses as "supports both `list` and `watch`
verbs", so it is membership of the string in the list. -/
def dashstrings.Contains (s : String) (sl : List String) : Bool :=
  sl.contains s

/-- `corev1.Pod`, reduced to metadata and the spec field the queryer reads; the rest of
the object is an uninterpreted payload. -/
structure Pod where
  TypeMeta : TypeMeta := {}
  ObjectMeta : ObjectMeta := {}
  ServiceAccountName : String := ""
  Content : String := ""
  deriving DecidableEq, Repr

/-- `corev1.Service`; `Selector` is `Spec.Selector`, a Go map (nil and empty alike are
the empty list). -/
structure Service where
  TypeMeta : TypeMeta := {}
  ObjectMeta : ObjectMeta := {}
  Selector : List (String × String) := []
  Content : String := ""
  deriving DecidableEq, Repr

/-- `extv1beta1.IngressBackend`. -/
structure IngressBackend where
  ServiceName : String := ""
  ServicePort : String := ""
  deriving DecidableEq, Repr

/-- `extv1beta1.HTTPIngressPath`. -/
structure HTTPIngressPath where
  Path : String := ""
  Backend : IngressBackend := {}
  deriving DecidableEq, Repr

/-- `extv1beta1.HTTPIngressRuleValue`. -/
structure HTTPIngressRuleValue where
  Paths : List HTTPIngressPath := []
  deriving DecidableEq, Repr

/-- `extv1beta1.IngressRule`; `HTTP` is the pointer `IngressRuleValue.HTTP`. -/
structure IngressRule where
  Host : String := ""
  HTTP : Option HTTPIngressRuleValue := none
  deriving DecidableEq, Repr

/-- `extv1beta1.Ingress`; `Backend` is the pointer `Spec.Backend`, `Rules` is
`Spec.Rules`. -/
structure Ingress where
  TypeMeta : TypeMeta := {}
  ObjectMeta : ObjectMeta := {}
  Backend : Option IngressBackend := none
  Rules : List IngressRule := []
  deriving DecidableEq, Repr

/-- `corev1.ServiceAccount`, reduced to metadata; the rest is an uninterpreted
payload. -/
structure ServiceAccount where
  TypeMeta : TypeMeta := {}
  ObjectMeta : ObjectMeta := {}
  Content : String := ""
  deriving DecidableEq, Repr

/-- `corev1.ObjectReference`. -/
structure ObjectReference where
  Kind : String := ""
  Namespace : String := ""
  Name : String := ""
  UID : String := ""
  APIVersion : String := ""
  ResourceVersion : String := ""
  FieldPath : String := ""
  deriving DecidableEq, Repr

/-- `corev1.Event`, reduced to metadata and the involved object; the rest is an
uninterpreted payload. -/
structure Event where
  TypeMeta : TypeMeta := {}
  ObjectMeta : ObjectMeta := {}
  InvolvedObject : ObjectReference := {}
  Content : String := ""
  deriving DecidableEq, Repr

/-! ### Label selectors (`k8s.io/apimachinery`) -/

/-- `metav1.LabelSelectorRequirement`; `Operator` is the string the API carries. -/
structure LabelSelectorRequirement where
  Key : String := ""
  Operator : String := ""
  Values : List String := []
  deriving DecidableEq, Repr

/-- `metav1.LabelSelector`. -/
structure LabelSelector where
  MatchLabels : List (String × String) := []
  MatchExpressions : List LabelSelectorRequirement := []
  deriving DecidableEq, Repr

/-- `selection.Operator`, the operators `LabelSelectorAsSelector` can produce. -/
inductive Operator where
  | Equals
  | In
  | NotIn
  | Exists
  | DoesNotExist
  deriving DecidableEq, Repr

/-- `labels.Requirement`. -/
structure Requirement where
  key : String
  operator : Operator
  strValues : List String
  deriving DecidableEq, Repr

/-- Values of the interface `labels.Selector`: the nil interface, `labels.Nothing()`,
and an `internalSelector` (a list of requirements; `labels.Everything()` is the empty
one). -/
inductive Selector where
  | nil
  | nothing
  | internal (requirements : List Requirement)
  deriving DecidableEq, Repr

/-- `strings.Split(s, sep)` for a one-character separator, on the characters of `s`. -/
def splitAt (sep : Char) : List Char → List (List Char)
  | [] => [[]]
  | ch :: rest =>
    match splitAt sep rest with
    | [] => [[]]
    | part :: parts => if ch = sep then [] :: part :: parts else (ch :: part) :: parts

/-- A character of `[A-Za-z0-9]`. -/
def isAlnum (ch : Char) : Bool :=
  ch.isAlphanum

/-- Match of `^([A-Za-z0-9][-A-Za-z0-9_.]*)?[A-Za-z0-9]$` (`qualifiedNameRegexp`): not
empty, first and last character alphanumeric, the others alphanumeric or one of
`-`, `_`, `.`. -/
def matchesQualifiedName (name : List Char) : Bool :=
  match name, name.getLast? with
  | first :: _, some last =>
    isAlnum first && isAlnum last &&
      name.all (fun ch => isAlnum ch || ch = '-' || ch = '_' || ch = '.')
  | _, _ => false

/-- A character of `[a-z0-9]`. -/
def isLowerAlnum (ch : Char) : Bool :=
  ch.isLower || ch.isDigit

/-- Match of `[a-z0-9]([-a-z0-9]*[a-z0-9])?` on a whole string (a DNS-1123 label). -/
def matchesDNS1123Label (label : List Char) : Bool :=
  match label, label.getLast? with
  | first :: _, some last =>
    isLowerAlnum first && isLowerAlnum last &&
      label.all (fun ch => isLowerAlnum ch || ch = '-')
  | _, _ => false

/-- `validation.IsDNS1123Subdomain(value)` reports no error: at most 253 bytes, and
dot-separated DNS-1123 labels. -/
def IsDNS1123Subdomain (value : List Char) : Bool :=
  decide ((String.mk value).utf8ByteSize ≤ 253) && (splitAt '.' value).all matchesDNS1123Label

/-- `validation.IsQualifiedName(value)` reports no error: an optional DNS subdomain and
a slash in front of a name of at most 63 bytes matching `qualifiedNameRegexp`. -/
def IsQualifiedName (value : String) : Bool :=
  match splitAt '/' value.toList with
  | [name] =>
    decide (0 < name.length) && decide ((String.mk name).utf8ByteSize ≤ 63) &&
      matchesQualifiedName name
  | [pre, name] =>
    decide (0 < pre.length) && IsDNS1123Subdomain pre &&
      decide (0 < name.length) && decide ((String.mk name).utf8ByteSize ≤ 63) &&
      matchesQualifiedName name
  | _ => false

/-- `validation.IsValidLabelValue(value)` reports no error: at most 63 bytes, and empty
or matching `qualifiedNameRegexp`. -/
def IsValidLabelValue (value : String) : Bool :=
  decide (value.utf8ByteSize ≤ 63) && (value.toList.isEmpty || matchesQualifiedName value.toList)

/-- `labels.NewRequirement`: the key must be a qualified name, the number of values must
fit the operator, and every value must be a valid label value. -/
def NewRequirement (key : String) (op : Operator) (vals : List String) :
    Except Error Requirement :=
  if !IsQualifiedName key then .error (.New ("invalid label key " ++ key))
  else if (match op with
      | .In | .NotIn => vals.length == 0
      | .Equals => vals.length != 1
      | .Exists | .DoesNotExist => vals.length != 0) then
    .error (.New "values set does not fit the operator")
  else if !vals.all IsValidLabelValue then .error (.New "invalid label value")
  else .ok ⟨key, op, vals⟩

/-- The first loop of `metav1.LabelSelectorAsSelector`: one `Equals` requirement per
match-label. -/
def requirementsOfLabels : List (String × String) → Except Error (List Requirement)
  | [] => .ok []
  | (k, v) :: rest =>
    match NewRequirement k .Equals [v] with
    | .error err => .error err
    | .ok r =>
      match requirementsOfLabels rest with
      | .error err => .error err
      | .ok rs => .ok (r :: rs)

/-- The second loop of `metav1.LabelSelectorAsSelector`: one requirement per
match-expression; an unknown operator is an error. -/
def requirementsOfExpressions : List LabelSelectorRequirement → Except Error (List Requirement)
  | [] => .ok []
  | expr :: rest =>
    match (if expr.Operator = "In" then some Operator.In
           else if expr.Operator = "NotIn" then some Operator.NotIn
           else if expr.Operator = "Exists" then some Operator.Exists
           else if expr.Operator = "DoesNotExist" then some Operator.DoesNotExist
           else none) with
    | none => .error (.New (expr.Operator ++ " is not a valid pod selector operator"))
    | some op =>
      match NewRequirement expr.Key op expr.Values with
      | .error err => .error err
      | .ok r =>
        match requirementsOfExpressions rest with
        | .error err => .error err
        | .ok rs => .ok (r :: rs)

/-- `metav1.LabelSelectorAsSelector`: a nil selector gives `labels.Nothing()`, one
without labels and expressions gives `labels.Everything()`, otherwise the requirements
of the labels and of the expressions (the library also sorts them by key, which no
result here depends on). Without error the selector is never the nil interface. -/
def LabelSelectorAsSelector (ps : Option LabelSelector) : Except Error Selector :=
  match ps with
  | none => .ok .nothing
  | some ps =>
    if ps.MatchLabels.length + ps.MatchExpressions.length == 0 then .ok (.internal [])
    else
      match requirementsOfLabels ps.MatchLabels with
      | .error err => .error err
      | .ok rs1 =>
        match requirementsOfExpressions ps.MatchExpressions with
        | .error err => .error err
        | .ok rs2 => .ok (.internal (rs1 ++ rs2))

/-- `labels.Set.Has`. -/
def Has (ls : List (String × String)) (label : String) : Bool :=
  (ls.lookup label).isSome

/-- `labels.Set.Get`. -/
def Get (ls : List (String × String)) (label : String) : String :=
  (ls.lookup label).getD ""

/-- `Requirement.Matches`. -/
def Requirement.Matches (r : Requirement) (ls : List (String × String)) : Bool :=
  match r.operator with
  | .In | .Equals => Has ls r.key && r.strValues.contains (Get ls r.key)
  | .NotIn => !Has ls r.key || !r.strValues.contains (Get ls r.key)
  | .Exists => Has ls r.key
  | .DoesNotExist => !Has ls r.key

/-- `Selector.Matches`: nothing matches `labels.Nothing()`; an internal selector matches
when every requirement does. (Calling it on the nil interface faults; callers here
test for nil first.) -/
def Selector.Matches (s : Selector) (ls : List (String × String)) : Bool :=
  match s with
  | .nil => false
  | .nothing => false
  | .internal rs => rs.all (fun r => r.Matches ls)

/-- `Selector.Empty`: false for `labels.Nothing()`, and for an internal selector
whether it has no requirement. -/
def Selector.Empty (s : Selector) : Bool :=
  match s with
  | .nil => false
  | .nothing => false
  | .internal rs => rs.isEmpty

/-! ## `internal/queryer/queryer.go` -/

/-- Result of a queryer operation: a value, a returned error, or a run-time fault
(nil pointer dereference) that unwinds the call. -/
inductive Outcome (α : Type) where
  | ok (v : α)
  | error (err : Error)
  | panic (msg : String)
  deriving DecidableEq, Repr

/-- `store.Store` as seen during one queryer call. `Get` may answer with no object and
no error. -/
structure Store where
  Get : Key → Except Error (Option Unstructured)
  List : Key → Except Error (List Unstructured)

/-- What the Go scheduler decides during `Children`: the order in which the
collector receives the objects sent by the tasks (`order`, task indices), and which of
the failed tasks reports its error to the errgroup first (`firstErr`). -/
structure Schedule where
  order : List Nat := []
  firstErr : Nat := 0
  deriving DecidableEq, Repr

/-- The collaborators of an `ObjectStoreQueryer` during one call: the object store,
the answer of `discoveryClient.ServerPreferredResources()` (entries are pointers and may
be nil), the scheduler, and the conversions from an unstructured object to a typed one
(`scheme.Scheme.Convert` for pods, `runtime.DefaultUnstructuredConverter.FromUnstructured`
for services, ingresses, service accounts and events), which may fail. -/
structure Env where
  objectStore : Store
  ServerPreferredResources : Except Error (List (Option APIResourceList))
  sched : Schedule := {}
  toPod : Unstructured → Except Error Pod :=
    fun u => .ok { TypeMeta := u.TypeMeta, ObjectMeta := u.ObjectMeta, Content := u.Content }
  toService : Unstructured → Except Error Service :=
    fun u => .ok { TypeMeta := u.TypeMeta, ObjectMeta := u.ObjectMeta, Content := u.Content }
  toIngress : Unstructured → Except Error Ingress :=
    fun u => .ok { TypeMeta := u.TypeMeta, ObjectMeta := u.ObjectMeta }
  toServiceAccount : Unstructured → Except Error ServiceAccount :=
    fun u => .ok { TypeMeta := u.TypeMeta, ObjectMeta := u.ObjectMeta, Content := u.Content }
  toEvent : Unstructured → Except Error Event :=
    fun u => .ok { TypeMeta := u.TypeMeta, ObjectMeta := u.ObjectMeta, Content := u.Content }

/-- Calls a queryer operation makes on its collaborators. -/
inductive StoreCall where
  | ServerPreferredResources
  | List (key : Key)
  | Get (key : Key)
  deriving DecidableEq, Repr

/-- The three caches of an `ObjectStoreQueryer`, each a Go map. -/
structure ObjectStoreQueryer where
  children : List (String × List Unstructured) := []
  podsForServices : List (String × List Pod) := []
  owner : List (Key × Option Unstructured) := []
  deriving DecidableEq, Repr

/-- One run of a queryer operation: what it returned, the caches afterwards, and the
calls it made on the store and on discovery. -/
structure QRun (α : Type) where
  result : Outcome α
  osq : ObjectStoreQueryer
  trace : List StoreCall

/-- `childrenCache.get`. -/
def childrenCache.get (c : List (String × List Unstructured)) (key : String) :
    Option (List Unstructured) :=
  c.lookup key

/-- `childrenCache.set`: `c.children[key] = value`. -/
def childrenCache.set (c : List (String × List Unstructured)) (key : String)
    (value : List Unstructured) : List (String × List Unstructured) :=
  (key, value) :: c.filter (fun kv => kv.1 != key)

/-- `ObjectStoreQueryer.canList` (queryer.go:256-259).  As written it is true when
`watch` or `list` is missing. -/
def canList (apiResource : APIResource) : Bool :=
  !dashstrings.Contains "watch" apiResource.Verbs ||
    !dashstrings.Contains "list" apiResource.Verbs

/-- Inner loop of `Children` (queryer.go:199-240) over the resources of one resource
list: the keys for which a task was started, in order, and the error of
`schema.ParseGroupVersion` if the loop returned on it. -/
def Children.scanResources (ownerNamespace groupVersion : String) :
    List APIResource → List Key × Option Error
  | [] => ([], none)
  | apiResource :: rest =>
    if !apiResource.Namespaced then
      Children.scanResources ownerNamespace groupVersion rest
    else
      match ParseGroupVersion groupVersion with
      | .error err => ([], some err)
      | .ok gv =>
        if gv.Group == "apps" && apiResource.Kind == "ReplicaSet" then
          Children.scanResources ownerNamespace groupVersion rest
        else if canList apiResource then
          Children.scanResources ownerNamespace groupVersion rest
        else
          let key : Key :=
            { Namespace := ownerNamespace, APIVersion := groupVersion, Kind := apiResource.Kind }
          let (keys, err) := Children.scanResources ownerNamespace groupVersion rest
          (key :: keys, err)

/-- Outer loop of `Children` (queryer.go:193-241) over the resource lists; nil entries
are skipped. -/
def Children.scanLists (ownerNamespace : String) :
    List (Option APIResourceList) → List Key × Option Error
  | [] => ([], none)
  | none :: rest => Children.scanLists ownerNamespace rest
  | some resourceList :: rest =>
    match Children.scanResources ownerNamespace resourceList.GroupVersion
        resourceList.APIResources with
    | (keys, some err) => (keys, some err)
    | (keys, none) =>
      let (keys2, err) := Children.scanLists ownerNamespace rest
      (keys ++ keys2, err)

/-- Rendering of a key in an error message (`%+v`). -/
def Key.format (key : Key) : String :=
  "Namespace:" ++ key.Namespace ++ " APIVersion:" ++ key.APIVersion ++ " Kind:" ++ key.Kind
    ++ " Name:" ++ key.Name

/-- The task started by `g.Go` for one key (queryer.go:226-239): list the key; on
failure return the wrapped error, otherwise send the objects controlled by the owner
to the channel, in listing order. -/
def Children.task (objectStore : Store) (owner : ObjectMeta) (key : Key) :
    Except Error (List Unstructured) :=
  match objectStore.List key with
  | .error err => .error (.Wrap err ("unable to retrieve " ++ key.format))
  | .ok objects => .ok (objects.filter (fun object => IsControlledBy object.ObjectMeta owner))

/-- `g.Wait()`: nil when no task failed, otherwise the error of the failed task that
reported first. -/
def Children.wait (sched : Schedule) (results : List (Except Error (List Unstructured))) :
    Option Error :=
  let errs := results.filterMap (fun r => match r with | .error err => some err | .ok _ => none)
  errs[sched.firstErr % errs.length]?

/-- Take the next object of the `i`-th task, if that task has one left to send. -/
def Children.receive {α : Type} : Nat → List (List α) → Option (α × List (List α))
  | _, [] => none
  | 0, [] :: _ => none
  | 0, (x :: q) :: qs => some (x, q :: qs)
  | i + 1, q :: qs =>
    match Children.receive i qs with
    | none => none
    | some (x, qs2) => some (x, q :: qs2)

/-- The collector goroutine (queryer.go:176-184): it appends the objects in the order
it receives them.  `order` names the task whose send is received next; when it is used
up the remaining sends arrive task by task. Every task keeps its own order. -/
def Children.collect {α : Type} : List Nat → List (List α) → List α
  | [], queues => queues.flatten
  | i :: order, queues =>
    match Children.receive i queues with
    | none => Children.collect order queues
    | some (x, queues2) => x :: Children.collect order queues2

/-- What a finished task sent to the channel. -/
def Children.sent (r : Except Error (List Unstructured)) : List Unstructured :=
  match r with
  | .ok objects => objects
  | .error _ => []

/-- `ObjectStoreQueryer.Children` (queryer.go:158-254).  The trace holds the discovery
call and one `List` per started task, in the order the tasks were started (they run
concurrently). A task started before the loop returns on a parse error still runs. -/
def ObjectStoreQueryer.Children (osq : ObjectStoreQueryer) (env : Env)
    (owner : Option ObjectMeta) : QRun (List Unstructured) :=
  match owner with
  | none => ⟨.error (.New "owner is nil"), osq, []⟩
  | some owner =>
    match childrenCache.get osq.children owner.UID with
    | some stored => ⟨.ok stored, osq, []⟩
    | none =>
      match env.ServerPreferredResources with
      | .error err => ⟨.error err, osq, [.ServerPreferredResources]⟩
      | .ok resourceLists =>
        match Children.scanLists owner.Namespace resourceLists with
        | (keys, some err) =>
          ⟨.error err, osq, .ServerPreferredResources :: keys.map .List⟩
        | (keys, none) =>
          let results := keys.map (Children.task env.objectStore owner)
          match Children.wait env.sched results with
          | some err =>
            ⟨.error (.Wrap err "find children"), osq,
              .ServerPreferredResources :: keys.map .List⟩
          | none =>
            let children := Children.collect env.sched.order (results.map Children.sent)
            ⟨.ok children,
              { osq with children := childrenCache.set osq.children owner.UID children },
              .ServerPreferredResources :: keys.map .List⟩

/-- The keys of the `List` calls in a trace, in order. -/
def listed (tr : List StoreCall) : List Key :=
  tr.filterMap (fun c => match c with | .List key => some key | _ => none)

/-- The objects a store listing returns for a key (none when the call fails). -/
def listing (objectStore : Store) (key : Key) : List Unstructured :=
  match objectStore.List key with
  | .ok objects => objects
  | .error _ => []

/-- The condition of the claim on a discovered resource, in the spec's words: the
resource is namespaced, its verbs contain both `list` and `watch`, and it is not kind
`ReplicaSet` in API group `apps` (the group being that of the list's group/version). -/
def Children.wanted (groupVersion : String) (apiResource : APIResource) : Bool :=
  apiResource.Namespaced &&
  ("list" ∈ apiResource.Verbs && "watch" ∈ apiResource.Verbs) &&
  !(match ParseGroupVersion groupVersion with
    | .ok gv => gv.Group == "apps" && apiResource.Kind == "ReplicaSet"
    | .error _ => false)

/-- The keys the claim expects `Children` to list: one per wanted resource of every
discovered resource list, in discovery order. -/
def Children.wantedKeys (ownerNamespace : String) (resourceLists : List (Option APIResourceList)) :
    List Key :=
  (resourceLists.filterMap id).flatMap (fun resourceList =>
    (resourceList.APIResources.filter (Children.wanted resourceList.GroupVersion)).map
      (fun apiResource =>
        { Namespace := ownerNamespace, APIVersion := resourceList.GroupVersion,
          Kind := apiResource.Kind }))

/-! ### Selectors of objects -/

/-- A workload whose `Spec.Selector` is a `*metav1.LabelSelector` (daemon set, stateful
set, replica set, deployment). -/
structure Workload where
  TypeMeta : TypeMeta := {}
  ObjectMeta : ObjectMeta := {}
  Selector : Option LabelSelector := none
  deriving DecidableEq, Repr

/-- A replication controller; `Selector` is the Go map `Spec.Selector`. -/
structure ReplicationController where
  TypeMeta : TypeMeta := {}
  ObjectMeta : ObjectMeta := {}
  Selector : List (String × String) := []
  deriving DecidableEq, Repr

/-- A cron job. -/
structure CronJob where
  TypeMeta : TypeMeta := {}
  ObjectMeta : ObjectMeta := {}
  deriving DecidableEq, Repr

/-- A `runtime.Object` by its dynamic type: the fifteen types of the switch in
`getSelector` (versioned ones first, then the internal ones of `k8s.io/kubernetes`), and
some of the others. -/
inductive Object where
  | appsv1DaemonSet (t : Workload)
  | appsv1StatefulSet (t : Workload)
  | batchv1beta1CronJob (t : CronJob)
  | corev1ReplicationController (t : ReplicationController)
  | v1beta1ReplicaSet (t : Workload)
  | appsv1ReplicaSet (t : Workload)
  | appsv1Deployment (t : Workload)
  | corev1Service (t : Service)
  | appsDaemonSet (t : Workload)
  | appsStatefulSet (t : Workload)
  | batchCronJob (t : CronJob)
  | coreReplicationController (t : ReplicationController)
  | appsReplicaSet (t : Workload)
  | appsDeployment (t : Workload)
  | coreService (t : Service)
  | corev1Pod (t : Pod)
  | unstructured (t : Unstructured)
  | other (typeName : String)
  deriving DecidableEq, Repr

/-- `ObjectStoreQueryer.getSelector` (queryer.go:562-609). -/
def getSelector (object : Object) : Except Error (Option LabelSelector) :=
  match object with
  | .appsv1DaemonSet t => .ok t.Selector
  | .appsv1StatefulSet t => .ok t.Selector
  | .batchv1beta1CronJob _ => .ok none
  | .corev1ReplicationController t => .ok (some { MatchLabels := t.Selector })
  | .v1beta1ReplicaSet t => .ok t.Selector
  | .appsv1ReplicaSet t => .ok t.Selector
  | .appsv1Deployment t => .ok t.Selector
  | .corev1Service t => .ok (some { MatchLabels := t.Selector })
  | .appsDaemonSet t => .ok t.Selector
  | .appsStatefulSet t => .ok t.Selector
  | .batchCronJob _ => .ok none
  | .coreReplicationController t => .ok (some { MatchLabels := t.Selector })
  | .appsReplicaSet t => .ok t.Selector
  | .appsDeployment t => .ok t.Selector
  | .coreService t => .ok (some { MatchLabels := t.Selector })
  | .corev1Pod _ => .error (.New "unable to retrieve selector for type *v1.Pod")
  | .unstructured _ =>
    .error (.New "unable to retrieve selector for type *unstructured.Unstructured")
  | .other typeName => .error (.New ("unable to retrieve selector for type " ++ typeName))

/-- What `copyObjectMeta` (queryer.go:621-639) writes on the object metadata of the
target: each of the sixteen setters, fed from the matching getter of the source. -/
def setObjectMeta (object : ObjectMeta) (src : Unstructured) : ObjectMeta :=
  { object with
    Namespace := src.ObjectMeta.Namespace
    Name := src.ObjectMeta.Name
    GenerateName := src.ObjectMeta.GenerateName
    UID := src.ObjectMeta.UID
    ResourceVersion := src.ObjectMeta.ResourceVersion
    Generation := src.ObjectMeta.Generation
    SelfLink := src.ObjectMeta.SelfLink
    CreationTimestamp := src.ObjectMeta.CreationTimestamp
    DeletionTimestamp := src.ObjectMeta.DeletionTimestamp
    DeletionGracePeriodSeconds := src.ObjectMeta.DeletionGracePeriodSeconds
    Labels := src.ObjectMeta.Labels
    Annotations := src.ObjectMeta.Annotations
    Initializers := src.ObjectMeta.Initializers
    OwnerReferences := src.ObjectMeta.OwnerReferences
    ClusterName := src.ObjectMeta.ClusterName
    Finalizers := src.ObjectMeta.Finalizers }

/-- What `copyObjectMeta` writes on the type metadata of the target (queryer.go:621-622):
the source's apiVersion, and the kind of `from.GetObjectKind().GroupVersionKind()`,
which is the source's kind when its apiVersion parses and empty otherwise. -/
def setTypeMeta (_t : TypeMeta) (src : Unstructured) : TypeMeta :=
  { APIVersion := src.TypeMeta.APIVersion,
    Kind := (match ParseGroupVersion src.TypeMeta.APIVersion with
      | .ok _ => src.TypeMeta.Kind
      | .error _ => "") }

/-- `copyObjectMeta(pod, from)`: a `*corev1.Pod` is a `metav1.Object`, so it cannot
fail. -/
def Pod.copyObjectMeta (target : Pod) (src : Unstructured) : Pod :=
  { target with TypeMeta := setTypeMeta target.TypeMeta src,
                ObjectMeta := setObjectMeta target.ObjectMeta src }

/-- `copyObjectMeta(svc, from)`: a `*corev1.Service` is a `metav1.Object`, so it cannot
fail. -/
def Service.copyObjectMeta (target : Service) (src : Unstructured) : Service :=
  { target with TypeMeta := setTypeMeta target.TypeMeta src,
                ObjectMeta := setObjectMeta target.ObjectMeta src }

/-- `extraKeys` (queryer.go:646-651); `appsv1.DefaultDeploymentUniqueLabelKey` is
`pod-template-hash`. -/
def extraKeys : List String :=
  ["statefulset.kubernetes.io/pod-name", "pod-template-hash", "controller-revision-hash",
   "pod-template-generation"]

/-- Go `delete(m, key)`. -/
def delete (m : List (String × String)) (key : String) : List (String × String) :=
  m.filter (fun kv => kv.1 != key)

/-- `apiequality.Semantic.DeepEqual` on two `map[string]string`: the same keys with the
same values (a nil map and an empty map are equal). -/
def mapDeepEqual (m1 m2 : List (String × String)) : Bool :=
  (m1.map (fun kv => kv.1) ++ m2.map (fun kv => kv.1)).all
    (fun k => m1.lookup k == m2.lookup k)

/-- `isEqualSelector` (queryer.go:653-663).  `none` is the nil pointer dereference of
`delete(s1Copy.MatchLabels, key)` when one of the selectors is nil (`DeepCopy` of nil is
nil).  The arguments themselves are not modified: the deletions are made on copies. -/
def isEqualSelector (s1 s2 : Option LabelSelector) : Option Bool :=
  match s1, s2 with
  | some s1, some s2 =>
    let s1Copy : LabelSelector := { s1 with MatchLabels := extraKeys.foldl delete s1.MatchLabels }
    let s2Copy : LabelSelector := { s2 with MatchLabels := extraKeys.foldl delete s2.MatchLabels }
    some (mapDeepEqual s1Copy.MatchLabels s2Copy.MatchLabels &&
      s1Copy.MatchExpressions == s2Copy.MatchExpressions)
  | _, _ => none

/-! ### Pods and services -/

/-- `podsForServicesCache.get`. -/
def podsForServicesCache.get (c : List (String × List Pod)) (key : String) :
    Option (List Pod) :=
  c.lookup key

/-- `podsForServicesCache.set`. -/
def podsForServicesCache.set (c : List (String × List Pod)) (key : String)
    (value : List Pod) : List (String × List Pod) :=
  (key, value) :: c.filter (fun kv => kv.1 != key)

/-- The loop of `loadPods` (queryer.go:423-445) over the listed objects. -/
def loadPods.loop (env : Env) (labelSelector : Option LabelSelector) :
    List Unstructured → Outcome (List Pod)
  | [] => .ok []
  | object :: rest =>
    match env.toPod object with
    | .error err => .error err
    | .ok converted =>
      let pod := converted.copyObjectMeta object
      let podSelector : LabelSelector := { MatchLabels := pod.ObjectMeta.Labels }
      match LabelSelectorAsSelector labelSelector with
      | .error err => .error err
      | .ok selector =>
        let keep : Outcome (List Pod) :=
          match loadPods.loop env labelSelector rest with
          | .ok list => .ok (pod :: list)
          | other => other
        if selector = .nil then keep
        else
          match isEqualSelector labelSelector (some podSelector) with
          | none => .panic "invalid memory address or nil pointer dereference"
          | some true => keep
          | some false =>
            if selector.Matches pod.ObjectMeta.Labels then keep
            else loadPods.loop env labelSelector rest

/-- `ObjectStoreQueryer.loadPods` (queryer.go:415-448). -/
def loadPods (env : Env) (key : Key) (labelSelector : Option LabelSelector) :
    Outcome (List Pod) :=
  match env.objectStore.List key with
  | .error err => .error err
  | .ok objects => loadPods.loop env labelSelector objects

/-- `ObjectStoreQueryer.PodsForService` (queryer.go:385-413). -/
def ObjectStoreQueryer.PodsForService (osq : ObjectStoreQueryer) (env : Env)
    (service : Option Service) : QRun (List Pod) :=
  match service with
  | none => ⟨.error (.New "nil service"), osq, []⟩
  | some service =>
    match podsForServicesCache.get osq.podsForServices service.ObjectMeta.UID with
    | some stored => ⟨.ok stored, osq, []⟩
    | none =>
      let key : Key := { Namespace := service.ObjectMeta.Namespace, APIVersion := "v1", Kind := "Pod" }
      match getSelector (.corev1Service service) with
      | .error err =>
        ⟨.error (.Wrap err ("creating pod selector for service: " ++ service.ObjectMeta.Name)),
          osq, []⟩
      | .ok selector =>
        match loadPods env key selector with
        | .error err =>
          ⟨.error (.Wrap err ("fetching pods for service: " ++ service.ObjectMeta.Name)), osq,
            [.List key]⟩
        | .panic msg => ⟨.panic msg, osq, [.List key]⟩
        | .ok pods =>
          ⟨.ok pods,
            { osq with podsForServices :=
                (podsForServicesCache.set osq.podsForServices service.ObjectMeta.UID pods) },
            [.List key]⟩

/-- The loop of `ServicesForPod` (queryer.go:501-523) over the listed objects. -/
def ServicesForPod.loop (env : Env) (pod : Pod) : List Unstructured → Outcome (List Service)
  | [] => .ok []
  | u :: rest =>
    match env.toService u with
    | .error err => .error (.Wrap err "converting unstructured service")
    | .ok converted =>
      let svc := converted.copyObjectMeta u
      match getSelector (.corev1Service svc) with
      | .error err =>
        .error (.Wrap err ("creating pod selector for service: " ++ svc.ObjectMeta.Name))
      | .ok labelSelector =>
        match LabelSelectorAsSelector labelSelector with
        | .error err => .error (.Wrap err "invalid selector")
        | .ok .nil => .panic "invalid memory address or nil pointer dereference"
        | .ok selector =>
          if selector.Empty || !selector.Matches pod.ObjectMeta.Labels then
            ServicesForPod.loop env pod rest
          else
            match ServicesForPod.loop env pod rest with
            | .ok results => .ok (svc :: results)
            | other => other

/-- `ObjectStoreQueryer.ServicesForPod` (queryer.go:486-525). It uses no cache. -/
def ObjectStoreQueryer.ServicesForPod (osq : ObjectStoreQueryer) (env : Env)
    (pod : Option Pod) : QRun (List Service) :=
  match pod with
  | none => ⟨.error (.New "nil pod"), osq, []⟩
  | some pod =>
    let key : Key := { Namespace := pod.ObjectMeta.Namespace, APIVersion := "v1", Kind := "Service" }
    match env.objectStore.List key with
    | .error err => ⟨.error (.Wrap err "retrieving services"), osq, [.List key]⟩
    | .ok ul => ⟨ServicesForPod.loop env pod ul, osq, [.List key]⟩

/-- The paths loop of `listIngressBackends` (queryer.go:351-356). -/
def listIngressBackends.paths : List HTTPIngressPath → List IngressBackend
  | [] => []
  | p :: rest =>
    if p.Backend.ServiceName = "" then listIngressBackends.paths rest
    else p.Backend :: listIngressBackends.paths rest

/-- The rules loop of `listIngressBackends` (queryer.go:347-357). -/
def listIngressBackends.rules : List IngressRule → List IngressBackend
  | [] => []
  | rule :: rest =>
    match rule.HTTP with
    | none => listIngressBackends.rules rest
    | some http => listIngressBackends.paths http.Paths ++ listIngressBackends.rules rest

/-- `ObjectStoreQueryer.listIngressBackends` (queryer.go:340-360). -/
def listIngressBackends (ingress : Ingress) : List IngressBackend :=
  (match ingress.Backend with
    | some backend => if backend.ServiceName ≠ "" then [backend] else []
    | none => []) ++ listIngressBackends.rules ingress.Rules

/-- The key `ServicesForIngress` gets a backend with (queryer.go:458-463). -/
def ServicesForIngress.key (ingress : Ingress) (backend : IngressBackend) : Key :=
  { Namespace := ingress.ObjectMeta.Namespace, APIVersion := "v1", Kind := "Service",
    Name := backend.ServiceName }

/-- The loop of `ServicesForIngress` (queryer.go:457-482) over the backends: the
outcome and the `Get` calls made. -/
def ServicesForIngress.loop (env : Env) (ingress : Ingress) :
    List IngressBackend → Outcome (List Service) × List StoreCall
  | [] => (.ok [], [])
  | backend :: rest =>
    let key := ServicesForIngress.key ingress backend
    match env.objectStore.Get key with
    | .error err =>
      (.error (.Wrap err ("retrieving service backend: " ++ backend.ServiceName)), [.Get key])
    | .ok none =>
      ((ServicesForIngress.loop env ingress rest).1,
        .Get key :: (ServicesForIngress.loop env ingress rest).2)
    | .ok (some u) =>
      match env.toService u with
      | .error err => (.error (.Wrap err "converting unstructured service"), [.Get key])
      | .ok converted =>
        ((match (ServicesForIngress.loop env ingress rest).1 with
          | .ok services => .ok (converted.copyObjectMeta u :: services)
          | other => other),
         .Get key :: (ServicesForIngress.loop env ingress rest).2)

/-- `ObjectStoreQueryer.ServicesForIngress` (queryer.go:450-484). It uses no cache. -/
def ObjectStoreQueryer.ServicesForIngress (osq : ObjectStoreQueryer) (env : Env)
    (ingress : Option Ingress) : QRun (List Service) :=
  match ingress with
  | none => ⟨.error (.New "ingress is nil"), osq, []⟩
  | some ingress =>
    ⟨(ServicesForIngress.loop env ingress (listIngressBackends ingress)).1, osq,
      (ServicesForIngress.loop env ingress (listIngressBackends ingress)).2⟩

/-! ### Specification-side readings -/

/-- The pods of a listing: each object converted and given the metadata of its
envelope (objects that do not convert are left out). -/
def listedPods (env : Env) (objects : List Unstructured) : List Pod :=
  objects.filterMap (fun object =>
    match env.toPod object with
    | .ok converted => some (converted.copyObjectMeta object)
    | .error _ => none)

/-- The services of a listing: each object converted and given the metadata of its
envelope (objects that do not convert are left out). -/
def listedServices (env : Env) (objects : List Unstructured) : List Service :=
  objects.filterMap (fun u =>
    match env.toService u with
    | .ok converted => some (converted.copyObjectMeta u)
    | .error _ => none)

/-- A flat selector matches a label set: every selector entry is a label with the
same value. -/
def matchLabels (selector labels : List (String × String)) : Bool :=
  selector.all (fun kv => labels.lookup kv.1 == some kv.2)

/-- The service a backend resolves to, if the store has an object for it that
converts. -/
def resolvedService (env : Env) (ingress : Ingress) (backend : IngressBackend) :
    Option Service :=
  match env.objectStore.Get (ServicesForIngress.key ingress backend) with
  | .ok (some u) =>
    (match env.toService u with
      | .ok converted => some (converted.copyObjectMeta u)
      | .error _ => none)
  | _ => none

/-! ### Ingresses, owners, events and service accounts -/

/-- `copyObjectMeta(ingress, from)`: a `*v1beta1.Ingress` is a `metav1.Object`, so it
cannot fail. -/
def Ingress.copyObjectMeta (target : Ingress) (src : Unstructured) : Ingress :=
  { target with TypeMeta := setTypeMeta target.TypeMeta src,
                ObjectMeta := setObjectMeta target.ObjectMeta src }

/-- `copyObjectMeta(serviceAccount, from)`: a `*corev1.ServiceAccount` is a
`metav1.Object`, so it cannot fail. -/
def ServiceAccount.copyObjectMeta (target : ServiceAccount) (src : Unstructured) :
    ServiceAccount :=
  { target with TypeMeta := setTypeMeta target.TypeMeta src,
                ObjectMeta := setObjectMeta target.ObjectMeta src }

/-- `containsBackend` (queryer.go:665-672). -/
def containsBackend : List IngressBackend → String → Bool
  | [], _ => false
  | item :: rest, s => if item.ServiceName = s then true else containsBackend rest s

/-- The loop of `IngressesForService` (queryer.go:321-336) over the listed objects. -/
def IngressesForService.loop (env : Env) (service : Service) :
    List Unstructured → Outcome (List Ingress)
  | [] => .ok []
  | u :: rest =>
    match env.toIngress u with
    | .error err => .error (.Wrap err "converting unstructured ingress")
    | .ok converted =>
      let ingress := converted.copyObjectMeta u
      let backends := listIngressBackends ingress
      if !containsBackend backends service.ObjectMeta.Name then
        IngressesForService.loop env service rest
      else
        match IngressesForService.loop env service rest with
        | .ok results => .ok (ingress :: results)
        | other => other

/-- `ObjectStoreQueryer.IngressesForService` (queryer.go:304-338). It uses no cache. -/
def ObjectStoreQueryer.IngressesForService (osq : ObjectStoreQueryer) (env : Env)
    (service : Option Service) : QRun (List Ingress) :=
  match service with
  | none => ⟨.error (.New "nil service"), osq, []⟩
  | some service =>
    let key : Key :=
      { Namespace := service.ObjectMeta.Namespace, APIVersion := "extensions/v1beta1",
        Kind := "Ingress" }
    match env.objectStore.List key with
    | .error err => ⟨.error (.Wrap err "retrieving ingresses"), osq, [.List key]⟩
    | .ok ul => ⟨IngressesForService.loop env service ul, osq, [.List key]⟩

/-- `ownerCache.get`. A cached value is an interface that holds a `*Unstructured`,
possibly the nil pointer (`none`). -/
def ownerCache.get (c : List (Key × Option Unstructured)) (key : Key) :
    Option (Option Unstructured) :=
  c.lookup key

/-- `ownerCache.set` (queryer.go:89-98). `value` is a `runtime.Object` interface:
`none` is the nil interface, which is not stored; `some none` is an interface holding
a nil `*Unstructured`, which is not `== nil` and is stored like any object. -/
def ownerCache.set (c : List (Key × Option Unstructured)) (key : Key)
    (value : Option (Option Unstructured)) : List (Key × Option Unstructured) :=
  match value with
  | none => c
  | some object => (key, object) :: c.filter (fun kv => kv.1 != key)

/-- The key `OwnerReference` builds (queryer.go:363-368). -/
def OwnerReference.key (ns : String) (ownerReference : OwnerReference) : Key :=
  { Namespace := ns, APIVersion := ownerReference.APIVersion, Kind := ownerReference.Kind,
    Name := ownerReference.Name }

/-- `ObjectStoreQueryer.OwnerReference` (queryer.go:362-383). The result is the
`runtime.Object` returned: `none` when it holds the nil pointer the store answered
with. The pointer returned by `Get` always becomes a non-nil interface on the way into
`ownerCache.set`. -/
def ObjectStoreQueryer.OwnerReference (osq : ObjectStoreQueryer) (env : Env) (ns : String)
    (ownerReference : OwnerReference) : QRun (Option Unstructured) :=
  let key := OwnerReference.key ns ownerReference
  match ownerCache.get osq.owner key with
  | some object => ⟨.ok object, osq, []⟩
  | none =>
    match env.objectStore.Get key with
    | .error err => ⟨.error (.Wrap err "get owner from store"), osq, [.Get key]⟩
    | .ok owner =>
      ⟨.ok owner, { osq with owner := (ownerCache.set osq.owner key (some owner)) },
        [.Get key]⟩

/-- `errors.Cause`: the innermost error under the wrappers. -/
def Error.Cause : Error → Error
  | .Wrap cause _ => cause.Cause
  | err => err

/-- `runtime.DefaultUnstructuredConverter.ToUnstructured` on the pointer behind a
`metav1.Object`.  An object is represented by its unstructured content, so the
conversion of an object is that content; a nil pointer to a typed object is refused.
(A nil `*unstructured.Unstructured` takes the other branch of the converter and is not
represented here.) -/
def ToUnstructured (obj : Option Unstructured) : Except Error Unstructured :=
  match obj with
  | none => .error (.New "ToUnstructured requires a non-nil pointer to an object")
  | some object => .ok object

/-- The loop of `Events` (queryer.go:285-299) over the listed objects; `u` is the
unstructured form of the object asked about. -/
def Events.loop (env : Env) (u : Unstructured) : List Unstructured → Outcome (List Event)
  | [] => .ok []
  | unstructuredEvent :: rest =>
    match env.toEvent unstructuredEvent with
    | .error err => .error err
    | .ok event =>
      let involvedObject := event.InvolvedObject
      if involvedObject.Namespace = u.ObjectMeta.Namespace ∧
          involvedObject.APIVersion = u.TypeMeta.APIVersion ∧
          involvedObject.Kind = u.TypeMeta.Kind ∧
          involvedObject.Name = u.ObjectMeta.Name then
        match Events.loop env u rest with
        | .ok events => .ok (event :: events)
        | other => other
      else Events.loop env u rest

/-- `ObjectStoreQueryer.Events` (queryer.go:261-302). The argument is a
`metav1.Object` interface: `none` is the nil interface, `some none` holds a nil pointer,
`some (some object)` holds an object. It uses no cache. -/
def ObjectStoreQueryer.Events (osq : ObjectStoreQueryer) (env : Env)
    (object : Option (Option Unstructured)) : QRun (List Event) :=
  match object with
  | none => ⟨.error (.New "object is nil"), osq, []⟩
  | some obj =>
    match ToUnstructured obj with
    | .error err => ⟨.error err, osq, []⟩
    | .ok u =>
      let key : Key := { Namespace := u.ObjectMeta.Namespace, APIVersion := "v1", Kind := "Event" }
      match env.objectStore.List key with
      | .error err => ⟨.error err, osq, [.List key]⟩
      | .ok allEvents => ⟨Events.loop env u allEvents, osq, [.List key]⟩

/-- The key `ServiceAccountForPod` gets the service account with (queryer.go:536-541). -/
def ServiceAccountForPod.key (pod : Pod) : Key :=
  { Namespace := pod.ObjectMeta.Namespace, APIVersion := "v1", Kind := "ServiceAccount",
    Name := pod.ServiceAccountName }

/-- `ObjectStoreQueryer.ServiceAccountForPod` (queryer.go:527-560). `.ok none` is the
result `nil, nil`. When the store answers with no object and no error, `u.Object`
dereferences the nil pointer. -/
def ObjectStoreQueryer.ServiceAccountForPod (osq : ObjectStoreQueryer) (env : Env)
    (pod : Option Pod) : QRun (Option ServiceAccount) :=
  match pod with
  | none => ⟨.error (.New "pod is nil"), osq, []⟩
  | some pod =>
    if pod.ServiceAccountName = "" then ⟨.ok none, osq, []⟩
    else
      let key := ServiceAccountForPod.key pod
      match env.objectStore.Get key with
      | .error err =>
        ⟨.error (.Wrap err ("retrieve service account " ++ key.Namespace ++
            " from namespace " ++ key.Namespace)), osq, [.Get key]⟩
      | .ok none =>
        ⟨.panic "invalid memory address or nil pointer dereference", osq, [.Get key]⟩
      | .ok (some u) =>
        match env.toServiceAccount u with
        | .error err =>
          ⟨.error (.Wrap err "converting unstructured object to service account"), osq,
            [.Get key]⟩
        | .ok converted => ⟨.ok (some (converted.copyObjectMeta u)), osq, [.Get key]⟩

/-- A typed API object as a target of `copyObjectMeta`: type metadata, object metadata
and the rest of the object. -/
structure TypedObject where
  TypeMeta : TypeMeta := {}
  ObjectMeta : ObjectMeta := {}
  Content : String := ""
  deriving DecidableEq, Repr

/-- The dynamic type of the `to interface{}` argument of `copyObjectMeta`: a typed API
object (a `runtime.Object` with metadata, such as `*corev1.Pod`); a bare
`*metav1.ObjectMeta`, which is a `metav1.Object` without type metadata; or a value that
is no `metav1.Object` at all. -/
inductive Target where
  | typed (object : TypedObject)
  | objectMeta (object : ObjectMeta)
  | other (typeName : String)
  deriving DecidableEq, Repr

/-- `copyObjectMeta` (queryer.go:611-642): the target as the call leaves it, or the
error returned. `meta.TypeAccessor` refuses a struct without embedded `TypeMeta`. -/
def copyObjectMeta (target : Target) (src : Unstructured) : Except Error Target :=
  match target with
  | .other typeName => .error (.New (typeName ++ " is not an object"))
  | .objectMeta _ =>
    .error (.Wrap (.New "struct v1.ObjectMeta lacks embedded TypeMeta type")
      "accessing type meta")
  | .typed object =>
    .ok (.typed { object with TypeMeta := setTypeMeta object.TypeMeta src,
                              ObjectMeta := setObjectMeta object.ObjectMeta src })

/-! ### Specification-side readings, continued -/

/-- The backends the claim expects of an ingress: the default backend when it is present
with a non-empty service name, then the HTTP path backends with a non-empty service name
of every rule, in rule and path order. -/
def expectedBackends (ingress : Ingress) : List IngressBackend :=
  (ingress.Backend.toList.filter (fun backend => backend.ServiceName ≠ "")) ++
    ingress.Rules.flatMap (fun rule =>
      match rule.HTTP with
      | none => []
      | some http =>
        (http.Paths.map (fun p => p.Backend)).filter (fun backend => backend.ServiceName ≠ ""))

/-- The ingresses of a listing: each object converted and given the metadata of its
envelope (objects that do not convert are left out). -/
def listedIngresses (env : Env) (objects : List Unstructured) : List Ingress :=
  objects.filterMap (fun u =>
    match env.toIngress u with
    | .ok converted => some (converted.copyObjectMeta u)
    | .error _ => none)

/-- The events of a listing: each object converted (objects that do not convert are
left out). -/
def listedEvents (env : Env) (objects : List Unstructured) : List Event :=
  objects.filterMap (fun u =>
    match env.toEvent u with
    | .ok event => some event
    | .error _ => none)

/-- The object's dynamic type is one of the fifteen cases of the switch in
`getSelector`. -/
def Object.inSelectorSwitch : Object → Bool
  | .corev1Pod _ => false
  | .unstructured _ => false
  | .other _ => false
  | _ => true

/-- The eleven envelope fields of the claim agree between object metadata and a source
record. -/
def sameEnvelope (object : ObjectMeta) (src : Unstructured) : Prop :=
  object.Namespace = src.ObjectMeta.Namespace ∧
  object.Name = src.ObjectMeta.Name ∧
  object.UID = src.ObjectMeta.UID ∧
  object.ResourceVersion = src.ObjectMeta.ResourceVersion ∧
  object.Generation = src.ObjectMeta.Generation ∧
  object.Labels = src.ObjectMeta.Labels ∧
  object.Annotations = src.ObjectMeta.Annotations ∧
  object.OwnerReferences = src.ObjectMeta.OwnerReferences ∧
  object.CreationTimestamp = src.ObjectMeta.CreationTimestamp ∧
  object.DeletionTimestamp = src.ObjectMeta.DeletionTimestamp ∧
  object.Finalizers = src.ObjectMeta.Finalizers

/-! ### `isEqualSelector`: specification and memory -/

/-- A selector after the four controller-injected keys have been removed from its
match-labels. -/
def withoutExtraKeys (s : LabelSelector) : LabelSelector :=
  { s with MatchLabels := s.MatchLabels.filter (fun kv => !extraKeys.contains kv.1) }

/-- Deep (semantic) equality of two selectors: the match-labels are the same map (every
key has the same value, or none, in both) and the match-expressions are equal. -/
def LabelSelector.deepEqual (a b : LabelSelector) : Prop :=
  (∀ k, a.MatchLabels.lookup k = b.MatchLabels.lookup k) ∧
    a.MatchExpressions = b.MatchExpressions

/-- Go `m[key] = value`. -/
def assign (m : List (String × String)) (key value : String) : List (String × String) :=
  (key, value) :: delete m key

/-- The Go heap as far as maps are concerned: a `map[string]string` value is a reference
to a cell; `next` is the address the next `make` returns. -/
structure MapHeap where
  cells : Nat → List (String × String)
  next : Nat

/-- A `LabelSelector` in memory: `MatchLabels` is nil or the address of a map. -/
structure LabelSelectorPtr where
  MatchLabels : Option Nat := none
  MatchExpressions : List LabelSelectorRequirement := []
  deriving DecidableEq, Repr

/-- The entries of the map behind a reference (a nil map has none). -/
def heapLoad (h : MapHeap) (ref : Option Nat) : List (String × String) :=
  match ref with
  | none => []
  | some a => h.cells a

/-- The value of a selector in memory. -/
def LabelSelectorPtr.load (p : LabelSelectorPtr) (h : MapHeap) : LabelSelector :=
  { MatchLabels := heapLoad h p.MatchLabels, MatchExpressions := p.MatchExpressions }

/-- `(*LabelSelector).DeepCopy`: a nil map stays nil, otherwise a new map is made and
filled with the entries of the old one; the match-expressions are copied. -/
def LabelSelectorPtr.DeepCopy (p : LabelSelectorPtr) (h : MapHeap) :
    MapHeap × LabelSelectorPtr :=
  match p.MatchLabels with
  | none => (h, p)
  | some a =>
    ({ cells := Function.update h.cells h.next (h.cells a), next := h.next + 1 },
     { p with MatchLabels := some h.next })

/-- Go `delete(m, key)` on the map behind a reference; a no-op on a nil map. -/
def heapDelete (h : MapHeap) (ref : Option Nat) (key : String) : MapHeap :=
  match ref with
  | none => h
  | some a => { h with cells := Function.update h.cells a (delete (h.cells a) key) }

/-- `isEqualSelector` (queryer.go:653-663) on two non-nil selectors in memory: the
result and the heap the call leaves behind. -/
def isEqualSelector.onHeap (h : MapHeap) (s1 s2 : LabelSelectorPtr) : Bool × MapHeap :=
  let c1 := s1.DeepCopy h
  let c2 := s2.DeepCopy c1.1
  let h3 := extraKeys.foldl
    (fun hp key => heapDelete (heapDelete hp c1.2.MatchLabels key) c2.2.MatchLabels key) c2.1
  (mapDeepEqual (heapLoad h3 c1.2.MatchLabels) (heapLoad h3 c2.2.MatchLabels) &&
      c1.2.MatchExpressions == c2.2.MatchExpressions, h3)

/-! ### Sequences of operations -/

/-- One call of a resolver operation, with its arguments and with what the
collaborators answer during that call. -/
inductive Op where
  | Children (env : Env) (owner : Option ObjectMeta)
  | Events (env : Env) (object : Option (Option Unstructured))
  | IngressesForService (env : Env) (service : Option Service)
  | OwnerReference (env : Env) (ns : String) (ownerReference : Octant.OwnerReference)
  | PodsForService (env : Env) (service : Option Service)
  | ServicesForIngress (env : Env) (ingress : Option Ingress)
  | ServicesForPod (env : Env) (pod : Option Pod)
  | ServiceAccountForPod (env : Env) (pod : Option Pod)

/-- The caches of the resolver after one operation. -/
def ObjectStoreQueryer.step (osq : ObjectStoreQueryer) : Op → ObjectStoreQueryer
  | .Children env owner => (osq.Children env owner).osq
  | .Events env object => (osq.Events env object).osq
  | .IngressesForService env service => (osq.IngressesForService env service).osq
  | .OwnerReference env ns ownerReference => (osq.OwnerReference env ns ownerReference).osq
  | .PodsForService env service => (osq.PodsForService env service).osq
  | .ServicesForIngress env ingress => (osq.ServicesForIngress env ingress).osq
  | .ServicesForPod env pod => (osq.ServicesForPod env pod).osq
  | .ServiceAccountForPod env pod => (osq.ServiceAccountForPod env pod).osq

/-- The caches of the resolver after a sequence of operations, run one after the
other. -/
def ObjectStoreQueryer.run (osq : ObjectStoreQueryer) (ops : List Op) : ObjectStoreQueryer :=
  ops.foldl ObjectStoreQueryer.step osq

/-- Every entry of the three caches of `a` is in the caches of `b` with the same
value. -/
def cachesKept (a b : ObjectStoreQueryer) : Prop :=
  (∀ uid children, childrenCache.get a.children uid = some children →
    childrenCache.get b.children uid = some children) ∧
  (∀ uid pods, podsForServicesCache.get a.podsForServices uid = some pods →
    podsForServicesCache.get b.podsForServices uid = some pods) ∧
  (∀ key object, ownerCache.get a.owner key = some object →
    ownerCache.get b.owner key = some object)


/-! ## `internal/api/middleware.go` -/

/-- Index of the last occurrence of a character (`last(hostport, ':')` of package
`net`); `none` is the result `-1`. -/
def lastIndex (c : Char) : List Char → Option Nat
  | [] => none
  | x :: xs =>
    match lastIndex c xs with
    | some i => some (i + 1)
    | none => if x = c then some 0 else none

/-- Index of the first occurrence of a character (`bytealg.IndexByteString`); `none` is
the result `-1`. -/
def firstIndex (c : Char) : List Char → Option Nat
  | [] => none
  | x :: xs =>
    if x = c then some 0
    else
      match firstIndex c xs with
      | some i => some (i + 1)
      | none => none

/-- The end of `net.SplitHostPort`: no `[` from position `j` on, no `]` from position
`k` on, and the port is what follows the last colon (at `i`). -/
def SplitHostPort.finish (s : List Char) (j k i : Nat) (host : List Char) :
    Except Error (String × String) :=
  if '[' ∈ s.drop j then .error (.New "unexpected '[' in address")
  else if ']' ∈ s.drop k then .error (.New "unexpected ']' in address")
  else .ok (String.mk host, String.mk (s.drop (i + 1)))

/-- `net.SplitHostPort` of the Go standard library, on the characters of the address
(the characters it looks for are ASCII, so character and byte positions select the same
pieces). The port starts after the last colon; a host in brackets must end right before
that colon and is returned without the brackets; a host without brackets must not
contain a colon. -/
def SplitHostPort (hostport : String) : Except Error (String × String) :=
  let s := hostport.toList
  match lastIndex ':' s with
  | none => .error (.New "missing port in address")
  | some i =>
    if s.head? = some '[' then
      match firstIndex ']' s with
      | none => .error (.New "missing ']' in address")
      | some e =>
        if e + 1 = s.length then .error (.New "missing port in address")
        else if e + 1 = i then SplitHostPort.finish s 1 (e + 1) i ((s.take e).drop 1)
        else if s.get? (e + 1) = some ':' then .error (.New "too many colons in address")
        else .error (.New "missing port in address")
    else
      if ':' ∈ s.take i then .error (.New "too many colons in address")
      else SplitHostPort.finish s 0 0 i (s.take i)

/-- `http.Request`, reduced to the field the middleware reads. -/
structure Request where
  Host : String := ""
  Path : String := ""
  deriving DecidableEq, Repr

/-- What has been written to the `http.ResponseWriter`: status code and body. -/
structure Response where
  status : Nat
  body : String
  deriving DecidableEq, Repr

/-- One request through the middleware: the response, and how often the wrapped
handler's `ServeHTTP` was called. -/
structure Served where
  response : Response
  calls : Nat
  deriving DecidableEq, Repr

/-- `http.Error(w, msg, code)`: the status code and the message followed by a newline. -/
def httpError (msg : String) (code : Nat) : Response :=
  { status := code, body := msg ++ "\n" }

/-- The handler `rebindHandler(acceptedHosts)(h)` (middleware.go:17-42) serving the
request `r`; the wrapped handler `h` is given by the response it writes. -/
def rebindHandler (acceptedHosts : List String) (h : Request → Response) (r : Request) :
    Served :=
  let split : String × Option Error :=
    if ':' ∈ r.Host.toList then
      match SplitHostPort r.Host with
      | .ok (host, _) => (host, none)
      | .error err => ("", some err)
    else (r.Host, none)
  match split with
  | (_, some _) => ⟨httpError "bad request" 400, 0⟩
  | (host, none) =>
    if !dashstrings.Contains host acceptedHosts then ⟨httpError "forbidden" 403, 0⟩
    else ⟨h r, 1⟩

/-- The request's Host with any port removed: the Host itself when it has no colon,
otherwise the host part of its split into host and port, when it can be split. -/
def hostWithoutPort (hostHeader : String) : Option String :=
  if ':' ∈ hostHeader.toList then
    match SplitHostPort hostHeader with
    | .ok (host, _) => some host
    | .error _ => none
  else some hostHeader

/-! ### Sample objects -/

/-- An owner: the replica set `web` in namespace `default`. -/
def exOwner : ObjectMeta := { Namespace := "default", Name := "web", UID := "uid-web" }

/-- A pod controlled by `exOwner`. -/
def exChild : Unstructured :=
  { TypeMeta := ⟨"v1", "Pod"⟩,
    ObjectMeta :=
      { Namespace := "default", Name := "web-1", UID := "uid-web-1",
        OwnerReferences :=
          [{ APIVersion := "extensions/v1beta1", Kind := "ReplicaSet", Name := "web",
             UID := "uid-web", Controller := some true }] } }

/-- A pod nobody controls. -/
def exStranger : Unstructured :=
  { TypeMeta := ⟨"v1", "Pod"⟩,
    ObjectMeta := { Namespace := "default", Name := "lonely", UID := "uid-lonely" } }

/-- The discovered resource `pods`. -/
def podResource : APIResource :=
  { Name := "pods", Namespaced := true, Kind := "Pod", Verbs := ["get", "list", "watch"] }

/-- The discovered resource `nodes` (cluster scoped). -/
def nodeResource : APIResource :=
  { Name := "nodes", Namespaced := false, Kind := "Node", Verbs := ["get", "list", "watch"] }

/-- The discovered resource `replicasets`. -/
def replicaSetResource : APIResource :=
  { Name := "replicasets", Namespaced := true, Kind := "ReplicaSet",
    Verbs := ["get", "list", "watch"] }

/-- A discovery answer with `ReplicaSet` both in `apps/v1` and in `extensions/v1beta1`. -/
def exDiscovery : List (Option APIResourceList) :=
  [some ⟨"v1", [podResource, nodeResource]⟩, none,
   some ⟨"apps/v1", [replicaSetResource]⟩,
   some ⟨"extensions/v1beta1", [replicaSetResource]⟩]

/-- A store whose pod listing holds `exChild` and `exStranger` and whose other listings
are empty. -/
def exStore : Store where
  Get := fun _ => .ok none
  List := fun key => if key.Kind = "Pod" then .ok [exChild, exStranger] else .ok []

/-- The sample environment. -/
def exEnv : Env := { objectStore := exStore, ServerPreferredResources := .ok exDiscovery }

/-- A discovery answer whose only resource list has a group/version string with two
slashes. -/
def badDiscovery : List (Option APIResourceList) :=
  [some ⟨"apps/v1/beta", [podResource]⟩]

/-- The sample store behind `badDiscovery`. -/
def badEnv : Env := { objectStore := exStore, ServerPreferredResources := .ok badDiscovery }

/-- A store whose pod listing fails while every other listing succeeds. -/
def failingStore : Store where
  Get := fun _ => .ok none
  List := fun key => if key.Kind = "Pod" then .error (.New "connection refused") else .ok []

/-- The sample discovery in front of `failingStore`. -/
def failingEnv : Env :=
  { objectStore := failingStore, ServerPreferredResources := .ok exDiscovery }

/-- A sample conversion to a service: the payload `key=value` is read as the selector
with that one entry, any other payload as no selector. -/
def decodeService (u : Unstructured) : Except Error Service :=
  .ok { TypeMeta := u.TypeMeta, ObjectMeta := u.ObjectMeta, Content := u.Content,
        Selector :=
          (match splitAt '=' u.Content.toList with
            | [k, v] => [(String.mk k, String.mk v)]
            | _ => []) }

/-- The pod `web-1`, labelled `app=web` and with a pod template hash. -/
def podWeb : Unstructured :=
  { TypeMeta := ⟨"v1", "Pod"⟩,
    ObjectMeta :=
      { Namespace := "default", Name := "web-1", UID := "uid-web-1",
        Labels := [("app", "web"), ("pod-template-hash", "6d4cf56db6")] } }

/-- The pod `db-1`, labelled `app=db`. -/
def podDb : Unstructured :=
  { TypeMeta := ⟨"v1", "Pod"⟩,
    ObjectMeta := { Namespace := "default", Name := "db-1", UID := "uid-db-1",
                    Labels := [("app", "db")] } }

/-- The service `svc-a` selecting `app=web`, as stored. -/
def svcA : Unstructured :=
  { TypeMeta := ⟨"v1", "Service"⟩,
    ObjectMeta := { Namespace := "default", Name := "svc-a", UID := "uid-svc-a" },
    Content := "app=web" }

/-- The service `headless` without selector, as stored. -/
def svcNoSelector : Unstructured :=
  { TypeMeta := ⟨"v1", "Service"⟩,
    ObjectMeta := { Namespace := "default", Name := "headless", UID := "uid-headless" },
    Content := "" }

/-- The service `broken` whose selector has an empty key, as stored. -/
def svcBadSelector : Unstructured :=
  { TypeMeta := ⟨"v1", "Service"⟩,
    ObjectMeta := { Namespace := "default", Name := "broken", UID := "uid-broken" },
    Content := "=web" }

/-- A store with two pods and two services; `svc-a` is the only object `Get` finds. -/
def sampleStore : Store where
  Get := fun key => if key.Name = "svc-a" then .ok (some svcA) else .ok none
  List := fun key =>
    if key.Kind = "Pod" then .ok [podWeb, podDb]
    else if key.Kind = "Service" then .ok [svcA, svcNoSelector]
    else .ok []

/-- The sample environment for pods and services. -/
def sampleEnv : Env :=
  { objectStore := sampleStore, ServerPreferredResources := .ok exDiscovery,
    toService := decodeService }

/-- As `sampleStore`, but the service listing also holds `broken`, and `Get` fails
with a not-found error for every name but `svc-a`. -/
def strictStore : Store where
  Get := fun key => if key.Name = "svc-a" then .ok (some svcA) else .error (.NotFound key.Name)
  List := fun key =>
    if key.Kind = "Pod" then .ok [podWeb, podDb]
    else if key.Kind = "Service" then .ok [svcA, svcBadSelector]
    else .ok []

/-- The environment over `strictStore`. -/
def strictEnv : Env :=
  { objectStore := strictStore, ServerPreferredResources := .ok exDiscovery,
    toService := decodeService }

/-- The typed service `svc-a`. -/
def serviceA : Service :=
  { TypeMeta := ⟨"v1", "Service"⟩,
    ObjectMeta := { Namespace := "default", Name := "svc-a", UID := "uid-svc-a" },
    Selector := [("app", "web")], Content := "app=web" }

/-- A typed service without selector. -/
def serviceNoSelector : Service :=
  { TypeMeta := ⟨"v1", "Service"⟩,
    ObjectMeta := { Namespace := "default", Name := "headless", UID := "uid-headless" } }

/-- A typed service whose selector has an empty key. -/
def serviceBadSelector : Service :=
  { TypeMeta := ⟨"v1", "Service"⟩,
    ObjectMeta := { Namespace := "default", Name := "broken", UID := "uid-broken" },
    Selector := [("", "web")], Content := "=web" }

/-- The typed pod `web-1`. -/
def typedPodWeb : Pod :=
  { TypeMeta := ⟨"v1", "Pod"⟩, ObjectMeta := podWeb.ObjectMeta }

/-- An ingress with default backend `svc-a` and one rule whose only path goes to
`svc-b`. -/
def sampleIngress : Ingress :=
  { TypeMeta := ⟨"extensions/v1beta1", "Ingress"⟩,
    ObjectMeta := { Namespace := "default", Name := "front", UID := "uid-front" },
    Backend := some { ServiceName := "svc-a", ServicePort := "80" },
    Rules := [{ Host := "example.org",
                HTTP := some { Paths := [{ Path := "/b",
                                           Backend := { ServiceName := "svc-b",
                                                        ServicePort := "80" } }] } }] }

/-- The sample ingress as stored: the payload names its backends. -/
def storedIngress : Unstructured :=
  { TypeMeta := ⟨"extensions/v1beta1", "Ingress"⟩,
    ObjectMeta := { Namespace := "default", Name := "front", UID := "uid-front" },
    Content := "svc-a,svc-b" }

/-- An ingress without any backend, as stored. -/
def storedEmptyIngress : Unstructured :=
  { TypeMeta := ⟨"extensions/v1beta1", "Ingress"⟩,
    ObjectMeta := { Namespace := "default", Name := "empty", UID := "uid-empty" } }

/-- A sample conversion to an ingress: the payload `svc-a,svc-b` is read as the spec of
`sampleIngress`, any other payload as an empty spec. -/
def decodeIngress (u : Unstructured) : Except Error Ingress :=
  .ok { TypeMeta := u.TypeMeta, ObjectMeta := u.ObjectMeta,
        Backend := if u.Content = "svc-a,svc-b" then sampleIngress.Backend else none,
        Rules := if u.Content = "svc-a,svc-b" then sampleIngress.Rules else [] }

/-- A store whose ingress listing holds `front` and `empty`. -/
def ingressStore : Store where
  Get := fun _ => .ok none
  List := fun key => if key.Kind = "Ingress" then .ok [storedIngress, storedEmptyIngress] else .ok []

/-- The environment over `ingressStore`. -/
def ingressEnv : Env :=
  { objectStore := ingressStore, ServerPreferredResources := .ok exDiscovery,
    toIngress := decodeIngress }

/-- A typed service named `svc-b`. -/
def serviceB : Service :=
  { TypeMeta := ⟨"v1", "Service"⟩,
    ObjectMeta := { Namespace := "default", Name := "svc-b", UID := "uid-svc-b" } }

/-- The pod `job-1`, which names the service account `builder`. -/
def builderPod : Pod :=
  { TypeMeta := ⟨"v1", "Pod"⟩,
    ObjectMeta := { Namespace := "default", Name := "job-1", UID := "uid-job-1" },
    ServiceAccountName := "builder" }

/-- The replica set `web`, as stored. -/
def storedOwner : Unstructured :=
  { TypeMeta := ⟨"extensions/v1beta1", "ReplicaSet"⟩, ObjectMeta := exOwner }

/-- The owner reference of `exChild` to the replica set `web`. -/
def webReference : OwnerReference :=
  { APIVersion := "extensions/v1beta1", Kind := "ReplicaSet", Name := "web", UID := "uid-web",
    Controller := some true }

/-- A store that has the replica set `web` and fails as not found for every other
name. -/
def ownerStore : Store where
  Get := fun key => if key.Name = "web" then .ok (some storedOwner) else .error (.NotFound key.Name)
  List := fun _ => .ok []

/-- The environment over `ownerStore`. -/
def ownerEnv : Env := { objectStore := ownerStore, ServerPreferredResources := .ok exDiscovery }

/-- A stored event about the pod named by the payload. -/
def storedEvent (name about : String) : Unstructured :=
  { TypeMeta := ⟨"v1", "Event"⟩,
    ObjectMeta := { Namespace := "default", Name := name }, Content := about }

/-- A sample conversion to an event: the payload is the name of the involved pod, in
the namespace of the event. -/
def decodeEvent (u : Unstructured) : Except Error Event :=
  .ok { TypeMeta := u.TypeMeta, ObjectMeta := u.ObjectMeta, Content := u.Content,
        InvolvedObject :=
          { Kind := "Pod", Namespace := u.ObjectMeta.Namespace, Name := u.Content,
            APIVersion := "v1" } }

/-- A store whose event listing holds one event about `web-1`, one about `db-1` and a
second one about `web-1`. -/
def eventStore : Store where
  Get := fun _ => .ok none
  List := fun key =>
    if key.Kind = "Event" then
      .ok [storedEvent "e1" "web-1", storedEvent "e2" "db-1", storedEvent "e3" "web-1"]
    else .ok []

/-- The environment over `eventStore`. -/
def eventEnv : Env :=
  { objectStore := eventStore, ServerPreferredResources := .ok exDiscovery,
    toEvent := decodeEvent }

/-- A heap with two maps: the labels of the pod `web-1` at address 0 and the selector
`app=web` at address 1. -/
def sampleHeap : MapHeap :=
  { cells := fun a =>
      if a = 0 then [("app", "web"), ("pod-template-hash", "6d4cf56db6")]
      else if a = 1 then [("app", "web")]
      else [],
    next := 2 }

/-- A wrapped handler that answers every request with 200 and the path. -/
def echoHandler (r : Request) : Response :=
  { status := 200, body := r.Path }

/-! # Theorems -/

/-! ## `Cluster.Resource` -/

/-- After the reset, on a kind that never resolves, the loop started with `retries = r`
makes `5 - r` further attempts and sleeps, no reset, and gives up. -/
theorem Resource_loop_after_reset {σ : Type} (c : Cluster σ) (host : String) (gk : GroupKind)
    (h : NeverResolves c gk) :
    ∀ (n r : Nat) (s : σ) (tr : List Call), n = 5 - r →
      attempts (Cluster.Resource.loop c host gk r true s tr).trace = attempts tr + n ∧
      resets (Cluster.Resource.loop c host gk r true s tr).trace = resets tr ∧
      sleeps (Cluster.Resource.loop c host gk r true s tr).trace = sleeps tr + n ∧
      (Cluster.Resource.loop c host gk r true s tr).result
        = .error (.New "unable to retrieve rest mapping") := by
  intro n
  induction n with
  | zero =>
    intro r s tr hn
    have hr : ¬ r < 5 := by omega
    rw [Cluster.Resource.loop]
    simp [hr, attempts, resets, sleeps, List.countP_append]
  | succ n ih =>
    intro r s tr hn
    have hr : r < 5 := by omega
    obtain ⟨err, he, hm⟩ := h s
    rw [Cluster.Resource.loop]
    rcases hq : c.restMapper.RESTMapping s gk with ⟨res, s1⟩
    rw [hq] at he
    simp only at he
    subst he
    simp only [hr, if_true, hm, Bool.not_true, Bool.false_eq_true, if_false]
    obtain ⟨h1, h2, h3, h4⟩ := ih (r + 1) s1
      (tr ++ [.RESTMapping gk,
        .Errorf ("Having trouble retrieving the REST mapping from your cluster at "
          ++ host ++ ". Retrying....."), .Sleep 5]) (by omega)
    refine ⟨?_, ?_, ?_, h4⟩
    · rw [h1]; simp [attempts, List.countP_append, List.countP_cons]; omega
    · rw [h2]; simp [resets, List.countP_append, List.countP_cons]
    · rw [h3]; simp [sleeps, List.countP_append, List.countP_cons]; omega

/-- On a kind that never resolves, once the client configuration has loaded,
`Resource` makes six attempts, one reset, five sleeps, and returns the give-up error. -/
theorem Resource_never_resolves {σ : Type} (c : Cluster σ) (gk : GroupKind) (s : σ)
    (restConfig : Config) (hcfg : c.clientConfig = .ok restConfig) (h : NeverResolves c gk) :
    attempts (c.Resource gk s).trace = 6 ∧ resets (c.Resource gk s).trace = 1 ∧
    sleeps (c.Resource gk s).trace = 5 ∧
    (c.Resource gk s).result = .error (.New "unable to retrieve rest mapping") := by
  obtain ⟨err, he, hm⟩ := h s
  unfold Cluster.Resource
  rw [hcfg]
  simp only
  rw [Cluster.Resource.loop]
  rcases hq : c.restMapper.RESTMapping s gk with ⟨res, s1⟩
  rw [hq] at he
  simp only at he
  subst he
  simp only [show (0 : Nat) < 5 by decide, if_true, hm, Bool.not_false]
  obtain ⟨h1, h2, h3, h4⟩ := Resource_loop_after_reset c restConfig.Host gk h 5 0
    (c.restMapper.Reset s1) ([] ++ [.RESTMapping gk, .Reset]) rfl
  refine ⟨?_, ?_, ?_, h4⟩
  · rw [h1]; simp [attempts, List.countP_cons]
  · rw [h2]; simp [resets, List.countP_cons]
  · rw [h3]; simp [sleeps, List.countP_cons]

/-- The sample mapper never resolves any kind. -/
theorem neverCluster_neverResolves (gk : GroupKind) : NeverResolves neverCluster gk :=
  fun _ => ⟨.NoKindMatchError, rfl, rfl⟩

/-- C1 (as amended): for every GroupKind that the REST mapper never resolves (every
`RESTMapping` answers with a no-match error), once the client configuration has loaded,
`Cluster.Resource` calls `Reset` exactly once, makes exactly six `RESTMapping` attempts
(the first one, and five more after the reset, each of these followed by a 5 second sleep),
and then returns an error. -/
theorem C1_Resource_retry_bound {σ : Type} (c : Cluster σ) (gk : GroupKind) (s : σ)
    (restConfig : Config) (hcfg : c.clientConfig = .ok restConfig)
    (h : ∀ s, ∃ err, (c.restMapper.RESTMapping s gk).1 = .error err ∧
      IsNoMatchError err = true) :
    resets (c.Resource gk s).trace = 1 ∧
    attempts (c.Resource gk s).trace = 6 ∧
    sleeps (c.Resource gk s).trace = 5 ∧
    (c.Resource gk s).result = .error (.New "unable to retrieve rest mapping") := by
  obtain ⟨h1, h2, h3, h4⟩ := Resource_never_resolves c gk s restConfig hcfg h
  exact ⟨h2, h1, h3, h4⟩

/-- C1 witness: the never-resolving cluster, asked for `apps/Deployment`. -/
theorem C1_Resource_retry_bound_witness :
    resets (neverCluster.Resource ⟨"apps", "Deployment"⟩ ()).trace = 1 ∧
    attempts (neverCluster.Resource ⟨"apps", "Deployment"⟩ ()).trace = 6 ∧
    sleeps (neverCluster.Resource ⟨"apps", "Deployment"⟩ ()).trace = 5 ∧
    (neverCluster.Resource ⟨"apps", "Deployment"⟩ ()).result
      = .error (.New "unable to retrieve rest mapping") :=
  C1_Resource_retry_bound neverCluster ⟨"apps", "Deployment"⟩ () ⟨"https://cluster.example"⟩ rfl
    (fun _ => ⟨.NoKindMatchError, rfl, rfl⟩)

/-- C1 counterexample: on a mapper whose every `RESTMapping` is a no-match, `Resource`
makes a sixth attempt, so "at most 5 attempts" fails; and when the client configuration
does not load it returns without ever calling `Reset`, so "exactly one reset" fails. -/
theorem C1_counterexample :
    (∀ s gk, (neverCluster.restMapper.RESTMapping s gk).1 = .error .NoKindMatchError) ∧
    IsNoMatchError .NoKindMatchError = true ∧
    attempts (neverCluster.Resource ⟨"apps", "Deployment"⟩ ()).trace = 6 ∧
    ¬ attempts (neverCluster.Resource ⟨"apps", "Deployment"⟩ ()).trace ≤ 5 ∧
    (∀ s gk, (noConfigCluster.restMapper.RESTMapping s gk).1 = .error .NoKindMatchError) ∧
    resets (noConfigCluster.Resource ⟨"apps", "Deployment"⟩ ()).trace = 0 := by
  have h := (Resource_never_resolves neverCluster ⟨"apps", "Deployment"⟩ ()
    ⟨"https://cluster.example"⟩ rfl (neverCluster_neverResolves _)).1
  refine ⟨fun _ _ => rfl, rfl, h, ?_, fun _ _ => rfl, ?_⟩
  · rw [h]; decide
  · simp [Cluster.Resource, noConfigCluster, resets]

/-- C2: if the first `RESTMapping` attempt of a `Resource` call fails with a no-match
error and the attempt after the reset succeeds, `Resource` returns that mapping's
GroupVersionResource with no error, having made exactly the calls attempt, `Reset`,
attempt: one reset, no sleep, no retry logged.  If the first attempt succeeds, the only
call is that attempt: no reset at all. -/
theorem C2_Resource_reset_once_then_immediate_retry {σ : Type} (c : Cluster σ)
    (gk : GroupKind) (s : σ) (restConfig : Config) (hcfg : c.clientConfig = .ok restConfig) :
    (∀ err s1 restMapping s2,
      c.restMapper.RESTMapping s gk = (.error err, s1) → IsNoMatchError err = true →
      c.restMapper.RESTMapping (c.restMapper.Reset s1) gk = (.ok restMapping, s2) →
        (c.Resource gk s).result = .ok restMapping.Resource ∧
        (c.Resource gk s).trace = [.RESTMapping gk, .Reset, .RESTMapping gk] ∧
        resets (c.Resource gk s).trace = 1 ∧ sleeps (c.Resource gk s).trace = 0 ∧
        (c.Resource gk s).mapper = s2) ∧
    (∀ restMapping s1,
      c.restMapper.RESTMapping s gk = (.ok restMapping, s1) →
        (c.Resource gk s).result = .ok restMapping.Resource ∧
        (c.Resource gk s).trace = [.RESTMapping gk] ∧
        resets (c.Resource gk s).trace = 0) := by
  constructor
  · intro err s1 restMapping s2 h1 hm h2
    have hrun : c.Resource gk s
        = ⟨.ok restMapping.Resource, s2, [.RESTMapping gk, .Reset, .RESTMapping gk]⟩ := by
      unfold Cluster.Resource
      rw [hcfg]
      simp only
      rw [Cluster.Resource.loop]
      simp only [show (0 : Nat) < 5 by decide, if_true, h1, hm, Bool.not_false]
      rw [Cluster.Resource.loop]
      simp only [show (0 : Nat) < 5 by decide, if_true, h2]
      simp
    rw [hrun]
    simp [resets, sleeps, List.countP_cons]
  · intro restMapping s1 h1
    have hrun : c.Resource gk s = ⟨.ok restMapping.Resource, s1, [.RESTMapping gk]⟩ := by
      unfold Cluster.Resource
      rw [hcfg]
      simp only
      rw [Cluster.Resource.loop]
      simp only [show (0 : Nat) < 5 by decide, if_true, h1]
      simp
    rw [hrun]
    simp [resets, List.countP_cons]

/-- C2 witness: a stale mapper resolves `apps/Deployment` right after the reset; a
fresh one resolves it at once. -/
theorem C2_Resource_reset_once_then_immediate_retry_witness :
    ((staleCluster.Resource ⟨"apps", "Deployment"⟩ false).result
        = .ok ⟨"apps", "v1", "Deployment"⟩ ∧
      (staleCluster.Resource ⟨"apps", "Deployment"⟩ false).trace
        = [.RESTMapping ⟨"apps", "Deployment"⟩, .Reset, .RESTMapping ⟨"apps", "Deployment"⟩]) ∧
    ((staleCluster.Resource ⟨"apps", "Deployment"⟩ true).result
        = .ok ⟨"apps", "v1", "Deployment"⟩ ∧
      (staleCluster.Resource ⟨"apps", "Deployment"⟩ true).trace
        = [.RESTMapping ⟨"apps", "Deployment"⟩]) := by
  have h1 := (C2_Resource_reset_once_then_immediate_retry staleCluster ⟨"apps", "Deployment"⟩
    false ⟨"https://cluster.example"⟩ rfl).1 .NoKindMatchError false
    ⟨⟨"apps", "v1", "Deployment"⟩⟩ true rfl rfl rfl
  have h2 := (C2_Resource_reset_once_then_immediate_retry staleCluster ⟨"apps", "Deployment"⟩
    true ⟨"https://cluster.example"⟩ rfl).2 ⟨⟨"apps", "v1", "Deployment"⟩⟩ true rfl
  exact ⟨⟨h1.1, h1.2.1⟩, ⟨h2.1, h2.2.1⟩⟩

/-! ## `Cluster.ResourceExists` -/

/-- C20: `ResourceExists(gvr)` is a pure probe: it makes exactly one call, `KindFor(gvr)`,
on the REST mapper (no `RESTMapping` attempt, no `Reset`, no sleep, nothing logged), and
its boolean result is true if and only if that call returned no error; any error is
answered with false. The function has no error result of its own. -/
theorem C20_ResourceExists_probe {σ : Type} (c : Cluster σ) (gvr : GroupVersionResource)
    (s : σ) :
    ((c.ResourceExists gvr s).result = true ↔
      ∃ gvk, (c.restMapper.KindFor s gvr).1 = .ok gvk) ∧
    (∀ err, (c.restMapper.KindFor s gvr).1 = .error err →
      (c.ResourceExists gvr s).result = false) ∧
    (c.ResourceExists gvr s).trace = [.KindFor gvr] ∧
    attempts (c.ResourceExists gvr s).trace = 0 ∧
    resets (c.ResourceExists gvr s).trace = 0 ∧
    sleeps (c.ResourceExists gvr s).trace = 0 ∧
    (c.ResourceExists gvr s).mapper = (c.restMapper.KindFor s gvr).2 := by
  unfold Cluster.ResourceExists
  rcases hk : c.restMapper.KindFor s gvr with ⟨res, s1⟩
  cases res with
  | ok gvk => simp [attempts, resets, sleeps]
  | error err => simp [attempts, resets, sleeps]

/-- C20 witness: a mapper that knows `apps/v1 deployments` and nothing else. -/
theorem C20_ResourceExists_probe_witness :
    (tableCluster.ResourceExists ⟨"apps", "v1", "deployments"⟩
      [(⟨"apps", "v1", "deployments"⟩, ⟨"apps", "v1", "Deployment"⟩)]).result = true ∧
    (tableCluster.ResourceExists ⟨"apps", "v1", "widgets"⟩
      [(⟨"apps", "v1", "deployments"⟩, ⟨"apps", "v1", "Deployment"⟩)]).result = false ∧
    (tableCluster.ResourceExists ⟨"apps", "v1", "widgets"⟩
      [(⟨"apps", "v1", "deployments"⟩, ⟨"apps", "v1", "Deployment"⟩)]).trace
      = [.KindFor ⟨"apps", "v1", "widgets"⟩] :=
  ⟨(C20_ResourceExists_probe tableCluster ⟨"apps", "v1", "deployments"⟩
      [(⟨"apps", "v1", "deployments"⟩, ⟨"apps", "v1", "Deployment"⟩)]).1.mpr
      ⟨⟨"apps", "v1", "Deployment"⟩, by rfl⟩,
   (C20_ResourceExists_probe tableCluster ⟨"apps", "v1", "widgets"⟩
      [(⟨"apps", "v1", "deployments"⟩, ⟨"apps", "v1", "Deployment"⟩)]).2.1
      .NoResourceMatchError (by rfl),
   (C20_ResourceExists_probe tableCluster ⟨"apps", "v1", "widgets"⟩
      [(⟨"apps", "v1", "deployments"⟩, ⟨"apps", "v1", "Deployment"⟩)]).2.2.1⟩

/-! ## `ObjectStoreQueryer.Children` -/

theorem listed_cons_discovery (keys : List Key) :
    listed (StoreCall.ServerPreferredResources :: keys.map StoreCall.List) = keys := by
  induction keys with
  | nil => rfl
  | cons k ks ih =>
    simp only [listed, List.map_cons, List.filterMap_cons] at ih ⊢
    rw [ih]

/-- Receiving one object from a task removes exactly that object from what is left to
send. -/
theorem Children_receive_perm {α : Type} :
    ∀ (i : Nat) (queues : List (List α)) (x : α) (queues2 : List (List α)),
      Children.receive i queues = some (x, queues2) →
      queues.flatten.Perm (x :: queues2.flatten) := by
  intro i
  induction i with
  | zero =>
    intro queues x queues2 h
    match queues, h with
    | (y :: q) :: qs, h =>
      simp only [Children.receive, Option.some.injEq, Prod.mk.injEq] at h
      obtain ⟨rfl, rfl⟩ := h
      simp
  | succ i ih =>
    intro queues x queues2 h
    match queues, h with
    | q :: qs, h =>
      simp only [Children.receive] at h
      cases hr : Children.receive i qs with
      | none => rw [hr] at h; simp at h
      | some p =>
        obtain ⟨y, qs2⟩ := p
        rw [hr] at h
        simp only [Option.some.injEq, Prod.mk.injEq] at h
        obtain ⟨rfl, rfl⟩ := h
        have hp := ih qs y qs2 hr
        simp only [List.flatten_cons]
        exact (List.Perm.append_left q hp).trans List.perm_middle

/-- The collector receives every object the tasks sent, each once. -/
theorem Children_collect_perm {α : Type} :
    ∀ (order : List Nat) (queues : List (List α)),
      (Children.collect order queues).Perm queues.flatten := by
  intro order
  induction order with
  | nil => intro queues; simp [Children.collect]
  | cons i order ih =>
    intro queues
    simp only [Children.collect]
    cases hr : Children.receive i queues with
    | none => exact ih queues
    | some p =>
      obtain ⟨x, queues2⟩ := p
      exact ((ih queues2).cons x).trans (Children_receive_perm i queues x queues2 hr).symm

/-- The errgroup reports no error exactly when every task returned nil. -/
theorem Children_wait_none (sched : Schedule)
    (results : List (Except Error (List Unstructured))) :
    Children.wait sched results = none ↔ ∀ r ∈ results, ∃ objects, r = .ok objects := by
  unfold Children.wait
  constructor
  · intro h r hr
    cases r with
    | ok objects => exact ⟨objects, rfl⟩
    | error err =>
      exfalso
      have hmem : err ∈ results.filterMap
          (fun r => match r with | .error err => some err | .ok _ => none) :=
        List.mem_filterMap.mpr ⟨_, hr, rfl⟩
      have hpos := List.length_pos_of_mem hmem
      have hlt := Nat.mod_lt sched.firstErr hpos
      simp only [] at h
      rw [List.getElem?_eq_none_iff] at h
      omega
  · intro h
    have hnil : results.filterMap
        (fun r => match r with | .error err => some err | .ok _ => none) = [] := by
      rw [List.filterMap_eq_nil_iff]
      intro r hr
      obtain ⟨objects, rfl⟩ := h r hr
      rfl
    simp [hnil]

/-- When the group/version parses (or no resource is namespaced), the inner loop starts
one task per wanted resource and returns no error. -/
theorem Children_scanResources_of_parse (ns groupVersion : String) :
    ∀ (rs : List APIResource),
      ((∃ r ∈ rs, r.Namespaced = true) → ∃ gv, ParseGroupVersion groupVersion = .ok gv) →
      Children.scanResources ns groupVersion rs
        = ((rs.filter (Children.wanted groupVersion)).map
            (fun r => ({ Namespace := ns, APIVersion := groupVersion, Kind := r.Kind } : Key)),
           none) := by
  intro rs
  induction rs with
  | nil => intro _; rfl
  | cons r rs ih =>
    intro h
    have ih2 := ih (fun ⟨r2, hr2, hn⟩ => h ⟨r2, List.mem_cons_of_mem _ hr2, hn⟩)
    cases hn : r.Namespaced with
    | false =>
      simp only [Children.scanResources, hn, Bool.not_false, if_true, ih2]
      simp [List.filter_cons, Children.wanted, hn]
    | true =>
      obtain ⟨gv, hgv⟩ := h ⟨r, List.mem_cons_self _ _, hn⟩
      simp only [Children.scanResources, hn, Bool.not_true, Bool.false_eq_true, if_false, hgv,
        ih2]
      by_cases hskip : (gv.Group == "apps" && r.Kind == "ReplicaSet") = true
      · simp [List.filter_cons, Children.wanted, hn, hgv, hskip]
      · by_cases hcl : canList r = true
        · have hw : Children.wanted groupVersion r = false := by
            simp only [canList, dashstrings.Contains, Bool.or_eq_true, Bool.not_eq_true',
              List.contains_eq_any_beq, List.any_eq_false, beq_iff_eq] at hcl
            simp only [Children.wanted, hn, hgv, Bool.true_and, Bool.and_eq_false_imp,
              Bool.and_eq_true, decide_eq_true_eq, Bool.not_eq_false', and_imp]
            intro hl hwt
            rcases hcl with hcl | hcl
            · exact absurd rfl (hcl "watch" hwt)
            · exact absurd rfl (hcl "list" hl)
          simp [List.filter_cons, hw, hskip, hcl]
        · have hw : Children.wanted groupVersion r = true := by
            simp only [canList, dashstrings.Contains, Bool.or_eq_true, Bool.not_eq_true',
              not_or, Bool.not_eq_false] at hcl
            simp only [Bool.not_eq_true] at hskip
            have h1 : "watch" ∈ r.Verbs := by simpa using hcl.1
            have h2 : "list" ∈ r.Verbs := by simpa using hcl.2
            simp [Children.wanted, hn, hgv, hskip, h1, h2]
          simp [List.filter_cons, hw, hskip, hcl]

/-- When every group/version that is looked at parses, the loops start one task per
wanted resource and return no error. -/
theorem Children_scanLists_of_parse (ns : String) :
    ∀ (rls : List (Option APIResourceList)),
      (∀ rl, some rl ∈ rls → (∃ r ∈ rl.APIResources, r.Namespaced = true) →
        ∃ gv, ParseGroupVersion rl.GroupVersion = .ok gv) →
      Children.scanLists ns rls = (Children.wantedKeys ns rls, none) := by
  intro rls
  induction rls with
  | nil => intro _; rfl
  | cons x rls ih =>
    intro h
    have ih2 := ih (fun rl hrl => h rl (List.mem_cons_of_mem _ hrl))
    cases x with
    | none =>
      simp only [Children.scanLists, ih2]
      simp [Children.wantedKeys]
    | some rl =>
      have h1 := Children_scanResources_of_parse ns rl.GroupVersion rl.APIResources
        (h rl (List.mem_cons_self _ _))
      simp only [Children.scanLists, h1, ih2]
      simp [Children.wantedKeys]

/-- On a cache miss with discovery answered, the trace is the discovery call followed by
one `List` per started task, whatever happens afterwards. -/
theorem Children_trace_of_miss (osq : ObjectStoreQueryer) (env : Env) (owner : ObjectMeta)
    (rls : List (Option APIResourceList))
    (hmiss : childrenCache.get osq.children owner.UID = none)
    (hdisc : env.ServerPreferredResources = .ok rls) :
    (osq.Children env (some owner)).trace
      = .ServerPreferredResources :: (Children.scanLists owner.Namespace rls).1.map .List := by
  unfold ObjectStoreQueryer.Children
  simp only [hmiss, hdisc]
  rcases hs : Children.scanLists owner.Namespace rls with ⟨keys, err⟩
  cases err with
  | some err => rfl
  | none =>
    simp only
    cases Children.wait env.sched (keys.map (Children.task env.objectStore owner)) <;> rfl

/-- A task whose listing succeeds sends the controlled objects of the listing. -/
theorem Children_task_ok (objectStore : Store) (owner : ObjectMeta) (key : Key)
    (h : ∃ objects, objectStore.List key = .ok objects) :
    Children.task objectStore owner key
      = .ok ((listing objectStore key).filter (fun o => IsControlledBy o.ObjectMeta owner)) := by
  obtain ⟨objects, ho⟩ := h
  simp [Children.task, listing, ho]

/-- On a cache miss, when discovery answers, the scan ends without a parse error and every
started task lists successfully, `Children` returns what the collector received and
stores it under the owner UID. -/
theorem Children_run_of_success (osq : ObjectStoreQueryer) (env : Env) (owner : ObjectMeta)
    (rls : List (Option APIResourceList)) (keys : List Key)
    (hmiss : childrenCache.get osq.children owner.UID = none)
    (hdisc : env.ServerPreferredResources = .ok rls)
    (hscan : Children.scanLists owner.Namespace rls = (keys, none))
    (hlist : ∀ key ∈ keys, ∃ objects, env.objectStore.List key = .ok objects) :
    (osq.Children env (some owner)).result
        = .ok (Children.collect env.sched.order (keys.map (fun key =>
            (listing env.objectStore key).filter
              (fun o => IsControlledBy o.ObjectMeta owner)))) ∧
    (osq.Children env (some owner)).osq
        = { osq with children := (childrenCache.set osq.children owner.UID
            (Children.collect env.sched.order (keys.map (fun key =>
              (listing env.objectStore key).filter
                (fun o => IsControlledBy o.ObjectMeta owner))))) } := by
  have hres : keys.map (Children.task env.objectStore owner)
      = keys.map (fun key => Except.ok ((listing env.objectStore key).filter
          (fun o => IsControlledBy o.ObjectMeta owner))) :=
    List.map_congr_left (fun key hk => Children_task_ok _ _ _ (hlist key hk))
  have hwait : Children.wait env.sched (keys.map (Children.task env.objectStore owner))
      = none := by
    rw [Children_wait_none, hres]
    intro r hr
    obtain ⟨key, _, rfl⟩ := List.mem_map.mp hr
    exact ⟨_, rfl⟩
  have hsent : (keys.map (Children.task env.objectStore owner)).map Children.sent
      = keys.map (fun key => (listing env.objectStore key).filter
          (fun o => IsControlledBy o.ObjectMeta owner)) := by
    rw [hres, List.map_map]
    rfl
  unfold ObjectStoreQueryer.Children
  simp only [hmiss, hdisc, hscan, hwait, hsent, and_self]

/-- Filtering each listing and concatenating is filtering the concatenation. -/
theorem flatten_map_filter {α β : Type} (f : α → List β) (p : β → Bool) (l : List α) :
    (l.map (fun a => (f a).filter p)).flatten = (l.flatMap f).filter p := by
  induction l with
  | nil => rfl
  | cons a l ih => simp [List.flatMap_cons, List.filter_append, ih]

/-- C3 (as amended): for every owner whose UID is not yet in the children cache, when
discovery succeeds, the group/version string of every discovered resource list that
holds a namespaced resource parses, and every list call issued succeeds, `Children`
returns, up to order, exactly the objects among those returned by the store listings it
issued for which `metav1.IsControlledBy(object, owner)` holds: nothing else is returned
and no qualifying object is dropped. -/
theorem C3_Children_returns_controlled (osq : ObjectStoreQueryer) (env : Env)
    (owner : ObjectMeta) (rls : List (Option APIResourceList))
    (hmiss : childrenCache.get osq.children owner.UID = none)
    (hdisc : env.ServerPreferredResources = .ok rls)
    (hparse : ∀ rl, some rl ∈ rls → (∃ r ∈ rl.APIResources, r.Namespaced = true) →
      ∃ gv, ParseGroupVersion rl.GroupVersion = .ok gv)
    (hlist : ∀ key, StoreCall.List key ∈ (osq.Children env (some owner)).trace →
      ∃ objects, env.objectStore.List key = .ok objects) :
    ∃ children, (osq.Children env (some owner)).result = .ok children ∧
      children.Perm
        (((listed (osq.Children env (some owner)).trace).flatMap (listing env.objectStore)).filter
          (fun o => IsControlledBy o.ObjectMeta owner)) ∧
      (∀ key ∈ listed (osq.Children env (some owner)).trace,
        key.Namespace = owner.Namespace) := by
  have hscan := Children_scanLists_of_parse owner.Namespace rls hparse
  have htrace := Children_trace_of_miss osq env owner rls hmiss hdisc
  rw [hscan] at htrace
  have hlisted : listed (osq.Children env (some owner)).trace
      = Children.wantedKeys owner.Namespace rls := by
    rw [htrace]; exact listed_cons_discovery _
  have hlist2 : ∀ key ∈ Children.wantedKeys owner.Namespace rls,
      ∃ objects, env.objectStore.List key = .ok objects := by
    intro key hk
    apply hlist
    rw [htrace]
    exact List.mem_cons_of_mem _ (List.mem_map.mpr ⟨key, hk, rfl⟩)
  obtain ⟨hres, _⟩ := Children_run_of_success osq env owner rls _ hmiss hdisc hscan hlist2
  refine ⟨_, hres, ?_, ?_⟩
  · rw [hlisted, ← flatten_map_filter]
    exact Children_collect_perm _ _
  · intro key hk
    rw [hlisted] at hk
    simp only [Children.wantedKeys, List.mem_flatMap, List.mem_map] at hk
    obtain ⟨rl, _, r, _, rfl⟩ := hk
    rfl

/-- C3 witness: the sample owner against the sample discovery and store. -/
theorem C3_Children_returns_controlled_witness :
    ∃ children, (({} : ObjectStoreQueryer).Children exEnv (some exOwner)).result = .ok children ∧
      children.Perm
        (((listed (({} : ObjectStoreQueryer).Children exEnv (some exOwner)).trace).flatMap
            (listing exEnv.objectStore)).filter
          (fun o => IsControlledBy o.ObjectMeta exOwner)) ∧
      (∀ key ∈ listed (({} : ObjectStoreQueryer).Children exEnv (some exOwner)).trace,
        key.Namespace = exOwner.Namespace) :=
  C3_Children_returns_controlled {} exEnv exOwner exDiscovery rfl rfl
    (by
      intro rl hrl _
      simp only [exDiscovery, List.mem_cons, Option.some.injEq, List.mem_singleton,
        List.not_mem_nil, or_false, reduceCtorEq, false_or] at hrl
      rcases hrl with rfl | rfl | rfl
      · exact ⟨_, rfl⟩
      · exact ⟨_, rfl⟩
      · exact ⟨_, rfl⟩)
    (by
      intro key _
      simp only [exEnv, exStore]
      split
      · exact ⟨_, rfl⟩
      · exact ⟨_, rfl⟩)

/-- C3 counterexample: discovery succeeds and every listing of the store succeeds, but the
discovered group/version string `apps/v1/beta` does not parse, and `Children` returns an
error instead of the controlled objects. -/
theorem C3_counterexample :
    childrenCache.get ({} : ObjectStoreQueryer).children exOwner.UID = none ∧
    badEnv.ServerPreferredResources = .ok badDiscovery ∧
    (∀ key, ∃ objects, badEnv.objectStore.List key = .ok objects) ∧
    (({} : ObjectStoreQueryer).Children badEnv (some exOwner)).result
      = .error (.New "unexpected GroupVersion string: apps/v1/beta") ∧
    ¬ ∃ children, (({} : ObjectStoreQueryer).Children badEnv (some exOwner)).result
      = .ok children := by
  have hres : (({} : ObjectStoreQueryer).Children badEnv (some exOwner)).result
      = .error (.New "unexpected GroupVersion string: apps/v1/beta") := by rfl
  refine ⟨rfl, rfl, ?_, hres, ?_⟩
  · intro key
    simp only [badEnv, exStore]
    split
    · exact ⟨_, rfl⟩
    · exact ⟨_, rfl⟩
  · rintro ⟨children, h⟩
    rw [hres] at h
    cases h

/-- The wanted test, as a proposition. -/
theorem Children_wanted_iff (groupVersion : String) (r : APIResource) :
    Children.wanted groupVersion r = true ↔
      r.Namespaced = true ∧ "list" ∈ r.Verbs ∧ "watch" ∈ r.Verbs ∧
      ¬ ∃ gv, ParseGroupVersion groupVersion = .ok gv ∧ gv.Group = "apps" ∧
          r.Kind = "ReplicaSet" := by
  unfold Children.wanted
  cases hp : ParseGroupVersion groupVersion with
  | error err => simp [and_assoc]
  | ok gv =>
    simp only [and_assoc, Bool.and_eq_true, Bool.not_eq_true', Bool.and_eq_false_iff,
      decide_eq_true_eq, beq_eq_false_iff_ne, ne_eq, Except.ok.injEq, exists_eq_left',
      not_and]
    constructor
    · rintro ⟨h1, h2, h3, h4⟩
      exact ⟨h1, h2, h3, fun hg hk => by rcases h4 with h4 | h4 <;> contradiction⟩
    · rintro ⟨h1, h2, h3, h4⟩
      refine ⟨h1, h2, h3, ?_⟩
      by_cases hg : gv.Group = "apps"
      · exact Or.inr (h4 hg)
      · exact Or.inl hg

/-- Membership in the wanted keys. -/
theorem Children_mem_wantedKeys (ns : String) (rls : List (Option APIResourceList))
    (key : Key) :
    key ∈ Children.wantedKeys ns rls ↔
      ∃ rl r, some rl ∈ rls ∧ r ∈ rl.APIResources ∧
        key = { Namespace := ns, APIVersion := rl.GroupVersion, Kind := r.Kind } ∧
        Children.wanted rl.GroupVersion r = true := by
  simp only [Children.wantedKeys, List.mem_flatMap, List.mem_filterMap, id, List.mem_map,
    List.mem_filter]
  constructor
  · rintro ⟨rl, ⟨x, hx, rfl⟩, r, ⟨hr, hw⟩, rfl⟩
    exact ⟨rl, r, hx, hr, rfl, hw⟩
  · rintro ⟨rl, r, hx, hr, rfl, hw⟩
    exact ⟨rl, ⟨some rl, hx, rfl⟩, r, ⟨hr, hw⟩, rfl⟩

/-- When the group/version does not parse, the inner loop starts no task. -/
theorem Children_scanResources_of_parse_error (ns groupVersion : String) (err : Error)
    (hp : ParseGroupVersion groupVersion = .error err) :
    ∀ (rs : List APIResource), (Children.scanResources ns groupVersion rs).1 = [] := by
  intro rs
  induction rs with
  | nil => rfl
  | cons r rs ih =>
    cases hn : r.Namespaced with
    | false => simpa [Children.scanResources, hn] using ih
    | true => simp [Children.scanResources, hn, hp]

/-- Every task `Children` starts is for a wanted resource, parse error or not. -/
theorem Children_scanLists_sound (ns : String) :
    ∀ (rls : List (Option APIResourceList)) (key : Key),
      key ∈ (Children.scanLists ns rls).1 → key ∈ Children.wantedKeys ns rls := by
  intro rls
  induction rls with
  | nil => intro key h; simp [Children.scanLists] at h
  | cons x rls ih =>
    intro key h
    cases x with
    | none =>
      simp only [Children.scanLists] at h
      have := ih key h
      simpa [Children.wantedKeys] using this
    | some rl =>
      have hsplit : Children.wantedKeys ns (some rl :: rls)
          = (rl.APIResources.filter (Children.wanted rl.GroupVersion)).map
              (fun r => ({ Namespace := ns, APIVersion := rl.GroupVersion, Kind := r.Kind } : Key))
            ++ Children.wantedKeys ns rls := by
        simp [Children.wantedKeys]
      rw [hsplit]
      cases hp : ParseGroupVersion rl.GroupVersion with
      | ok gv =>
        have h1 := Children_scanResources_of_parse ns rl.GroupVersion rl.APIResources
          (fun _ => ⟨gv, hp⟩)
        simp only [Children.scanLists, h1, List.mem_append] at h
        exact List.mem_append.mpr (h.imp id (ih key))
      | error err =>
        have h1 := Children_scanResources_of_parse_error ns rl.GroupVersion err hp
          rl.APIResources
        rcases hs : Children.scanResources ns rl.GroupVersion rl.APIResources with ⟨ks, oe⟩
        rw [hs] at h1
        simp only at h1
        subst h1
        cases oe with
        | some e => simp [Children.scanLists, hs] at h
        | none =>
          simp only [Children.scanLists, hs, List.nil_append] at h
          exact List.mem_append_right _ (ih key h)

/-- C4 (as amended): on a cache miss with discovery answered, `Children` never lists a key
of kind `ReplicaSet` in API group `apps`; and when the group/version string of every
discovered resource list that holds a namespaced resource parses, it issues a store list
with key (owner namespace, the list's groupVersion, the resource's kind) if and only if
some discovered resource with that key is namespaced, has both `list` and `watch` among
its verbs, and is not kind `ReplicaSet` in API group `apps` (one list call per such
resource, in discovery order); in particular a namespaced, listable and watchable
`extensions/v1beta1` `ReplicaSet` is listed. -/
theorem C4_Children_lists_wanted_resources (osq : ObjectStoreQueryer) (env : Env)
    (owner : ObjectMeta) (rls : List (Option APIResourceList))
    (hmiss : childrenCache.get osq.children owner.UID = none)
    (hdisc : env.ServerPreferredResources = .ok rls) :
    (∀ key gv, StoreCall.List key ∈ (osq.Children env (some owner)).trace →
      ParseGroupVersion key.APIVersion = .ok gv →
      ¬ (gv.Group = "apps" ∧ key.Kind = "ReplicaSet")) ∧
    ((∀ rl, some rl ∈ rls → (∃ r ∈ rl.APIResources, r.Namespaced = true) →
        ∃ gv, ParseGroupVersion rl.GroupVersion = .ok gv) →
      listed (osq.Children env (some owner)).trace = Children.wantedKeys owner.Namespace rls ∧
      (∀ key, StoreCall.List key ∈ (osq.Children env (some owner)).trace ↔
        ∃ rl r, some rl ∈ rls ∧ r ∈ rl.APIResources ∧
          key = { Namespace := owner.Namespace, APIVersion := rl.GroupVersion,
                  Kind := r.Kind } ∧
          r.Namespaced = true ∧ "list" ∈ r.Verbs ∧ "watch" ∈ r.Verbs ∧
          ¬ ∃ gv, ParseGroupVersion rl.GroupVersion = .ok gv ∧ gv.Group = "apps" ∧
              r.Kind = "ReplicaSet") ∧
      (∀ r, some ⟨"extensions/v1beta1", r⟩ ∈ rls →
        (∃ rs ∈ r, rs.Kind = "ReplicaSet" ∧ rs.Namespaced = true ∧ "list" ∈ rs.Verbs ∧
          "watch" ∈ rs.Verbs) →
        StoreCall.List { Namespace := owner.Namespace, APIVersion := "extensions/v1beta1",
                         Kind := "ReplicaSet" } ∈ (osq.Children env (some owner)).trace)) := by
  have htrace := Children_trace_of_miss osq env owner rls hmiss hdisc
  have hmem : ∀ key, StoreCall.List key ∈ (osq.Children env (some owner)).trace ↔
      key ∈ (Children.scanLists owner.Namespace rls).1 := by
    intro key
    rw [htrace]
    simp
  constructor
  · intro key gv hk hgv
    have hw := Children_scanLists_sound owner.Namespace rls key ((hmem key).mp hk)
    obtain ⟨rl, r, _, _, rfl, hwanted⟩ := (Children_mem_wantedKeys _ _ _).mp hw
    have h4 := ((Children_wanted_iff _ _).mp hwanted).2.2.2
    exact fun h => h4 ⟨gv, hgv, h.1, h.2⟩
  · intro hparse
    have hscan := Children_scanLists_of_parse owner.Namespace rls hparse
    have hiff : ∀ key, StoreCall.List key ∈ (osq.Children env (some owner)).trace ↔
        ∃ rl r, some rl ∈ rls ∧ r ∈ rl.APIResources ∧
          key = { Namespace := owner.Namespace, APIVersion := rl.GroupVersion,
                  Kind := r.Kind } ∧
          r.Namespaced = true ∧ "list" ∈ r.Verbs ∧ "watch" ∈ r.Verbs ∧
          ¬ ∃ gv, ParseGroupVersion rl.GroupVersion = .ok gv ∧ gv.Group = "apps" ∧
              r.Kind = "ReplicaSet" := by
      intro key
      rw [hmem, hscan]
      simp only [Children_mem_wantedKeys, Children_wanted_iff]
    refine ⟨?_, hiff, ?_⟩
    · rw [htrace, hscan]; exact listed_cons_discovery _
    · rintro r hr ⟨rs, hrs, hkind, hn, hl, hw⟩
      refine (hiff _).mpr ⟨⟨"extensions/v1beta1", r⟩, rs, hr, hrs, by rw [hkind], hn, hl, hw, ?_⟩
      rintro ⟨gv, hgv, hg, _⟩
      have hp : ParseGroupVersion "extensions/v1beta1" = .ok ⟨"extensions", "v1beta1"⟩ := by rfl
      rw [show (APIResourceList.mk "extensions/v1beta1" r).GroupVersion
        = "extensions/v1beta1" from rfl, hp] at hgv
      cases hgv
      revert hg
      decide

/-- C4 witness: with the sample discovery, the keys listed are those of the wanted
resources, `extensions/v1beta1` `ReplicaSet` is listed and `apps/v1` `ReplicaSet` is
not. -/
theorem C4_Children_lists_wanted_resources_witness :
    listed (({} : ObjectStoreQueryer).Children exEnv (some exOwner)).trace
      = Children.wantedKeys "default" exDiscovery ∧
    StoreCall.List { Namespace := "default", APIVersion := "extensions/v1beta1",
                     Kind := "ReplicaSet" }
      ∈ (({} : ObjectStoreQueryer).Children exEnv (some exOwner)).trace ∧
    StoreCall.List { Namespace := "default", APIVersion := "apps/v1", Kind := "ReplicaSet" }
      ∉ (({} : ObjectStoreQueryer).Children exEnv (some exOwner)).trace := by
  obtain ⟨h1, h2⟩ := C4_Children_lists_wanted_resources {} exEnv exOwner exDiscovery rfl rfl
  have h3 := h2 (by
    intro rl hrl _
    simp only [exDiscovery, List.mem_cons, Option.some.injEq, List.mem_singleton,
      List.not_mem_nil, or_false, reduceCtorEq, false_or] at hrl
    rcases hrl with rfl | rfl | rfl
    · exact ⟨_, rfl⟩
    · exact ⟨_, rfl⟩
    · exact ⟨_, rfl⟩)
  refine ⟨h3.1, h3.2.2 [replicaSetResource] (by simp [exDiscovery])
    ⟨replicaSetResource, by simp, rfl, rfl, by decide, by decide⟩, ?_⟩
  intro hk
  exact h1 _ ⟨"apps", "v1"⟩ hk rfl ⟨rfl, rfl⟩

/-- C4 counterexample: the discovered resource `pods` is namespaced, has `list` and `watch`
among its verbs and is not a `ReplicaSet`, yet no store list is issued for it, because
the group/version string of its resource list does not parse. -/
theorem C4_counterexample :
    childrenCache.get ({} : ObjectStoreQueryer).children exOwner.UID = none ∧
    badEnv.ServerPreferredResources = .ok [some ⟨"apps/v1/beta", [podResource]⟩] ∧
    podResource.Namespaced = true ∧ "list" ∈ podResource.Verbs ∧
    "watch" ∈ podResource.Verbs ∧ podResource.Kind ≠ "ReplicaSet" ∧
    StoreCall.List { Namespace := exOwner.Namespace, APIVersion := "apps/v1/beta",
                     Kind := podResource.Kind }
      ∉ (({} : ObjectStoreQueryer).Children badEnv (some exOwner)).trace := by
  have htr : (({} : ObjectStoreQueryer).Children badEnv (some exOwner)).trace
      = [.ServerPreferredResources] := by rfl
  refine ⟨rfl, rfl, rfl, by decide, by decide, by decide, ?_⟩
  rw [htr]
  simp

/-- C5: if any one of the store list calls issued by `Children` fails, the call returns
an error and no children, whatever the other list calls return, and it leaves the caches
unchanged, so that a later `Children` call for the same owner is not answered from the
cache: it asks discovery again and, discovery answering as before, issues that list call
again. -/
theorem C5_Children_fail_fast (osq : ObjectStoreQueryer) (env : Env) (owner : ObjectMeta)
    (key : Key) (err : Error)
    (hissued : StoreCall.List key ∈ (osq.Children env (some owner)).trace)
    (hfail : env.objectStore.List key = .error err) :
    (∃ e, (osq.Children env (some owner)).result = .error e) ∧
    (osq.Children env (some owner)).osq = osq ∧
    (∀ env2 : Env, StoreCall.ServerPreferredResources
        ∈ ((osq.Children env (some owner)).osq.Children env2 (some owner)).trace) ∧
    (∀ env2 : Env, env2.ServerPreferredResources = env.ServerPreferredResources →
      StoreCall.List key
        ∈ ((osq.Children env (some owner)).osq.Children env2 (some owner)).trace) := by
  cases hmiss : childrenCache.get osq.children owner.UID with
  | some stored =>
    exfalso
    simp [ObjectStoreQueryer.Children, hmiss] at hissued
  | none =>
    cases hdisc : env.ServerPreferredResources with
    | error e =>
      exfalso
      simp [ObjectStoreQueryer.Children, hmiss, hdisc] at hissued
    | ok rls =>
      have htrace := Children_trace_of_miss osq env owner rls hmiss hdisc
      have hkey : key ∈ (Children.scanLists owner.Namespace rls).1 := by
        rw [htrace] at hissued
        simpa using hissued
      have hfirst : (∃ e, (osq.Children env (some owner)).result = .error e) ∧
          (osq.Children env (some owner)).osq = osq := by
        unfold ObjectStoreQueryer.Children
        simp only [hmiss, hdisc]
        rcases hs : Children.scanLists owner.Namespace rls with ⟨keys, perr⟩
        rw [hs] at hkey
        simp only at hkey
        cases perr with
        | some e => exact ⟨⟨e, rfl⟩, rfl⟩
        | none =>
          simp only
          cases hw : Children.wait env.sched (keys.map (Children.task env.objectStore owner)) with
          | some e => exact ⟨⟨_, rfl⟩, rfl⟩
          | none =>
            exfalso
            obtain ⟨objects, ho⟩ := (Children_wait_none _ _).mp hw
              (Children.task env.objectStore owner key) (List.mem_map.mpr ⟨key, hkey, rfl⟩)
            simp [Children.task, hfail] at ho
      refine ⟨hfirst.1, hfirst.2, ?_, ?_⟩
      · intro env2
        rw [hfirst.2]
        cases hd2 : env2.ServerPreferredResources with
        | error e => simp [ObjectStoreQueryer.Children, hmiss, hd2]
        | ok rls2 =>
          rw [Children_trace_of_miss osq env2 owner rls2 hmiss hd2]
          exact List.mem_cons_self _ _
      · intro env2 h2
        rw [hfirst.2, Children_trace_of_miss osq env2 owner rls hmiss h2]
        exact List.mem_cons_of_mem _ (List.mem_map.mpr ⟨key, hkey, rfl⟩)

/-- C5 witness: the pod listing fails, the replica set listing succeeds. -/
theorem C5_Children_fail_fast_witness :
    (∃ e, (({} : ObjectStoreQueryer).Children failingEnv (some exOwner)).result = .error e) ∧
    (({} : ObjectStoreQueryer).Children failingEnv (some exOwner)).osq = {} ∧
    (∀ env2 : Env, StoreCall.ServerPreferredResources
        ∈ ((({} : ObjectStoreQueryer).Children failingEnv (some exOwner)).osq.Children env2
            (some exOwner)).trace) ∧
    (∀ env2 : Env, env2.ServerPreferredResources = failingEnv.ServerPreferredResources →
      StoreCall.List { Namespace := "default", APIVersion := "v1", Kind := "Pod" }
        ∈ ((({} : ObjectStoreQueryer).Children failingEnv (some exOwner)).osq.Children env2
            (some exOwner)).trace) :=
  C5_Children_fail_fast {} failingEnv exOwner
    { Namespace := "default", APIVersion := "v1", Kind := "Pod" } (.New "connection refused")
    (by
      have htr : (({} : ObjectStoreQueryer).Children failingEnv (some exOwner)).trace
          = [.ServerPreferredResources,
             .List { Namespace := "default", APIVersion := "v1", Kind := "Pod" },
             .List { Namespace := "default", APIVersion := "extensions/v1beta1",
                     Kind := "ReplicaSet" }] := by rfl
      rw [htr]
      simp)
    rfl

/-- Reading the children cache at the key just written gives the value written. -/
theorem childrenCache_get_set (c : List (String × List Unstructured)) (key : String)
    (value : List Unstructured) :
    childrenCache.get (childrenCache.set c key value) key = some value := by
  simp [childrenCache.get, childrenCache.set, List.lookup]

/-- C6: after a `Children` call that succeeded (also with no children), a second call on
the resulting resolver with an owner of the same UID returns the same result, makes no
discovery call and no store list call (its trace is empty) and leaves the caches as
they are, whatever the store and discovery would now answer. -/
theorem C6_Children_cached (osq : ObjectStoreQueryer) (env : Env) (owner : ObjectMeta)
    (children : List Unstructured)
    (hok : (osq.Children env (some owner)).result = .ok children) :
    ∀ (env2 : Env) (owner2 : ObjectMeta), owner2.UID = owner.UID →
      ((osq.Children env (some owner)).osq.Children env2 (some owner2)).result = .ok children ∧
      ((osq.Children env (some owner)).osq.Children env2 (some owner2)).trace = [] ∧
      ((osq.Children env (some owner)).osq.Children env2 (some owner2)).osq
        = (osq.Children env (some owner)).osq := by
  intro env2 owner2 huid
  have hcached : childrenCache.get (osq.Children env (some owner)).osq.children owner.UID
      = some children := by
    revert hok
    unfold ObjectStoreQueryer.Children
    cases hmiss : childrenCache.get osq.children owner.UID with
    | some stored =>
      simp only [hmiss, Outcome.ok.injEq]
      intro h
      rw [← h]
    | none =>
      simp only [hmiss]
      cases hd : env.ServerPreferredResources with
      | error e => simp [hd]
      | ok rls =>
        simp only [hd]
        rcases hs : Children.scanLists owner.Namespace rls with ⟨keys, perr⟩
        cases perr with
        | some e => simp [hs]
        | none =>
          simp only [hs]
          cases hw : Children.wait env.sched (keys.map (Children.task env.objectStore owner)) with
          | some e => simp [hw]
          | none =>
            simp only [hw, Outcome.ok.injEq]
            intro h
            rw [← h]
            exact childrenCache_get_set _ _ _
  generalize (osq.Children env (some owner)).osq = osq1 at hcached ⊢
  unfold ObjectStoreQueryer.Children
  simp only [huid, hcached, and_self]

/-- C6 witness: the sample owner asked twice, the second time against a store that
fails. -/
theorem C6_Children_cached_witness :
    ((({} : ObjectStoreQueryer).Children exEnv (some exOwner)).osq.Children failingEnv
        (some exOwner)).result = .ok [exChild] ∧
    ((({} : ObjectStoreQueryer).Children exEnv (some exOwner)).osq.Children failingEnv
        (some exOwner)).trace = [] ∧
    ((({} : ObjectStoreQueryer).Children exEnv (some exOwner)).osq.Children failingEnv
        (some exOwner)).osq = (({} : ObjectStoreQueryer).Children exEnv (some exOwner)).osq :=
  C6_Children_cached {} exEnv exOwner [exChild] (by rfl) failingEnv exOwner rfl

/-! ## Label selectors -/

theorem NewRequirement_equals (k v : String) (r : Requirement)
    (h : NewRequirement k .Equals [v] = .ok r) : r = ⟨k, .Equals, [v]⟩ := by
  unfold NewRequirement at h
  split at h
  · cases h
  · split at h
    · cases h
    · split at h
      · cases h
      · cases h; rfl

/-- An `Equals` requirement matches a label set when the key is a label with that
value. -/
theorem Requirement_equals_matches (k v : String) (ls : List (String × String)) :
    Requirement.Matches ⟨k, .Equals, [v]⟩ ls = (ls.lookup k == some v) := by
  simp only [Requirement.Matches, Has, Get]
  cases h : ls.lookup k with
  | none => simp
  | some w =>
    simp only [Option.isSome_some, Option.getD_some, Bool.true_and, List.contains_cons,
      List.contains_nil, Bool.or_false]
    by_cases hw : w = v
    · subst hw; simp
    · have hne : (some w == some v) = false := by simpa using hw
      rw [hne]
      simpa using hw

/-- The requirements made from accepted match-labels match a label set exactly when
every match-label is a label with the same value; there is one per match-label. -/
theorem requirementsOfLabels_matches (ls : List (String × String)) :
    ∀ (sel : List (String × String)) (rs : List Requirement),
      requirementsOfLabels sel = .ok rs →
      (Selector.internal rs).Matches ls = matchLabels sel ls ∧ rs.length = sel.length := by
  intro sel
  induction sel with
  | nil =>
    intro rs h
    simp only [requirementsOfLabels, Except.ok.injEq] at h
    subst h
    exact ⟨rfl, rfl⟩
  | cons kv sel ih =>
    intro rs h
    obtain ⟨k, v⟩ := kv
    simp only [requirementsOfLabels] at h
    cases hr : NewRequirement k .Equals [v] with
    | error e => rw [hr] at h; cases h
    | ok r =>
      rw [hr] at h
      simp only at h
      cases hrest : requirementsOfLabels sel with
      | error e => rw [hrest] at h; cases h
      | ok rs1 =>
        rw [hrest] at h
        simp only [Except.ok.injEq] at h
        subst h
        obtain ⟨h1, h2⟩ := ih rs1 hrest
        have hreq := NewRequirement_equals k v r hr
        subst hreq
        constructor
        · simp only [Selector.Matches, List.all_cons, matchLabels] at h1 ⊢
          rw [h1, Requirement_equals_matches]
        · simp [h2]

/-- The selector derived from a flat selector map, when it is valid: it is not the nil
interface, it is empty exactly when the map is, and it matches a label set exactly when
every entry of the map is a label with the same value. -/
theorem flatSelector_spec (sel : List (String × String)) (s : Selector)
    (h : LabelSelectorAsSelector (some { MatchLabels := sel }) = .ok s)
    (ls : List (String × String)) :
    s ≠ .nil ∧ s.Empty = sel.isEmpty ∧ s.Matches ls = matchLabels sel ls := by
  unfold LabelSelectorAsSelector at h
  simp only [List.length_nil, Nat.add_zero, requirementsOfExpressions] at h
  cases sel with
  | nil =>
    simp only [List.length_nil, beq_self_eq_true, if_true, Except.ok.injEq] at h
    subst h
    exact ⟨by simp, rfl, rfl⟩
  | cons kv sel =>
    simp only [List.length_cons, Nat.add_one_ne_zero, beq_iff_eq, if_false] at h
    cases hr : requirementsOfLabels (kv :: sel) with
    | error e => rw [hr] at h; cases h
    | ok rs =>
      rw [hr] at h
      simp only [List.append_nil, Except.ok.injEq] at h
      subst h
      obtain ⟨h1, h2⟩ := requirementsOfLabels_matches ls (kv :: sel) rs hr
      refine ⟨by simp, ?_, h1⟩
      cases rs with
      | nil => simp at h2
      | cons r rs => rfl

/-! ## `ObjectStoreQueryer.PodsForService` -/

/-- The test `loadPods` applies to a pod once the selector is known to be valid: the
labels are semantically equal to the selector, or the selector matches them. -/
theorem loadPods_loop_spec (env : Env) (sel : List (String × String)) (s : Selector)
    (hsel : LabelSelectorAsSelector (some { MatchLabels := sel }) = .ok s) :
    ∀ (objects : List Unstructured), (∀ u ∈ objects, ∃ p, env.toPod u = .ok p) →
      loadPods.loop env (some { MatchLabels := sel }) objects
        = .ok ((listedPods env objects).filter (fun pod =>
            (isEqualSelector (some { MatchLabels := sel })
                (some { MatchLabels := pod.ObjectMeta.Labels }) == some true) ||
              matchLabels sel pod.ObjectMeta.Labels)) := by
  intro objects
  induction objects with
  | nil => intro _; rfl
  | cons u rest ih =>
    intro hconv
    obtain ⟨p, hp⟩ := hconv u (List.mem_cons_self _ _)
    have ih2 := ih (fun u2 h2 => hconv u2 (List.mem_cons_of_mem _ h2))
    obtain ⟨hnil, _, hm⟩ := flatSelector_spec sel s hsel (p.copyObjectMeta u).ObjectMeta.Labels
    have hl : listedPods env (u :: rest) = p.copyObjectMeta u :: listedPods env rest := by
      simp [listedPods, hp]
    rw [hl, List.filter_cons]
    simp only [loadPods.loop, hp, hsel, ih2, hnil, if_false, hm]
    cases hb : mapDeepEqual (extraKeys.foldl delete sel)
        (extraKeys.foldl delete (p.copyObjectMeta u).ObjectMeta.Labels) with
    | true => simp [isEqualSelector, hb]
    | false =>
      cases hml : matchLabels sel (p.copyObjectMeta u).ObjectMeta.Labels <;>
        simp [isEqualSelector, hb, hml]

/-- A run of `PodsForService` on a cache miss, with the pod listing answered, its
objects convertible and the service selector valid. -/
theorem PodsForService_run (osq : ObjectStoreQueryer) (env : Env) (service : Service)
    (objects : List Unstructured) (s : Selector)
    (hmiss : podsForServicesCache.get osq.podsForServices service.ObjectMeta.UID = none)
    (hlist : env.objectStore.List
      { Namespace := service.ObjectMeta.Namespace, APIVersion := "v1", Kind := "Pod" }
        = .ok objects)
    (hconv : ∀ u ∈ objects, ∃ p, env.toPod u = .ok p)
    (hsel : LabelSelectorAsSelector (some { MatchLabels := service.Selector }) = .ok s) :
    (osq.PodsForService env (some service)).result
      = .ok ((listedPods env objects).filter (fun pod =>
          (isEqualSelector (some { MatchLabels := service.Selector })
              (some { MatchLabels := pod.ObjectMeta.Labels }) == some true) ||
            matchLabels service.Selector pod.ObjectMeta.Labels)) ∧
    (osq.PodsForService env (some service)).trace
      = [.List { Namespace := service.ObjectMeta.Namespace, APIVersion := "v1",
                 Kind := "Pod" }] := by
  have hloop := loadPods_loop_spec env service.Selector s hsel objects hconv
  unfold ObjectStoreQueryer.PodsForService
  simp only [hmiss, getSelector, loadPods, hlist, hloop, and_self]

/-- C7 (as amended): for every service whose UID is not cached and whose selector is a
valid label selector (`metav1.LabelSelectorAsSelector` accepts its match-labels), and
every successful pod listing of the service's namespace whose objects convert to pods,
`PodsForService` returns, in listing order, exactly those pods for which at least one
holds: the selector derived from the service is empty, or the pod's labels are
semantically equal to the service's match-labels after removing the controller-injected
keys (`isEqualSelector`), or the derived selector matches the pod's labels; hence no
returned pod violates the selector unless one of the first two conditions holds. -/
theorem C7_PodsForService_three_way_test (osq : ObjectStoreQueryer) (env : Env)
    (service : Service) (objects : List Unstructured) (s : Selector)
    (hmiss : podsForServicesCache.get osq.podsForServices service.ObjectMeta.UID = none)
    (hlist : env.objectStore.List
      { Namespace := service.ObjectMeta.Namespace, APIVersion := "v1", Kind := "Pod" }
        = .ok objects)
    (hconv : ∀ u ∈ objects, ∃ p, env.toPod u = .ok p)
    (hsel : LabelSelectorAsSelector (some { MatchLabels := service.Selector }) = .ok s) :
    (osq.PodsForService env (some service)).result
      = .ok ((listedPods env objects).filter (fun pod =>
          decide (service.Selector = []) ||
          (isEqualSelector (some { MatchLabels := service.Selector })
              (some { MatchLabels := pod.ObjectMeta.Labels }) == some true) ||
          s.Matches pod.ObjectMeta.Labels)) ∧
    (∀ pods, (osq.PodsForService env (some service)).result = .ok pods →
      ∀ pod ∈ pods, s.Matches pod.ObjectMeta.Labels = false →
        service.Selector = [] ∨
        isEqualSelector (some { MatchLabels := service.Selector })
          (some { MatchLabels := pod.ObjectMeta.Labels }) = some true) := by
  obtain ⟨hres, _⟩ := PodsForService_run osq env service objects s hmiss hlist hconv hsel
  have hfilter : (listedPods env objects).filter (fun pod =>
        (isEqualSelector (some { MatchLabels := service.Selector })
            (some { MatchLabels := pod.ObjectMeta.Labels }) == some true) ||
          matchLabels service.Selector pod.ObjectMeta.Labels)
      = (listedPods env objects).filter (fun pod =>
          decide (service.Selector = []) ||
          (isEqualSelector (some { MatchLabels := service.Selector })
              (some { MatchLabels := pod.ObjectMeta.Labels }) == some true) ||
          s.Matches pod.ObjectMeta.Labels) := by
    apply List.filter_congr
    intro pod _
    rw [(flatSelector_spec service.Selector s hsel pod.ObjectMeta.Labels).2.2]
    by_cases he : service.Selector = []
    · simp [he, matchLabels]
    · simp [he]
  rw [hfilter] at hres
  refine ⟨hres, ?_⟩
  intro pods hpods pod hpod hnm
  rw [hres] at hpods
  cases hpods
  have hk := (List.mem_filter.mp hpod).2
  simp only [hnm, Bool.or_false, Bool.or_eq_true, decide_eq_true_eq, beq_iff_eq] at hk
  exact hk

/-- C7 witness: the service `svc-a` (selector `app=web`) against the sample pods. -/
theorem C7_PodsForService_three_way_test_witness :
    (({} : ObjectStoreQueryer).PodsForService sampleEnv (some serviceA)).result
      = .ok ((listedPods sampleEnv [podWeb, podDb]).filter (fun pod =>
          decide (serviceA.Selector = []) ||
          (isEqualSelector (some { MatchLabels := serviceA.Selector })
              (some { MatchLabels := pod.ObjectMeta.Labels }) == some true) ||
          (Selector.internal [⟨"app", .Equals, ["web"]⟩]).Matches pod.ObjectMeta.Labels)) :=
  (C7_PodsForService_three_way_test {} sampleEnv serviceA [podWeb, podDb]
    (.internal [⟨"app", .Equals, ["web"]⟩]) rfl rfl (fun _ _ => ⟨_, rfl⟩) (by rfl)).1

/-- C7 counterexample: the service `broken` is not cached and the pod listing succeeds,
but its selector has an empty key, which `labels.NewRequirement` rejects, and
`PodsForService` returns an error instead of pods. -/
theorem C7_counterexample :
    podsForServicesCache.get ({} : ObjectStoreQueryer).podsForServices
      serviceBadSelector.ObjectMeta.UID = none ∧
    sampleEnv.objectStore.List { Namespace := "default", APIVersion := "v1", Kind := "Pod" }
      = .ok [podWeb, podDb] ∧
    (∀ u ∈ [podWeb, podDb], ∃ p, sampleEnv.toPod u = .ok p) ∧
    (({} : ObjectStoreQueryer).PodsForService sampleEnv (some serviceBadSelector)).result
      = .error (.Wrap (.New "invalid label key ") "fetching pods for service: broken") ∧
    ¬ ∃ pods, (({} : ObjectStoreQueryer).PodsForService sampleEnv
      (some serviceBadSelector)).result = .ok pods := by
  have hres : (({} : ObjectStoreQueryer).PodsForService sampleEnv
      (some serviceBadSelector)).result
      = .error (.Wrap (.New "invalid label key ") "fetching pods for service: broken") := by
    rfl
  refine ⟨rfl, rfl, fun _ _ => ⟨_, rfl⟩, hres, ?_⟩
  rintro ⟨pods, h⟩
  rw [hres] at h
  cases h

/-- C8 (as amended): for every service whose spec selector is nil or empty and whose UID
is not cached, and every successful pod listing of the namespace whose objects convert
to pods, `PodsForService` returns every pod of the listing, in listing order (all pods
in the namespace, whatever their labels). -/
theorem C8_PodsForService_empty_selector (osq : ObjectStoreQueryer) (env : Env)
    (service : Service) (objects : List Unstructured)
    (hempty : service.Selector = [])
    (hmiss : podsForServicesCache.get osq.podsForServices service.ObjectMeta.UID = none)
    (hlist : env.objectStore.List
      { Namespace := service.ObjectMeta.Namespace, APIVersion := "v1", Kind := "Pod" }
        = .ok objects)
    (hconv : ∀ u ∈ objects, ∃ p, env.toPod u = .ok p) :
    (osq.PodsForService env (some service)).result = .ok (listedPods env objects) ∧
    (listedPods env objects).length = objects.length := by
  have hsel : LabelSelectorAsSelector (some { MatchLabels := service.Selector })
      = .ok (.internal []) := by rw [hempty]; rfl
  obtain ⟨hres, _⟩ := PodsForService_run osq env service objects _ hmiss hlist hconv hsel
  constructor
  · rw [hres, hempty]
    congr 1
    apply List.filter_eq_self.mpr
    intro pod _
    simp [matchLabels]
  · clear hres hlist
    induction objects with
    | nil => rfl
    | cons u rest ih =>
      obtain ⟨p, hp⟩ := hconv u (List.mem_cons_self _ _)
      have := ih (fun u2 h2 => hconv u2 (List.mem_cons_of_mem _ h2))
      simp only [listedPods, List.filterMap_cons, hp, List.length_cons] at this ⊢
      rw [this]

/-- C8 witness: the service without selector against the sample pods. -/
theorem C8_PodsForService_empty_selector_witness :
    (({} : ObjectStoreQueryer).PodsForService sampleEnv (some serviceNoSelector)).result
      = .ok (listedPods sampleEnv [podWeb, podDb]) ∧
    (listedPods sampleEnv [podWeb, podDb]).length = 2 :=
  C8_PodsForService_empty_selector {} sampleEnv serviceNoSelector [podWeb, podDb] rfl rfl rfl
    (fun _ _ => ⟨_, rfl⟩)

/-- C8 counterexample: the service has no selector and every listed pod carries the
label `app`, which is not a controller-injected key; `PodsForService` returns both pods
of the namespace, not the empty list. -/
theorem C8_counterexample :
    serviceNoSelector.Selector = [] ∧
    sampleEnv.objectStore.List { Namespace := "default", APIVersion := "v1", Kind := "Pod" }
      = .ok [podWeb, podDb] ∧
    (∀ u ∈ [podWeb, podDb], ∃ kv ∈ u.ObjectMeta.Labels, kv.1 ∉ extraKeys) ∧
    (({} : ObjectStoreQueryer).PodsForService sampleEnv (some serviceNoSelector)).result
      = .ok [{ TypeMeta := ⟨"v1", "Pod"⟩, ObjectMeta := podWeb.ObjectMeta },
             { TypeMeta := ⟨"v1", "Pod"⟩, ObjectMeta := podDb.ObjectMeta }] ∧
    (({} : ObjectStoreQueryer).PodsForService sampleEnv (some serviceNoSelector)).result
      ≠ .ok [] := by
  have hres : (({} : ObjectStoreQueryer).PodsForService sampleEnv
      (some serviceNoSelector)).result
      = .ok [{ TypeMeta := ⟨"v1", "Pod"⟩, ObjectMeta := podWeb.ObjectMeta },
             { TypeMeta := ⟨"v1", "Pod"⟩, ObjectMeta := podDb.ObjectMeta }] := by rfl
  refine ⟨rfl, rfl, ?_, hres, ?_⟩
  · intro u hu
    simp only [List.mem_cons, List.mem_singleton, List.not_mem_nil, or_false] at hu
    rcases hu with rfl | rfl
    · exact ⟨("app", "web"), by simp [podWeb], by decide⟩
    · exact ⟨("app", "db"), by simp [podDb], by decide⟩
  · rw [hres]
    intro h
    cases h

/-! ## `ObjectStoreQueryer.ServicesForPod` -/

theorem listedServices_cons (env : Env) (u : Unstructured) (rest : List Unstructured)
    (svc : Service) (h : env.toService u = .ok svc) :
    listedServices env (u :: rest) = svc.copyObjectMeta u :: listedServices env rest := by
  simp [listedServices, h]

/-- The loop of `ServicesForPod` when every object converts and every selector is
valid. -/
theorem ServicesForPod_loop_spec (env : Env) (pod : Pod) :
    ∀ (ul : List Unstructured), (∀ u ∈ ul, ∃ svc, env.toService u = .ok svc) →
      (∀ svc ∈ listedServices env ul,
        ∃ s, LabelSelectorAsSelector (some { MatchLabels := svc.Selector }) = .ok s) →
      ServicesForPod.loop env pod ul
        = .ok ((listedServices env ul).filter (fun svc =>
            !svc.Selector.isEmpty && matchLabels svc.Selector pod.ObjectMeta.Labels)) := by
  intro ul
  induction ul with
  | nil => intro _ _; rfl
  | cons u rest ih =>
    intro hconv hvalid
    obtain ⟨svc, hsvc⟩ := hconv u (List.mem_cons_self _ _)
    have hl := listedServices_cons env u rest svc hsvc
    rw [hl] at hvalid ⊢
    have ih2 := ih (fun u2 h2 => hconv u2 (List.mem_cons_of_mem _ h2))
      (fun svc2 h2 => hvalid svc2 (List.mem_cons_of_mem _ h2))
    obtain ⟨s, hs⟩ := hvalid _ (List.mem_cons_self _ _)
    obtain ⟨hnil, hemp, hm⟩ :=
      flatSelector_spec (svc.copyObjectMeta u).Selector s hs pod.ObjectMeta.Labels
    rw [List.filter_cons]
    simp only [ServicesForPod.loop, hsvc, getSelector, hs, ih2]
    cases s with
    | nil => exact absurd rfl hnil
    | nothing =>
      simp only [hemp, hm]
      cases (svc.copyObjectMeta u).Selector.isEmpty <;>
        cases matchLabels (svc.copyObjectMeta u).Selector pod.ObjectMeta.Labels <;> rfl
    | internal rs =>
      simp only [hemp, hm]
      cases (svc.copyObjectMeta u).Selector.isEmpty <;>
        cases matchLabels (svc.copyObjectMeta u).Selector pod.ObjectMeta.Labels <;> rfl

/-- C9 (as amended): for every non-nil pod and every successful listing of the services
in the pod's namespace whose objects convert to services with valid label selectors
(`metav1.LabelSelectorAsSelector` accepts the match-labels of each), `ServicesForPod`
returns, in listing order, exactly the services whose derived selector is non-empty and
matches the pod's labels; a service with a nil or empty selector is never returned,
whatever the pod's labels are. The caches are left as they were. -/
theorem C9_ServicesForPod_nonempty_matching (osq : ObjectStoreQueryer) (env : Env) (pod : Pod)
    (ul : List Unstructured)
    (hlist : env.objectStore.List
      { Namespace := pod.ObjectMeta.Namespace, APIVersion := "v1", Kind := "Service" }
        = .ok ul)
    (hconv : ∀ u ∈ ul, ∃ svc, env.toService u = .ok svc)
    (hvalid : ∀ svc ∈ listedServices env ul,
      ∃ s, LabelSelectorAsSelector (some { MatchLabels := svc.Selector }) = .ok s) :
    (osq.ServicesForPod env (some pod)).result
      = .ok ((listedServices env ul).filter (fun svc =>
          !svc.Selector.isEmpty && matchLabels svc.Selector pod.ObjectMeta.Labels)) ∧
    (∀ results, (osq.ServicesForPod env (some pod)).result = .ok results →
      ∀ svc ∈ results, svc.Selector ≠ [] ∧
        ∀ kv ∈ svc.Selector, pod.ObjectMeta.Labels.lookup kv.1 = some kv.2) ∧
    (osq.ServicesForPod env (some pod)).osq = osq := by
  have hloop := ServicesForPod_loop_spec env pod ul hconv hvalid
  have hres : (osq.ServicesForPod env (some pod)).result
      = .ok ((listedServices env ul).filter (fun svc =>
          !svc.Selector.isEmpty && matchLabels svc.Selector pod.ObjectMeta.Labels)) := by
    unfold ObjectStoreQueryer.ServicesForPod
    simp only [hlist, hloop]
  refine ⟨hres, ?_, ?_⟩
  · intro results hr svc hs
    rw [hres] at hr
    cases hr
    have hk := (List.mem_filter.mp hs).2
    simp only [Bool.and_eq_true, Bool.not_eq_true', List.isEmpty_eq_false, matchLabels,
      List.all_eq_true, beq_iff_eq] at hk
    exact ⟨hk.1, hk.2⟩
  · unfold ObjectStoreQueryer.ServicesForPod
    simp only [hlist]

/-- C9 witness: the pod `web-1` against the services `svc-a` and `headless`. -/
theorem C9_ServicesForPod_nonempty_matching_witness :
    (({} : ObjectStoreQueryer).ServicesForPod sampleEnv (some typedPodWeb)).result
      = .ok ((listedServices sampleEnv [svcA, svcNoSelector]).filter (fun svc =>
          !svc.Selector.isEmpty && matchLabels svc.Selector typedPodWeb.ObjectMeta.Labels)) :=
  (C9_ServicesForPod_nonempty_matching {} sampleEnv typedPodWeb [svcA, svcNoSelector] rfl
    (fun _ _ => ⟨_, rfl⟩)
    (by
      intro svc hsvc
      have hl : listedServices sampleEnv [svcA, svcNoSelector]
          = [serviceA, serviceNoSelector] := by rfl
      rw [hl] at hsvc
      simp only [List.mem_cons, List.mem_singleton, List.not_mem_nil, or_false] at hsvc
      rcases hsvc with rfl | rfl
      · exact ⟨.internal [⟨"app", .Equals, ["web"]⟩], by rfl⟩
      · exact ⟨.internal [], by rfl⟩)).1

/-- C9 counterexample: the service listing succeeds and its objects convert, but the
selector of the listed service `broken` has an empty key; `ServicesForPod` returns an
error, not the services matching the pod (`svc-a` does match it). -/
theorem C9_counterexample :
    strictEnv.objectStore.List { Namespace := "default", APIVersion := "v1", Kind := "Service" }
      = .ok [svcA, svcBadSelector] ∧
    listedServices strictEnv [svcA, svcBadSelector] = [serviceA, serviceBadSelector] ∧
    matchLabels serviceA.Selector typedPodWeb.ObjectMeta.Labels = true ∧
    (({} : ObjectStoreQueryer).ServicesForPod strictEnv (some typedPodWeb)).result
      = .error (.Wrap (.New "invalid label key ") "invalid selector") ∧
    ¬ ∃ results, (({} : ObjectStoreQueryer).ServicesForPod strictEnv
      (some typedPodWeb)).result = .ok results := by
  have hres : (({} : ObjectStoreQueryer).ServicesForPod strictEnv (some typedPodWeb)).result
      = .error (.Wrap (.New "invalid label key ") "invalid selector") := by rfl
  refine ⟨rfl, by rfl, by rfl, hres, ?_⟩
  rintro ⟨results, h⟩
  rw [hres] at h
  cases h

/-! ## `ObjectStoreQueryer.ServicesForIngress` -/

/-- The loop of `ServicesForIngress` when no `Get` fails and every object found
converts: the backends the store has no object for are skipped. -/
theorem ServicesForIngress_loop_spec (env : Env) (ingress : Ingress) :
    ∀ (backends : List IngressBackend),
      (∀ b ∈ backends, ∃ found, env.objectStore.Get (ServicesForIngress.key ingress b)
        = .ok found) →
      (∀ b ∈ backends, ∀ u, env.objectStore.Get (ServicesForIngress.key ingress b)
        = .ok (some u) → ∃ svc, env.toService u = .ok svc) →
      (ServicesForIngress.loop env ingress backends).1
        = .ok (backends.filterMap (resolvedService env ingress)) := by
  intro backends
  induction backends with
  | nil => intro _ _; rfl
  | cons b rest ih =>
    intro hget hconv
    have ih2 := ih (fun b2 h2 => hget b2 (List.mem_cons_of_mem _ h2))
      (fun b2 h2 => hconv b2 (List.mem_cons_of_mem _ h2))
    obtain ⟨found, hf⟩ := hget b (List.mem_cons_self _ _)
    cases found with
    | none =>
      simp only [ServicesForIngress.loop, hf, ih2, List.filterMap_cons, resolvedService]
    | some u =>
      obtain ⟨svc, hsvc⟩ := hconv b (List.mem_cons_self _ _) u hf
      simp only [ServicesForIngress.loop, hf, hsvc, ih2, List.filterMap_cons, resolvedService]

/-- A `Get` that fails for one of the backends fails the whole loop. -/
theorem ServicesForIngress_loop_error (env : Env) (ingress : Ingress) :
    ∀ (backends : List IngressBackend),
      (∃ b ∈ backends, ∃ err, env.objectStore.Get (ServicesForIngress.key ingress b)
        = .error err) →
      ∃ err, (ServicesForIngress.loop env ingress backends).1 = .error err := by
  intro backends
  induction backends with
  | nil => rintro ⟨b, hb, _⟩; simp at hb
  | cons b rest ih =>
    rintro ⟨b2, hb2, err, herr⟩
    cases hf : env.objectStore.Get (ServicesForIngress.key ingress b) with
    | error e =>
      simp only [ServicesForIngress.loop, hf]
      exact ⟨_, rfl⟩
    | ok found =>
      have hrest : ∃ err, (ServicesForIngress.loop env ingress rest).1 = .error err := by
        apply ih
        rcases List.mem_cons.mp hb2 with rfl | hmem
        · rw [hf] at herr; cases herr
        · exact ⟨b2, hmem, err, herr⟩
      obtain ⟨e, he⟩ := hrest
      cases found with
      | none =>
        simp only [ServicesForIngress.loop, hf, he]
        exact ⟨_, rfl⟩
      | some u =>
        cases hsvc : env.toService u with
        | error e2 =>
          simp only [ServicesForIngress.loop, hf, hsvc]
          exact ⟨_, rfl⟩
        | ok svc =>
          simp only [ServicesForIngress.loop, hf, hsvc, he]
          exact ⟨_, rfl⟩

/-- C10 (as amended): for every ingress and store, `ServicesForIngress` skips each
backend for which the store's get finds no object (it answers with no object and no
error) without failing the whole call, and, when no get fails and the objects found
convert to services, returns the services of the remaining backends in backend order;
a get that fails with an error, not-found included, fails the whole call.  For an
ingress with default backend `svc-a` and one rule backend `svc-b` where the get of
`svc-b` finds no object, it returns only `svc-a` and no error. The caches are left as
they were. -/
theorem C10_ServicesForIngress_skips_missing (osq : ObjectStoreQueryer) (env : Env)
    (ingress : Ingress) :
    ((∀ b ∈ listIngressBackends ingress,
        ∃ found, env.objectStore.Get (ServicesForIngress.key ingress b) = .ok found) →
      (∀ b ∈ listIngressBackends ingress, ∀ u,
        env.objectStore.Get (ServicesForIngress.key ingress b) = .ok (some u) →
        ∃ svc, env.toService u = .ok svc) →
      (osq.ServicesForIngress env (some ingress)).result
        = .ok ((listIngressBackends ingress).filterMap (resolvedService env ingress))) ∧
    ((∃ b ∈ listIngressBackends ingress, ∃ err,
        env.objectStore.Get (ServicesForIngress.key ingress b) = .error err) →
      ∃ err, (osq.ServicesForIngress env (some ingress)).result = .error err) ∧
    (∀ (portA portB host path : String) (u : Unstructured) (svc : Service),
      ingress.Backend = some ⟨"svc-a", portA⟩ →
      ingress.Rules = [⟨host, some ⟨[⟨path, ⟨"svc-b", portB⟩⟩]⟩⟩] →
      env.objectStore.Get (ServicesForIngress.key ingress ⟨"svc-a", portA⟩) = .ok (some u) →
      env.toService u = .ok svc →
      env.objectStore.Get (ServicesForIngress.key ingress ⟨"svc-b", portB⟩) = .ok none →
      (osq.ServicesForIngress env (some ingress)).result = .ok [svc.copyObjectMeta u]) ∧
    (osq.ServicesForIngress env (some ingress)).osq = osq := by
  refine ⟨?_, ?_, ?_, rfl⟩
  · intro hget hconv
    exact ServicesForIngress_loop_spec env ingress _ hget hconv
  · intro h
    exact ServicesForIngress_loop_error env ingress _ h
  · intro portA portB host path u svc hb hr hga hsvc hgb
    have hbackends : listIngressBackends ingress = [⟨"svc-a", portA⟩, ⟨"svc-b", portB⟩] := by
      simp [listIngressBackends, hb, hr, listIngressBackends.rules, listIngressBackends.paths]
    show (ServicesForIngress.loop env ingress (listIngressBackends ingress)).1 = _
    rw [hbackends]
    simp only [ServicesForIngress.loop, hga, hsvc, hgb]

/-- C10 witness: the sample ingress against a store that has `svc-a` and finds no object
for `svc-b`. -/
theorem C10_ServicesForIngress_skips_missing_witness :
    (({} : ObjectStoreQueryer).ServicesForIngress sampleEnv (some sampleIngress)).result
      = .ok [serviceA] :=
  (C10_ServicesForIngress_skips_missing {} sampleEnv sampleIngress).2.2.1
    "80" "80" "example.org" "/b" svcA serviceA rfl rfl rfl (by rfl) rfl

/-- C10 counterexample: the get of `svc-b` fails as not found; `ServicesForIngress` does
not skip the backend but fails the whole call, returning the wrapped error and not
`svc-a`. -/
theorem C10_counterexample :
    listIngressBackends sampleIngress = [⟨"svc-a", "80"⟩, ⟨"svc-b", "80"⟩] ∧
    strictEnv.objectStore.Get (ServicesForIngress.key sampleIngress ⟨"svc-a", "80"⟩)
      = .ok (some svcA) ∧
    strictEnv.objectStore.Get (ServicesForIngress.key sampleIngress ⟨"svc-b", "80"⟩)
      = .error (.NotFound "svc-b") ∧
    (({} : ObjectStoreQueryer).ServicesForIngress strictEnv (some sampleIngress)).result
      = .error (.Wrap (.NotFound "svc-b") "retrieving service backend: svc-b") ∧
    (({} : ObjectStoreQueryer).ServicesForIngress strictEnv (some sampleIngress)).result
      ≠ .ok [serviceA] := by
  have hres : (({} : ObjectStoreQueryer).ServicesForIngress strictEnv
      (some sampleIngress)).result
      = .error (.Wrap (.NotFound "svc-b") "retrieving service backend: svc-b") := by rfl
  refine ⟨by rfl, by rfl, by rfl, hres, ?_⟩
  rw [hres]
  intro h
  cases h

/-! ## `listIngressBackends` and `IngressesForService` -/

/-- The paths loop keeps the backends with a service name, in order. -/
theorem listIngressBackends_paths_eq (paths : List HTTPIngressPath) :
    listIngressBackends.paths paths
      = (paths.map (fun p => p.Backend)).filter (fun backend => backend.ServiceName ≠ "") := by
  induction paths with
  | nil => rfl
  | cons p rest ih =>
    by_cases h : p.Backend.ServiceName = ""
    · simp [listIngressBackends.paths, h, ih]
    · simp [listIngressBackends.paths, h, ih]

/-- The rules loop concatenates the path backends of the rules that have an HTTP
value. -/
theorem listIngressBackends_rules_eq (rules : List IngressRule) :
    listIngressBackends.rules rules
      = rules.flatMap (fun rule =>
          match rule.HTTP with
          | none => []
          | some http =>
            (http.Paths.map (fun p => p.Backend)).filter
              (fun backend => backend.ServiceName ≠ "")) := by
  induction rules with
  | nil => rfl
  | cons rule rest ih =>
    cases h : rule.HTTP with
    | none => simp [listIngressBackends.rules, h, ih]
    | some http =>
      simp [listIngressBackends.rules, h, ih, listIngressBackends_paths_eq]

/-- C11: for every ingress, `listIngressBackends` returns exactly the default backend when
it is present with a non-empty service name, followed by every HTTP path backend with a
non-empty service name across all rules, in rule and path order; a rule without an HTTP
value contributes nothing (also between rules that do), and no backend with an empty
service name is ever returned. -/
theorem C11_listIngressBackends_exact (ingress : Ingress) :
    listIngressBackends ingress = expectedBackends ingress ∧
    (∀ backend ∈ listIngressBackends ingress, backend.ServiceName ≠ "") ∧
    (∀ (front back : List IngressRule) (rule : IngressRule), rule.HTTP = none →
      listIngressBackends { ingress with Rules := front ++ rule :: back }
        = listIngressBackends { ingress with Rules := front ++ back }) := by
  have heq : ∀ ing : Ingress, listIngressBackends ing = expectedBackends ing := by
    intro ing
    unfold listIngressBackends expectedBackends
    rw [listIngressBackends_rules_eq]
    congr 1
    cases ing.Backend with
    | none => rfl
    | some backend =>
      by_cases h : backend.ServiceName = ""
      · simp [h]
      · simp [h]
  refine ⟨heq ingress, ?_, ?_⟩
  · intro backend hb
    rw [heq] at hb
    simp only [expectedBackends, List.mem_append, List.mem_filter, List.mem_flatMap] at hb
    rcases hb with ⟨_, h⟩ | ⟨rule, _, h⟩
    · simpa using h
    · cases hr : rule.HTTP with
      | none => rw [hr] at h; simp at h
      | some http =>
        rw [hr] at h
        simp only [List.mem_filter] at h
        simpa using h.2
  · intro front back rule hr
    rw [heq, heq]
    simp [expectedBackends, List.flatMap_append, List.flatMap_cons, hr]

/-- C11 witness: a rule without HTTP value between the default backend and the rule for
`svc-b` changes nothing. -/
theorem C11_listIngressBackends_exact_witness :
    listIngressBackends { sampleIngress with Rules := [] ++ { Host := "plain.example.org" }
        :: sampleIngress.Rules }
      = listIngressBackends { sampleIngress with Rules := [] ++ sampleIngress.Rules } :=
  (C11_listIngressBackends_exact sampleIngress).2.2 [] sampleIngress.Rules
    { Host := "plain.example.org" } rfl

/-- The loop of `containsBackend` is a search for the service name. -/
theorem containsBackend_eq_any (lst : List IngressBackend) (s : String) :
    containsBackend lst s = lst.any (fun item => item.ServiceName == s) := by
  induction lst with
  | nil => rfl
  | cons item rest ih =>
    by_cases h : item.ServiceName = s
    · simp [containsBackend, h]
    · simp [containsBackend, h, ih]

/-- The loop of `IngressesForService` when every listed object converts. -/
theorem IngressesForService_loop_spec (env : Env) (service : Service) :
    ∀ (ul : List Unstructured), (∀ u ∈ ul, ∃ ingress, env.toIngress u = .ok ingress) →
      IngressesForService.loop env service ul
        = .ok ((listedIngresses env ul).filter (fun ingress =>
            (listIngressBackends ingress).any
              (fun backend => backend.ServiceName == service.ObjectMeta.Name))) := by
  intro ul
  induction ul with
  | nil => intro _; rfl
  | cons u rest ih =>
    intro hconv
    obtain ⟨ingress, hi⟩ := hconv u (List.mem_cons_self _ _)
    have ih2 := ih (fun u2 h2 => hconv u2 (List.mem_cons_of_mem _ h2))
    have hl : listedIngresses env (u :: rest)
        = ingress.copyObjectMeta u :: listedIngresses env rest := by
      simp [listedIngresses, hi]
    rw [hl, List.filter_cons]
    simp only [IngressesForService.loop, hi, ih2, containsBackend_eq_any]
    cases (listIngressBackends (ingress.copyObjectMeta u)).any
      (fun backend => backend.ServiceName == service.ObjectMeta.Name) <;> rfl

/-- C12: for every non-nil service and every successful listing of the ingresses in the
service's namespace (key: that namespace, `extensions/v1beta1`, `Ingress`; the listed
objects convert to ingresses), `IngressesForService` returns, in listing order, exactly
the ingresses whose derived backends (`listIngressBackends`) include one whose service
name equals the service's name. -/
theorem C12_IngressesForService_by_backend (osq : ObjectStoreQueryer) (env : Env)
    (service : Service) (ul : List Unstructured)
    (hlist : env.objectStore.List
      { Namespace := service.ObjectMeta.Namespace, APIVersion := "extensions/v1beta1",
        Kind := "Ingress" } = .ok ul)
    (hconv : ∀ u ∈ ul, ∃ ingress, env.toIngress u = .ok ingress) :
    (osq.IngressesForService env (some service)).result
      = .ok ((listedIngresses env ul).filter (fun ingress =>
          (listIngressBackends ingress).any
            (fun backend => backend.ServiceName == service.ObjectMeta.Name))) ∧
    (∀ results, (osq.IngressesForService env (some service)).result = .ok results →
      ∀ ingress, ingress ∈ results ↔
        ingress ∈ listedIngresses env ul ∧
        ∃ backend ∈ listIngressBackends ingress,
          backend.ServiceName = service.ObjectMeta.Name) ∧
    (osq.IngressesForService env (some service)).trace
      = [.List { Namespace := service.ObjectMeta.Namespace,
                 APIVersion := "extensions/v1beta1", Kind := "Ingress" }] := by
  have hloop := IngressesForService_loop_spec env service ul hconv
  have hres : (osq.IngressesForService env (some service)).result
      = .ok ((listedIngresses env ul).filter (fun ingress =>
          (listIngressBackends ingress).any
            (fun backend => backend.ServiceName == service.ObjectMeta.Name))) := by
    unfold ObjectStoreQueryer.IngressesForService
    simp only [hlist, hloop]
  refine ⟨hres, ?_, ?_⟩
  · intro results hr ingress
    rw [hres] at hr
    cases hr
    simp [List.mem_filter]
  · unfold ObjectStoreQueryer.IngressesForService
    simp only [hlist]

/-- C12 witness: of the ingresses `front` and `empty`, only `front` names `svc-b`. -/
theorem C12_IngressesForService_by_backend_witness :
    (({} : ObjectStoreQueryer).IngressesForService ingressEnv (some serviceB)).result
      = .ok ((listedIngresses ingressEnv [storedIngress, storedEmptyIngress]).filter
          (fun ingress => (listIngressBackends ingress).any
            (fun backend => backend.ServiceName == serviceB.ObjectMeta.Name))) ∧
    (listedIngresses ingressEnv [storedIngress, storedEmptyIngress]).filter
        (fun ingress => (listIngressBackends ingress).any
          (fun backend => backend.ServiceName == serviceB.ObjectMeta.Name))
      = [sampleIngress] :=
  ⟨(C12_IngressesForService_by_backend {} ingressEnv serviceB
      [storedIngress, storedEmptyIngress] rfl (fun _ _ => ⟨_, rfl⟩)).1, by rfl⟩

/-! ## `ObjectStoreQueryer.ServiceAccountForPod` -/

/-- A pod without service account name gets `nil, nil` and the store is not asked. -/
theorem ServiceAccountForPod_no_name (osq : ObjectStoreQueryer) (env : Env) (pod : Pod)
    (h : pod.ServiceAccountName = "") :
    (osq.ServiceAccountForPod env (some pod)).result = .ok none ∧
    (osq.ServiceAccountForPod env (some pod)).trace = [] := by
  simp [ObjectStoreQueryer.ServiceAccountForPod, h]

/-- When the get of the named service account fails, the wrapped error is returned. -/
theorem ServiceAccountForPod_get_error (osq : ObjectStoreQueryer) (env : Env) (pod : Pod)
    (err : Error) (h : pod.ServiceAccountName ≠ "")
    (hget : env.objectStore.Get (ServiceAccountForPod.key pod) = .error err) :
    ∃ msg, (osq.ServiceAccountForPod env (some pod)).result = .error (.Wrap err msg) := by
  simp only [ObjectStoreQueryer.ServiceAccountForPod, h, if_false, hget]
  exact ⟨_, rfl⟩

/-- When the store answers the get with no object and no error, the call faults on the
nil pointer. -/
theorem ServiceAccountForPod_no_object (osq : ObjectStoreQueryer) (env : Env) (pod : Pod)
    (h : pod.ServiceAccountName ≠ "")
    (hget : env.objectStore.Get (ServiceAccountForPod.key pod) = .ok none) :
    (osq.ServiceAccountForPod env (some pod)).result
      = .panic "invalid memory address or nil pointer dereference" := by
  simp only [ObjectStoreQueryer.ServiceAccountForPod, h, if_false, hget]

/-- C13 (the code at the failing input): the pod `job-1` names the service account
`builder`, for which the store has no object and reports no error; `ServiceAccountForPod`
then neither returns an error nor anything else: it faults on the nil pointer. -/
theorem C13_ServiceAccountForPod_missing_account_faults :
    builderPod.ServiceAccountName = "builder" ∧
    sampleEnv.objectStore.Get (ServiceAccountForPod.key builderPod) = .ok none ∧
    (({} : ObjectStoreQueryer).ServiceAccountForPod sampleEnv (some builderPod)).result
      = .panic "invalid memory address or nil pointer dereference" ∧
    ¬ ∃ err, (({} : ObjectStoreQueryer).ServiceAccountForPod sampleEnv
      (some builderPod)).result = .error err := by
  have hres : (({} : ObjectStoreQueryer).ServiceAccountForPod sampleEnv
      (some builderPod)).result
      = .panic "invalid memory address or nil pointer dereference" := by rfl
  refine ⟨rfl, by rfl, hres, ?_⟩
  rintro ⟨err, h⟩
  rw [hres] at h
  cases h

/-! ## `ObjectStoreQueryer.OwnerReference` -/

/-- Reading the owner cache at the key just written gives the value written. -/
theorem ownerCache_get_set (c : List (Key × Option Unstructured)) (key : Key)
    (object : Option Unstructured) :
    ownerCache.get (ownerCache.set c key (some object)) key = some object := by
  simp [ownerCache.get, ownerCache.set, List.lookup]

/-- C14: `OwnerReference(namespace, ref)` gets the object with store key
(namespace, ref.APIVersion, ref.Kind, ref.Name): on a cache miss that get is its only
call, and what the store answers for that key is what the call returns and what it
leaves in the owner cache under that key, the rest of the caches unchanged; on a cache
hit the cached object is returned without any store call.  After a call that returned
an object, a second call with an equal key returns that same object without any store
get, whatever the store would now answer.  When the store get fails, it returns an
error wrapping the store's error (the cause is the store's) and caches nothing: the
caches are unchanged and the key is still absent. -/
theorem C14_OwnerReference_get_and_cache (osq : ObjectStoreQueryer) (env : Env) (ns : String)
    (ownerReference : OwnerReference) :
    (ownerCache.get osq.owner (OwnerReference.key ns ownerReference) = none →
      (osq.OwnerReference env ns ownerReference).trace
        = [.Get { Namespace := ns, APIVersion := ownerReference.APIVersion,
                  Kind := ownerReference.Kind, Name := ownerReference.Name }]) ∧
    (∀ owner, ownerCache.get osq.owner (OwnerReference.key ns ownerReference) = none →
      env.objectStore.Get { Namespace := ns, APIVersion := ownerReference.APIVersion,
                            Kind := ownerReference.Kind, Name := ownerReference.Name }
        = .ok owner →
      (osq.OwnerReference env ns ownerReference).result = .ok owner ∧
      ownerCache.get (osq.OwnerReference env ns ownerReference).osq.owner
        (OwnerReference.key ns ownerReference) = some owner ∧
      (osq.OwnerReference env ns ownerReference).osq
        = { osq with owner :=
              (ownerCache.set osq.owner (OwnerReference.key ns ownerReference) (some owner)) }) ∧
    (∀ cached, ownerCache.get osq.owner (OwnerReference.key ns ownerReference) = some cached →
      (osq.OwnerReference env ns ownerReference).result = .ok cached ∧
      (osq.OwnerReference env ns ownerReference).trace = [] ∧
      (osq.OwnerReference env ns ownerReference).osq = osq) ∧
    (∀ object, (osq.OwnerReference env ns ownerReference).result = .ok object →
      ∀ (env2 : Env) (ns2 : String) (ref2 : OwnerReference),
        OwnerReference.key ns2 ref2 = OwnerReference.key ns ownerReference →
        ((osq.OwnerReference env ns ownerReference).osq.OwnerReference env2 ns2 ref2).result
          = .ok object ∧
        ((osq.OwnerReference env ns ownerReference).osq.OwnerReference env2 ns2 ref2).trace
          = [] ∧
        ((osq.OwnerReference env ns ownerReference).osq.OwnerReference env2 ns2 ref2).osq
          = (osq.OwnerReference env ns ownerReference).osq) ∧
    (∀ err, ownerCache.get osq.owner (OwnerReference.key ns ownerReference) = none →
      env.objectStore.Get (OwnerReference.key ns ownerReference) = .error err →
      (osq.OwnerReference env ns ownerReference).result
        = .error (.Wrap err "get owner from store") ∧
      (Error.Wrap err "get owner from store").Cause = err.Cause ∧
      (osq.OwnerReference env ns ownerReference).osq = osq ∧
      ownerCache.get (osq.OwnerReference env ns ownerReference).osq.owner
        (OwnerReference.key ns ownerReference) = none) := by
  refine ⟨?_, ?_, ?_, ?_, ?_⟩
  · intro hmiss
    unfold ObjectStoreQueryer.OwnerReference
    simp only [hmiss]
    cases env.objectStore.Get (OwnerReference.key ns ownerReference) <;> rfl
  · intro owner hmiss hget
    have hget2 : env.objectStore.Get (OwnerReference.key ns ownerReference) = .ok owner := hget
    unfold ObjectStoreQueryer.OwnerReference
    simp only [hmiss, hget2]
    exact ⟨trivial, ownerCache_get_set _ _ _, trivial⟩
  · intro cached hhit
    unfold ObjectStoreQueryer.OwnerReference
    simp only [hhit, and_self]
  · intro object hok env2 ns2 ref2 hkey
    have hcached : ownerCache.get (osq.OwnerReference env ns ownerReference).osq.owner
        (OwnerReference.key ns ownerReference) = some object := by
      revert hok
      unfold ObjectStoreQueryer.OwnerReference
      cases hmiss : ownerCache.get osq.owner (OwnerReference.key ns ownerReference) with
      | some cached =>
        simp only [hmiss, Outcome.ok.injEq]
        intro h
        rw [← h]
      | none =>
        simp only [hmiss]
        cases hget : env.objectStore.Get (OwnerReference.key ns ownerReference) with
        | error err => simp [hget]
        | ok owner =>
          simp only [hget, Outcome.ok.injEq]
          intro h
          rw [← h]
          exact ownerCache_get_set _ _ _
    generalize (osq.OwnerReference env ns ownerReference).osq = osq1 at hcached ⊢
    unfold ObjectStoreQueryer.OwnerReference
    simp only [hkey, hcached, and_self]
  · intro err hmiss hget
    unfold ObjectStoreQueryer.OwnerReference
    simp only [hmiss, hget, Error.Cause, and_self]

/-- C14 witness: the reference of `exChild` to the replica set `web` is resolved once,
to the object the store holds, and then answered from the cache, also against a store
that has nothing; a reference to an object the store fails on is not cached. -/
theorem C14_OwnerReference_get_and_cache_witness :
    (({} : ObjectStoreQueryer).OwnerReference ownerEnv "default" webReference).result
      = .ok (some storedOwner) ∧
    ownerCache.get
        (({} : ObjectStoreQueryer).OwnerReference ownerEnv "default" webReference).osq.owner
        (OwnerReference.key "default" webReference) = some (some storedOwner) ∧
    ((({} : ObjectStoreQueryer).OwnerReference ownerEnv "default" webReference).osq.OwnerReference
        exEnv "default" webReference).result = .ok (some storedOwner) ∧
    ((({} : ObjectStoreQueryer).OwnerReference ownerEnv "default" webReference).osq.OwnerReference
        exEnv "default" webReference).trace = [] ∧
    (({} : ObjectStoreQueryer).OwnerReference ownerEnv "default"
        { webReference with Name := "gone" }).result
      = .error (.Wrap (.NotFound "gone") "get owner from store") ∧
    (({} : ObjectStoreQueryer).OwnerReference ownerEnv "default"
        { webReference with Name := "gone" }).osq = {} := by
  have h := C14_OwnerReference_get_and_cache {} ownerEnv "default" webReference
  have h1 := h.2.1 (some storedOwner) rfl (by rfl)
  have h2 := h.2.2.2.1 (some storedOwner) (by rfl) exEnv "default" webReference rfl
  have h3 := (C14_OwnerReference_get_and_cache {} ownerEnv "default"
    { webReference with Name := "gone" }).2.2.2.2 (.NotFound "gone") rfl (by rfl)
  exact ⟨h1.1, h1.2.1, h2.1, h2.2.1, h3.1, h3.2.2.1⟩

/-! ## `ObjectStoreQueryer.Events` -/

/-- The loop of `Events` when every listed object converts to an event. -/
theorem Events_loop_spec (env : Env) (u : Unstructured) :
    ∀ (allEvents : List Unstructured), (∀ e ∈ allEvents, ∃ event, env.toEvent e = .ok event) →
      Events.loop env u allEvents
        = .ok ((listedEvents env allEvents).filter (fun event =>
            decide (event.InvolvedObject.Namespace = u.ObjectMeta.Namespace ∧
              event.InvolvedObject.APIVersion = u.TypeMeta.APIVersion ∧
              event.InvolvedObject.Kind = u.TypeMeta.Kind ∧
              event.InvolvedObject.Name = u.ObjectMeta.Name))) := by
  intro allEvents
  induction allEvents with
  | nil => intro _; rfl
  | cons e rest ih =>
    intro hconv
    obtain ⟨event, he⟩ := hconv e (List.mem_cons_self _ _)
    have ih2 := ih (fun e2 h2 => hconv e2 (List.mem_cons_of_mem _ h2))
    have hl : listedEvents env (e :: rest) = event :: listedEvents env rest := by
      simp [listedEvents, he]
    rw [hl, List.filter_cons]
    simp only [Events.loop, he, ih2]
    by_cases hm : event.InvolvedObject.Namespace = u.ObjectMeta.Namespace ∧
        event.InvolvedObject.APIVersion = u.TypeMeta.APIVersion ∧
        event.InvolvedObject.Kind = u.TypeMeta.Kind ∧
        event.InvolvedObject.Name = u.ObjectMeta.Name
    · simp only [hm, and_self, if_true, decide_True]
    · simp only [hm, if_false, decide_False, Bool.false_eq_true]

/-- C15: for every non-nil object and every successful listing of `v1` `Event` objects in
the object's namespace (the listed objects convert to events), `Events` returns, in
listing order, exactly the events whose involvedObject equals the object on all four of
namespace, apiVersion, kind and name.  Nothing is cached: the caches are left as they
were and every call, whatever the caches hold, lists the store again. -/
theorem C15_Events_four_field_match (osq : ObjectStoreQueryer) (env : Env)
    (object : Unstructured) (allEvents : List Unstructured)
    (hlist : env.objectStore.List
      { Namespace := object.ObjectMeta.Namespace, APIVersion := "v1", Kind := "Event" }
        = .ok allEvents)
    (hconv : ∀ e ∈ allEvents, ∃ event, env.toEvent e = .ok event) :
    (osq.Events env (some (some object))).result
      = .ok ((listedEvents env allEvents).filter (fun event =>
          decide (event.InvolvedObject.Namespace = object.ObjectMeta.Namespace ∧
            event.InvolvedObject.APIVersion = object.TypeMeta.APIVersion ∧
            event.InvolvedObject.Kind = object.TypeMeta.Kind ∧
            event.InvolvedObject.Name = object.ObjectMeta.Name))) ∧
    (osq.Events env (some (some object))).osq = osq ∧
    (osq.Events env (some (some object))).trace
      = [.List { Namespace := object.ObjectMeta.Namespace, APIVersion := "v1",
                 Kind := "Event" }] ∧
    ((osq.Events env (some (some object))).osq.Events env (some (some object))).trace
      = [.List { Namespace := object.ObjectMeta.Namespace, APIVersion := "v1",
                 Kind := "Event" }] := by
  have hloop := Events_loop_spec env object allEvents hconv
  have hrun : ∀ osq1 : ObjectStoreQueryer,
      osq1.Events env (some (some object))
        = ⟨.ok ((listedEvents env allEvents).filter (fun event =>
            decide (event.InvolvedObject.Namespace = object.ObjectMeta.Namespace ∧
              event.InvolvedObject.APIVersion = object.TypeMeta.APIVersion ∧
              event.InvolvedObject.Kind = object.TypeMeta.Kind ∧
              event.InvolvedObject.Name = object.ObjectMeta.Name))), osq1,
           [.List { Namespace := object.ObjectMeta.Namespace, APIVersion := "v1",
                    Kind := "Event" }]⟩ := by
    intro osq1
    unfold ObjectStoreQueryer.Events
    simp only [ToUnstructured, hlist, hloop]
  rw [hrun osq]
  simp only [hrun, and_self]

/-- C15 witness: of the three listed events, the two about the pod `web-1` are returned,
in listing order. -/
theorem C15_Events_four_field_match_witness :
    (({} : ObjectStoreQueryer).Events eventEnv (some (some podWeb))).result
      = .ok ((listedEvents eventEnv
          [storedEvent "e1" "web-1", storedEvent "e2" "db-1", storedEvent "e3" "web-1"]).filter
          (fun event =>
            decide (event.InvolvedObject.Namespace = podWeb.ObjectMeta.Namespace ∧
              event.InvolvedObject.APIVersion = podWeb.TypeMeta.APIVersion ∧
              event.InvolvedObject.Kind = podWeb.TypeMeta.Kind ∧
              event.InvolvedObject.Name = podWeb.ObjectMeta.Name))) ∧
    (({} : ObjectStoreQueryer).Events eventEnv (some (some podWeb))).trace
      = [.List { Namespace := "default", APIVersion := "v1", Kind := "Event" }] :=
  ⟨(C15_Events_four_field_match {} eventEnv podWeb
      [storedEvent "e1" "web-1", storedEvent "e2" "db-1", storedEvent "e3" "web-1"] rfl
      (fun _ _ => ⟨_, rfl⟩)).1,
   (C15_Events_four_field_match {} eventEnv podWeb
      [storedEvent "e1" "web-1", storedEvent "e2" "db-1", storedEvent "e3" "web-1"] rfl
      (fun _ _ => ⟨_, rfl⟩)).2.2.1⟩

/-! ## `getSelector` and `copyObjectMeta` -/

/-- C16: `getSelector` is a total type dispatch: for a DaemonSet, StatefulSet, ReplicaSet
or Deployment (versioned or internal) it returns the object's spec selector verbatim; for
a Service or ReplicationController it returns a label selector whose match-labels are the
object's flat selector map and which has no match-expressions; for a CronJob it returns no
selector (nil) and no error; and for every other object it returns an error and no
selector. -/
theorem C16_getSelector_dispatch :
    (∀ t, getSelector (.appsv1DaemonSet t) = .ok t.Selector ∧
          getSelector (.appsDaemonSet t) = .ok t.Selector ∧
          getSelector (.appsv1StatefulSet t) = .ok t.Selector ∧
          getSelector (.appsStatefulSet t) = .ok t.Selector ∧
          getSelector (.v1beta1ReplicaSet t) = .ok t.Selector ∧
          getSelector (.appsv1ReplicaSet t) = .ok t.Selector ∧
          getSelector (.appsReplicaSet t) = .ok t.Selector ∧
          getSelector (.appsv1Deployment t) = .ok t.Selector ∧
          getSelector (.appsDeployment t) = .ok t.Selector) ∧
    (∀ t, getSelector (.corev1Service t)
            = .ok (some { MatchLabels := t.Selector, MatchExpressions := [] }) ∧
          getSelector (.coreService t)
            = .ok (some { MatchLabels := t.Selector, MatchExpressions := [] })) ∧
    (∀ t, getSelector (.corev1ReplicationController t)
            = .ok (some { MatchLabels := t.Selector, MatchExpressions := [] }) ∧
          getSelector (.coreReplicationController t)
            = .ok (some { MatchLabels := t.Selector, MatchExpressions := [] })) ∧
    (∀ t, getSelector (.batchv1beta1CronJob t) = .ok none ∧
          getSelector (.batchCronJob t) = .ok none) ∧
    (∀ object, object.inSelectorSwitch = false → ∃ err, getSelector object = .error err) ∧
    (∀ object, object.inSelectorSwitch = true → ∃ selector, getSelector object = .ok selector) := by
  refine ⟨fun t => ⟨rfl, rfl, rfl, rfl, rfl, rfl, rfl, rfl, rfl⟩, fun t => ⟨rfl, rfl⟩,
    fun t => ⟨rfl, rfl⟩, fun t => ⟨rfl, rfl⟩, ?_, ?_⟩
  · intro object h
    cases object <;> first | exact ⟨_, rfl⟩ | simp [Object.inSelectorSwitch] at h
  · intro object h
    cases object <;> first | exact ⟨_, rfl⟩ | simp [Object.inSelectorSwitch] at h

/-- C16 witness: a pod has no case in the switch; a service has one. -/
theorem C16_getSelector_dispatch_witness :
    (∃ err, getSelector (.corev1Pod typedPodWeb) = .error err) ∧
    (∃ selector, getSelector (.corev1Service serviceA) = .ok selector) :=
  ⟨C16_getSelector_dispatch.2.2.2.2.1 (.corev1Pod typedPodWeb) rfl,
   C16_getSelector_dispatch.2.2.2.2.2 (.corev1Service serviceA) rfl⟩

/-- What the sixteen setters leave on the object metadata agrees with the source on the
eleven fields of the claim, whatever was there before. -/
theorem setObjectMeta_sameEnvelope (object : ObjectMeta) (src : Unstructured) :
    sameEnvelope (setObjectMeta object src) src :=
  ⟨rfl, rfl, rfl, rfl, rfl, rfl, rfl, rfl, rfl, rfl, rfl⟩

/-- C18: for every source record and every typed target that is a metadata-carrying
object, `copyObjectMeta` succeeds and afterwards the target's namespace, name, uid,
resourceVersion, generation, labels, annotations, ownerReferences, creationTimestamp,
deletionTimestamp and finalizers each equal the corresponding value on the source
record, whatever the target held before (its payload is untouched); the same holds for
the pods, services, ingresses and service accounts the queryer converts; for a target
that is not a metadata-carrying object it returns an error. -/
theorem C18_copyObjectMeta_reproduces_envelope (src : Unstructured) :
    (∀ object : TypedObject, ∃ result : TypedObject,
      copyObjectMeta (.typed object) src = .ok (.typed result) ∧
      sameEnvelope result.ObjectMeta src ∧
      result.ObjectMeta.Namespace = src.ObjectMeta.Namespace ∧
      result.ObjectMeta.Name = src.ObjectMeta.Name ∧
      result.ObjectMeta.UID = src.ObjectMeta.UID ∧
      result.Content = object.Content) ∧
    (∀ pod : Pod, sameEnvelope (pod.copyObjectMeta src).ObjectMeta src) ∧
    (∀ svc : Service, sameEnvelope (svc.copyObjectMeta src).ObjectMeta src) ∧
    (∀ ingress : Ingress, sameEnvelope (ingress.copyObjectMeta src).ObjectMeta src) ∧
    (∀ sa : ServiceAccount, sameEnvelope (sa.copyObjectMeta src).ObjectMeta src) ∧
    (∀ typeName, ∃ err, copyObjectMeta (.other typeName) src = .error err) := by
  refine ⟨?_, fun pod => setObjectMeta_sameEnvelope pod.ObjectMeta src,
    fun svc => setObjectMeta_sameEnvelope svc.ObjectMeta src,
    fun ingress => setObjectMeta_sameEnvelope ingress.ObjectMeta src,
    fun sa => setObjectMeta_sameEnvelope sa.ObjectMeta src,
    fun _ => ⟨_, rfl⟩⟩
  intro object
  exact ⟨_, rfl, setObjectMeta_sameEnvelope object.ObjectMeta src, rfl, rfl, rfl, rfl⟩

/-! ## `isEqualSelector` -/

/-- Looking a key up after `delete`. -/
theorem lookup_delete (m : List (String × String)) (key k : String) :
    (delete m key).lookup k = if k = key then none else m.lookup k := by
  induction m with
  | nil => simp [delete]
  | cons kv m ih =>
    obtain ⟨k1, v1⟩ := kv
    simp only [delete] at ih ⊢
    by_cases h1 : k1 = key
    · subst h1
      by_cases hk : k = k1
      · subst hk
        simpa [List.filter_cons] using ih
      · have hne : (k == k1) = false := by simpa using hk
        simp only [List.filter_cons, bne_self_eq_false, Bool.false_eq_true, if_false, ih,
          hk, List.lookup_cons, hne]
    · have hne1 : (k1 != key) = true := by simpa using h1
      simp only [List.filter_cons, hne1, if_true, List.lookup_cons]
      by_cases hk : k = k1
      · subst hk
        simp [h1]
      · have hne : (k == k1) = false := by simpa using hk
        simp only [hne, ih]

/-- Looking a key up after deleting a list of keys. -/
theorem lookup_foldl_delete (keys : List String) :
    ∀ (m : List (String × String)) (k : String),
      (keys.foldl delete m).lookup k = if k ∈ keys then none else m.lookup k := by
  induction keys with
  | nil => intro m k; simp
  | cons key keys ih =>
    intro m k
    simp only [List.foldl_cons, ih, lookup_delete, List.mem_cons]
    by_cases h1 : k ∈ keys
    · simp [h1]
    · by_cases h2 : k = key
      · simp [h2]
      · simp [h1, h2]

/-- A key that is no key of the list is not found. -/
theorem lookup_eq_none_of_not_mem (m : List (String × String)) (k : String)
    (h : k ∉ m.map (fun kv => kv.1)) : m.lookup k = none := by
  induction m with
  | nil => rfl
  | cons kv m ih =>
    obtain ⟨k1, v1⟩ := kv
    simp only [List.map_cons, List.mem_cons, not_or] at h
    have hne : (k == k1) = false := by simpa using h.1
    simp only [List.lookup_cons, hne]
    exact ih h.2

/-- The comparison of two maps succeeds exactly when every key has the same value, or
none, in both. -/
theorem mapDeepEqual_iff (m1 m2 : List (String × String)) :
    mapDeepEqual m1 m2 = true ↔ ∀ k, m1.lookup k = m2.lookup k := by
  simp only [mapDeepEqual, List.all_eq_true, List.mem_append, beq_iff_eq]
  constructor
  · intro h k
    by_cases h1 : k ∈ m1.map (fun kv => kv.1)
    · exact h k (Or.inl h1)
    · by_cases h2 : k ∈ m2.map (fun kv => kv.1)
      · exact h k (Or.inr h2)
      · rw [lookup_eq_none_of_not_mem m1 k h1, lookup_eq_none_of_not_mem m2 k h2]
  · intro h k _
    exact h k

/-- The comparison of two maps depends on what the keys are bound to only. -/
theorem mapDeepEqual_congr (a a2 b b2 : List (String × String))
    (ha : ∀ k, a.lookup k = a2.lookup k) (hb : ∀ k, b.lookup k = b2.lookup k) :
    mapDeepEqual a b = mapDeepEqual a2 b2 := by
  rw [Bool.eq_iff_iff, mapDeepEqual_iff, mapDeepEqual_iff]
  constructor
  · intro h k; rw [← ha, ← hb]; exact h k
  · intro h k; rw [ha, hb]; exact h k

/-- Looking a key up in the match-labels without the extra keys. -/
theorem lookup_withoutExtraKeys (s : LabelSelector) (k : String) :
    (withoutExtraKeys s).MatchLabels.lookup k
      = if k ∈ extraKeys then none else s.MatchLabels.lookup k := by
  simp only [withoutExtraKeys]
  generalize s.MatchLabels = m
  induction m with
  | nil => simp
  | cons kv m ih =>
    obtain ⟨k1, v1⟩ := kv
    by_cases h1 : k1 ∈ extraKeys
    · have hc : extraKeys.contains k1 = true := by simpa using h1
      simp only [List.filter_cons, hc, Bool.not_true, Bool.false_eq_true, if_false, ih,
        List.lookup_cons]
      by_cases hk : k = k1
      · subst hk; simp [h1]
      · have hne : (k == k1) = false := by simpa using hk
        simp [hne]
    · have hc : extraKeys.contains k1 = false := by simpa using h1
      simp only [List.filter_cons, hc, Bool.not_false, if_true, List.lookup_cons, ih]
      by_cases hk : k = k1
      · subst hk; simp [h1]
      · have hne : (k == k1) = false := by simpa using hk
        simp [hne]

/-- The value `isEqualSelector` returns on two non-nil selectors. -/
theorem isEqualSelector_some (s1 s2 : LabelSelector) :
    isEqualSelector (some s1) (some s2)
      = some (mapDeepEqual (extraKeys.foldl delete s1.MatchLabels)
          (extraKeys.foldl delete s2.MatchLabels) &&
        s1.MatchExpressions == s2.MatchExpressions) := rfl

/-- On non-nil selectors `isEqualSelector` is true exactly when they are deeply equal
without the extra keys. -/
theorem isEqualSelector_iff (s1 s2 : LabelSelector) :
    isEqualSelector (some s1) (some s2) = some true ↔
      (withoutExtraKeys s1).deepEqual (withoutExtraKeys s2) := by
  rw [isEqualSelector_some]
  simp only [Option.some.injEq, Bool.and_eq_true, mapDeepEqual_iff, beq_iff_eq,
    LabelSelector.deepEqual, lookup_foldl_delete, lookup_withoutExtraKeys]
  rfl

/-- Changing what an extra key is bound to on either side does not change the result. -/
theorem isEqualSelector_congr (s1 s2 t1 t2 : LabelSelector)
    (h1 : ∀ k, k ∉ extraKeys → s1.MatchLabels.lookup k = t1.MatchLabels.lookup k)
    (h2 : ∀ k, k ∉ extraKeys → s2.MatchLabels.lookup k = t2.MatchLabels.lookup k)
    (e1 : s1.MatchExpressions = t1.MatchExpressions)
    (e2 : s2.MatchExpressions = t2.MatchExpressions) :
    isEqualSelector (some s1) (some s2) = isEqualSelector (some t1) (some t2) := by
  rw [isEqualSelector_some, isEqualSelector_some, e1, e2]
  congr 2
  apply mapDeepEqual_congr
  · intro k
    rw [lookup_foldl_delete, lookup_foldl_delete]
    by_cases hk : k ∈ extraKeys
    · simp [hk]
    · simp [hk, h1 k hk]
  · intro k
    rw [lookup_foldl_delete, lookup_foldl_delete]
    by_cases hk : k ∈ extraKeys
    · simp [hk]
    · simp [hk, h2 k hk]

/-- One round of the deletion loop on two distinct maps in memory. -/
theorem heapDelete_step (r1 r2 : Option Nat) (hne : ∀ a b, r1 = some a → r2 = some b → a ≠ b)
    (hp : MapHeap) (key : String) :
    heapLoad (heapDelete (heapDelete hp r1 key) r2 key) r1 = delete (heapLoad hp r1) key ∧
    heapLoad (heapDelete (heapDelete hp r1 key) r2 key) r2 = delete (heapLoad hp r2) key ∧
    (∀ a, r1 ≠ some a → r2 ≠ some a →
      (heapDelete (heapDelete hp r1 key) r2 key).cells a = hp.cells a) := by
  cases r1 with
  | none =>
    cases r2 with
    | none => simp [heapDelete, heapLoad, delete]
    | some b =>
      refine ⟨by simp [heapDelete, heapLoad, delete], by simp [heapDelete, heapLoad], ?_⟩
      intro a _ h2
      have hab : a ≠ b := fun h => h2 (by rw [h])
      simp [heapDelete, Function.update_apply, hab]
  | some a1 =>
    cases r2 with
    | none =>
      refine ⟨by simp [heapDelete, heapLoad], by simp [heapDelete, heapLoad, delete], ?_⟩
      intro a h1 _
      have hab : a ≠ a1 := fun h => h1 (by rw [h])
      simp [heapDelete, Function.update_apply, hab]
    | some b =>
      have hab : a1 ≠ b := hne a1 b rfl rfl
      refine ⟨?_, ?_, ?_⟩
      · simp [heapDelete, heapLoad, Function.update_apply, hab]
      · simp [heapDelete, heapLoad, Function.update_apply, hab.symm]
      · intro a h1 h2
        have ha1 : a ≠ a1 := fun h => h1 (by rw [h])
        have ha2 : a ≠ b := fun h => h2 (by rw [h])
        simp [heapDelete, Function.update_apply, ha1, ha2]

/-- The deletion loop on two distinct maps in memory deletes the keys from both and
touches no other map. -/
theorem heapDelete_fold (r1 r2 : Option Nat)
    (hne : ∀ a b, r1 = some a → r2 = some b → a ≠ b) :
    ∀ (keys : List String) (hp : MapHeap),
      heapLoad (keys.foldl (fun hp key => heapDelete (heapDelete hp r1 key) r2 key) hp) r1
        = keys.foldl delete (heapLoad hp r1) ∧
      heapLoad (keys.foldl (fun hp key => heapDelete (heapDelete hp r1 key) r2 key) hp) r2
        = keys.foldl delete (heapLoad hp r2) ∧
      (∀ a, r1 ≠ some a → r2 ≠ some a →
        (keys.foldl (fun hp key => heapDelete (heapDelete hp r1 key) r2 key) hp).cells a
          = hp.cells a) := by
  intro keys
  induction keys with
  | nil => intro hp; exact ⟨rfl, rfl, fun _ _ _ => rfl⟩
  | cons key keys ih =>
    intro hp
    obtain ⟨s1, s2, s3⟩ := heapDelete_step r1 r2 hne hp key
    obtain ⟨i1, i2, i3⟩ := ih (heapDelete (heapDelete hp r1 key) r2 key)
    simp only [List.foldl_cons]
    refine ⟨by rw [i1, s1], by rw [i2, s2], ?_⟩
    intro a h1 h2
    rw [i3 a h1 h2, s3 a h1 h2]

/-- On selectors in memory, `isEqualSelector` computes what it computes on their values,
and leaves every map that existed before the call as it was. -/
theorem isEqualSelector_onHeap_spec (h : MapHeap) (p1 p2 : LabelSelectorPtr)
    (hv2 : ∀ a, p2.MatchLabels = some a → a < h.next) :
    some (isEqualSelector.onHeap h p1 p2).1
      = isEqualSelector (some (p1.load h)) (some (p2.load h)) ∧
    (∀ a, a < h.next → (isEqualSelector.onHeap h p1 p2).2.cells a = h.cells a) := by
  rw [isEqualSelector_some]
  unfold isEqualSelector.onHeap
  cases hp1 : p1.MatchLabels with
  | none =>
    cases hp2 : p2.MatchLabels with
    | none =>
      obtain ⟨f1, f2, f3⟩ := heapDelete_fold none none (fun _ _ h => by cases h) extraKeys h
      simp only [LabelSelectorPtr.DeepCopy, hp1, hp2, LabelSelectorPtr.load]
      simp only [f1]
      exact ⟨trivial, fun a _ => f3 a (by simp) (by simp)⟩
    | some b =>
      obtain ⟨f1, f2, f3⟩ := heapDelete_fold none (some h.next) (fun _ _ h => by cases h)
        extraKeys { cells := Function.update h.cells h.next (h.cells b), next := h.next + 1 }
      simp only [LabelSelectorPtr.DeepCopy, hp1, hp2, LabelSelectorPtr.load]
      simp only [f1, f2]
      refine ⟨by simp [heapLoad], ?_⟩
      intro a ha
      have hne : a ≠ h.next := by omega
      rw [f3 a (by simp) (fun hx => hne (Option.some.inj hx).symm)]
      simp [Function.update_apply, hne]
  | some a1 =>
    cases hp2 : p2.MatchLabels with
    | none =>
      obtain ⟨f1, f2, f3⟩ := heapDelete_fold (some h.next) none (fun _ _ _ h => by cases h)
        extraKeys { cells := Function.update h.cells h.next (h.cells a1), next := h.next + 1 }
      simp only [LabelSelectorPtr.DeepCopy, hp1, hp2, LabelSelectorPtr.load]
      simp only [f1, f2]
      refine ⟨by simp [heapLoad], ?_⟩
      intro a ha
      have hne : a ≠ h.next := by omega
      rw [f3 a (fun hx => hne (Option.some.inj hx).symm) (by simp)]
      simp [Function.update_apply, hne]
    | some b =>
      have hb : b < h.next := hv2 b hp2
      obtain ⟨f1, f2, f3⟩ := heapDelete_fold (some h.next) (some (h.next + 1))
        (fun x y hx hy => by cases hx; cases hy; omega) extraKeys
        { cells := Function.update (Function.update h.cells h.next (h.cells a1)) (h.next + 1)
            (Function.update h.cells h.next (h.cells a1) b),
          next := h.next + 1 + 1 }
      simp only [LabelSelectorPtr.DeepCopy, hp1, hp2, LabelSelectorPtr.load]
      simp only [f1, f2]
      have hbn : b ≠ h.next := by omega
      refine ⟨by simp [heapLoad, Function.update_apply, hbn], ?_⟩
      intro a ha
      have hne : a ≠ h.next := by omega
      have hne2 : a ≠ h.next + 1 := by omega
      rw [f3 a (fun hx => hne (Option.some.inj hx).symm) (fun hx => hne2 (Option.some.inj hx).symm)]
      simp [Function.update_apply, hne, hne2]

/-- Looking up a key other than the one assigned. -/
theorem lookup_assign_of_ne (m : List (String × String)) (key value k : String)
    (h : k ≠ key) : (assign m key value).lookup k = m.lookup k := by
  have hne : (k == key) = false := by simpa using h
  simp only [assign, List.lookup_cons, hne, lookup_delete, h, if_false]

/-- C17: for all label selectors `s1` and `s2` (non-nil), `isEqualSelector(s1, s2)` is true
if and only if `s1` and `s2` are deeply (semantically) equal after the four keys
`statefulset.kubernetes.io/pod-name`, `pod-template-hash`, `controller-revision-hash` and
`pod-template-generation` are removed from the match-labels of both, and false
otherwise; consequently it is reflexive and symmetric, and its result does not change
when any of those four keys is added to, changed in or removed from either side.  Run
on selectors in memory it computes the same result and leaves the match-labels of `s1`
and `s2` themselves (and every other map that existed) unmodified: the deletions are
made on the copies. -/
theorem C17_isEqualSelector_semantic_equality (s1 s2 : LabelSelector) :
    (isEqualSelector (some s1) (some s2) = some true ↔
      (withoutExtraKeys s1).deepEqual (withoutExtraKeys s2)) ∧
    (isEqualSelector (some s1) (some s2) = some false ↔
      ¬ (withoutExtraKeys s1).deepEqual (withoutExtraKeys s2)) ∧
    isEqualSelector (some s1) (some s1) = some true ∧
    isEqualSelector (some s1) (some s2) = isEqualSelector (some s2) (some s1) ∧
    (∀ key value, key ∈ extraKeys →
      isEqualSelector (some { s1 with MatchLabels := assign s1.MatchLabels key value }) (some s2)
        = isEqualSelector (some s1) (some s2) ∧
      isEqualSelector (some { s1 with MatchLabels := delete s1.MatchLabels key }) (some s2)
        = isEqualSelector (some s1) (some s2) ∧
      isEqualSelector (some s1) (some { s2 with MatchLabels := assign s2.MatchLabels key value })
        = isEqualSelector (some s1) (some s2) ∧
      isEqualSelector (some s1) (some { s2 with MatchLabels := delete s2.MatchLabels key })
        = isEqualSelector (some s1) (some s2)) ∧
    (∀ (h : MapHeap) (p1 p2 : LabelSelectorPtr),
      (∀ a, p1.MatchLabels = some a → a < h.next) →
      (∀ a, p2.MatchLabels = some a → a < h.next) →
      p1.load h = s1 → p2.load h = s2 →
        some (isEqualSelector.onHeap h p1 p2).1 = isEqualSelector (some s1) (some s2) ∧
        p1.load (isEqualSelector.onHeap h p1 p2).2 = s1 ∧
        p2.load (isEqualSelector.onHeap h p1 p2).2 = s2 ∧
        (∀ a, a < h.next → (isEqualSelector.onHeap h p1 p2).2.cells a = h.cells a)) := by
  refine ⟨isEqualSelector_iff s1 s2, ?_, ?_, ?_, ?_, ?_⟩
  · rw [← isEqualSelector_iff, isEqualSelector_some]
    cases (mapDeepEqual (extraKeys.foldl delete s1.MatchLabels)
      (extraKeys.foldl delete s2.MatchLabels) && s1.MatchExpressions == s2.MatchExpressions)
      <;> simp
  · rw [isEqualSelector_iff]
    exact ⟨fun _ => rfl, rfl⟩
  · rw [isEqualSelector_some, isEqualSelector_some]
    congr 1
    rw [Bool.eq_iff_iff]
    simp only [Bool.and_eq_true, mapDeepEqual_iff, beq_iff_eq]
    constructor
    · rintro ⟨h1, h2⟩; exact ⟨fun k => (h1 k).symm, h2.symm⟩
    · rintro ⟨h1, h2⟩; exact ⟨fun k => (h1 k).symm, h2.symm⟩
  · intro key value hkey
    have hne : ∀ k, k ∉ extraKeys → k ≠ key := fun k hk h => hk (h ▸ hkey)
    refine ⟨?_, ?_, ?_, ?_⟩
    · exact isEqualSelector_congr _ _ _ _
        (fun k hk => lookup_assign_of_ne _ _ _ _ (hne k hk)) (fun _ _ => rfl) rfl rfl
    · exact isEqualSelector_congr _ _ _ _
        (fun k hk => by simp [lookup_delete, hne k hk]) (fun _ _ => rfl) rfl rfl
    · exact isEqualSelector_congr _ _ _ _ (fun _ _ => rfl)
        (fun k hk => lookup_assign_of_ne _ _ _ _ (hne k hk)) rfl rfl
    · exact isEqualSelector_congr _ _ _ _ (fun _ _ => rfl)
        (fun k hk => by simp [lookup_delete, hne k hk]) rfl rfl
  · intro h p1 p2 hv1 hv2 hl1 hl2
    obtain ⟨hres, hcells⟩ := isEqualSelector_onHeap_spec h p1 p2 hv2
    rw [hl1, hl2] at hres
    refine ⟨hres, ?_, ?_, hcells⟩
    · rw [← hl1]
      simp only [LabelSelectorPtr.load]
      cases hp : p1.MatchLabels with
      | none => rfl
      | some a => simp only [heapLoad, hcells a (hv1 a hp)]
    · rw [← hl2]
      simp only [LabelSelectorPtr.load]
      cases hp : p2.MatchLabels with
      | none => rfl
      | some a => simp only [heapLoad, hcells a (hv2 a hp)]

/-- C17 witness: a selector `app=web` is equal to itself with a pod template hash added;
in memory, the labels of `web-1` still hold the hash after the comparison. -/
theorem C17_isEqualSelector_semantic_equality_witness :
    isEqualSelector
        (some { MatchLabels := assign [("app", "web")] "pod-template-hash" "6d4cf56db6" })
        (some { MatchLabels := [("app", "web")] })
      = isEqualSelector (some { MatchLabels := [("app", "web")] })
          (some { MatchLabels := [("app", "web")] }) ∧
    (LabelSelectorPtr.mk (some 0) []).load
        (isEqualSelector.onHeap sampleHeap ⟨some 0, []⟩ ⟨some 1, []⟩).2
      = { MatchLabels := [("app", "web"), ("pod-template-hash", "6d4cf56db6")] } :=
  ⟨((C17_isEqualSelector_semantic_equality { MatchLabels := [("app", "web")] }
      { MatchLabels := [("app", "web")] }).2.2.2.2.1
      "pod-template-hash" "6d4cf56db6" (by decide)).1,
   ((C17_isEqualSelector_semantic_equality
      { MatchLabels := [("app", "web"), ("pod-template-hash", "6d4cf56db6")] }
      { MatchLabels := [("app", "web")] }).2.2.2.2.2 sampleHeap ⟨some 0, []⟩ ⟨some 1, []⟩
      (by intro a h; cases h; decide) (by intro a h; cases h; decide) rfl rfl).2.1⟩

/-! ## The caches over sequences of operations -/

/-- Writing a key leaves the other keys of a Go map as they were. -/
theorem lookup_filter_ne {κ β : Type} [DecidableEq κ] (c : List (κ × β)) (key k : κ)
    (h : k ≠ key) : (c.filter (fun kv => kv.1 != key)).lookup k = c.lookup k := by
  induction c with
  | nil => rfl
  | cons kv c ih =>
    obtain ⟨k1, v1⟩ := kv
    by_cases h1 : k1 = key
    · subst h1
      have hne : (k == k1) = false := by simpa using h
      simp [List.filter_cons, List.lookup_cons, hne, ih]
    · have hk1 : (k1 != key) = true := by simpa using h1
      simp only [List.filter_cons, hk1, if_true, List.lookup_cons, ih]

/-- Writing a key that was absent keeps every entry of a Go map. -/
theorem lookup_set_of_absent {κ β : Type} [DecidableEq κ] (c : List (κ × β)) (key k : κ)
    (x v : β) (habsent : c.lookup key = none) (hk : c.lookup k = some v) :
    ((key, x) :: c.filter (fun kv => kv.1 != key)).lookup k = some v := by
  have hne : k ≠ key := by
    intro h
    rw [h, habsent] at hk
    cases hk
  have hb : (k == key) = false := by simpa using hne
  rw [List.lookup_cons, hb, lookup_filter_ne c key k hne, hk]

/-- Entries are kept from a resolver to itself. -/
theorem cachesKept_refl (a : ObjectStoreQueryer) : cachesKept a a :=
  ⟨fun _ _ h => h, fun _ _ h => h, fun _ _ h => h⟩

/-- Keeping entries composes. -/
theorem cachesKept_trans {a b c : ObjectStoreQueryer} (h1 : cachesKept a b)
    (h2 : cachesKept b c) : cachesKept a c :=
  ⟨fun k v h => h2.1 k v (h1.1 k v h), fun k v h => h2.2.1 k v (h1.2.1 k v h),
    fun k v h => h2.2.2 k v (h1.2.2 k v h)⟩

/-- `Children` leaves the resolver as it was or writes the children cache at the owner
UID, which was absent. -/
theorem Children_osq (osq : ObjectStoreQueryer) (env : Env) (owner : Option ObjectMeta) :
    (osq.Children env owner).osq = osq ∨
    ∃ o children, owner = some o ∧ childrenCache.get osq.children o.UID = none ∧
      (osq.Children env owner).osq
        = { osq with children := (childrenCache.set osq.children o.UID children) } := by
  cases owner with
  | none => exact Or.inl rfl
  | some o =>
    unfold ObjectStoreQueryer.Children
    cases hmiss : childrenCache.get osq.children o.UID with
    | some stored => simp only [hmiss, true_or]
    | none =>
      simp only [hmiss]
      cases hd : env.ServerPreferredResources with
      | error e => simp only [hd, true_or]
      | ok rls =>
        simp only [hd]
        rcases hs : Children.scanLists o.Namespace rls with ⟨keys, perr⟩
        cases perr with
        | some e => simp only [hs, true_or]
        | none =>
          simp only [hs]
          cases hw : Children.wait env.sched (keys.map (Children.task env.objectStore o)) with
          | some e => simp only [hw, true_or]
          | none =>
            simp only [hw]
            exact Or.inr ⟨o, _, rfl, hmiss, rfl⟩

/-- `PodsForService` leaves the resolver as it was or writes the pods-for-service cache
at the service UID, which was absent. -/
theorem PodsForService_osq (osq : ObjectStoreQueryer) (env : Env) (service : Option Service) :
    (osq.PodsForService env service).osq = osq ∨
    ∃ svc pods, service = some svc ∧
      podsForServicesCache.get osq.podsForServices svc.ObjectMeta.UID = none ∧
      (osq.PodsForService env service).osq
        = { osq with podsForServices :=
            (podsForServicesCache.set osq.podsForServices svc.ObjectMeta.UID pods) } := by
  cases service with
  | none => exact Or.inl rfl
  | some svc =>
    unfold ObjectStoreQueryer.PodsForService
    cases hmiss : podsForServicesCache.get osq.podsForServices svc.ObjectMeta.UID with
    | some stored => simp only [hmiss, true_or]
    | none =>
      simp only [hmiss, getSelector]
      cases hl : loadPods env
        { Namespace := svc.ObjectMeta.Namespace, APIVersion := "v1", Kind := "Pod" }
        (some { MatchLabels := svc.Selector }) with
      | error e => simp only [hl, true_or]
      | panic msg => simp only [hl, true_or]
      | ok pods =>
        simp only [hl]
        exact Or.inr ⟨svc, pods, rfl, hmiss, rfl⟩

/-- `OwnerReference` leaves the resolver as it was or writes the owner cache at its key,
which was absent. -/
theorem OwnerReference_osq (osq : ObjectStoreQueryer) (env : Env) (ns : String)
    (ownerReference : OwnerReference) :
    (osq.OwnerReference env ns ownerReference).osq = osq ∨
    ∃ object, ownerCache.get osq.owner (OwnerReference.key ns ownerReference) = none ∧
      (osq.OwnerReference env ns ownerReference).osq
        = { osq with owner :=
            (ownerCache.set osq.owner (OwnerReference.key ns ownerReference) (some object)) } := by
  unfold ObjectStoreQueryer.OwnerReference
  cases hmiss : ownerCache.get osq.owner (OwnerReference.key ns ownerReference) with
  | some object => simp only [hmiss, true_or]
  | none =>
    simp only [hmiss]
    cases hg : env.objectStore.Get (OwnerReference.key ns ownerReference) with
    | error e => simp only [hg, true_or]
    | ok owner =>
      simp only [hg]
      exact Or.inr ⟨owner, trivial, rfl⟩

/-- `Events` changes no cache. -/
theorem Events_osq (osq : ObjectStoreQueryer) (env : Env)
    (object : Option (Option Unstructured)) : (osq.Events env object).osq = osq := by
  unfold ObjectStoreQueryer.Events
  cases object with
  | none => rfl
  | some obj =>
    simp only
    cases hu : ToUnstructured obj with
    | error e => rfl
    | ok u =>
      simp only
      cases env.objectStore.List
        { Namespace := u.ObjectMeta.Namespace, APIVersion := "v1", Kind := "Event" } <;> rfl

/-- `IngressesForService` changes no cache. -/
theorem IngressesForService_osq (osq : ObjectStoreQueryer) (env : Env)
    (service : Option Service) : (osq.IngressesForService env service).osq = osq := by
  unfold ObjectStoreQueryer.IngressesForService
  cases service with
  | none => rfl
  | some svc =>
    simp only
    cases env.objectStore.List
      { Namespace := svc.ObjectMeta.Namespace, APIVersion := "extensions/v1beta1",
        Kind := "Ingress" } <;> rfl

/-- `ServicesForPod` changes no cache. -/
theorem ServicesForPod_osq (osq : ObjectStoreQueryer) (env : Env) (pod : Option Pod) :
    (osq.ServicesForPod env pod).osq = osq := by
  unfold ObjectStoreQueryer.ServicesForPod
  cases pod with
  | none => rfl
  | some p =>
    simp only
    cases env.objectStore.List
      { Namespace := p.ObjectMeta.Namespace, APIVersion := "v1", Kind := "Service" } <;> rfl

/-- `ServicesForIngress` changes no cache. -/
theorem ServicesForIngress_osq (osq : ObjectStoreQueryer) (env : Env)
    (ingress : Option Ingress) : (osq.ServicesForIngress env ingress).osq = osq := by
  unfold ObjectStoreQueryer.ServicesForIngress
  cases ingress <;> rfl

/-- `ServiceAccountForPod` changes no cache. -/
theorem ServiceAccountForPod_osq (osq : ObjectStoreQueryer) (env : Env) (pod : Option Pod) :
    (osq.ServiceAccountForPod env pod).osq = osq := by
  unfold ObjectStoreQueryer.ServiceAccountForPod
  cases pod with
  | none => rfl
  | some p =>
    simp only
    by_cases hn : p.ServiceAccountName = ""
    · simp only [hn, if_true]
    · simp only [hn, if_false]
      cases hg : env.objectStore.Get (ServiceAccountForPod.key p) with
      | error e => rfl
      | ok found =>
        cases found with
        | none => rfl
        | some u =>
          simp only
          cases env.toServiceAccount u <;> rfl

/-- One operation keeps every cache entry. -/
theorem step_cachesKept (osq : ObjectStoreQueryer) (op : Op) : cachesKept osq (osq.step op) := by
  cases op with
  | Children env owner =>
    rcases Children_osq osq env owner with h | ⟨o, children, _, hmiss, h⟩
    · simp only [ObjectStoreQueryer.step, h]; exact cachesKept_refl osq
    · simp only [ObjectStoreQueryer.step, h]
      exact ⟨fun uid v hv => lookup_set_of_absent _ _ _ _ _ hmiss hv, fun _ _ hv => hv,
        fun _ _ hv => hv⟩
  | Events env object =>
    simp only [ObjectStoreQueryer.step, Events_osq]; exact cachesKept_refl osq
  | IngressesForService env service =>
    simp only [ObjectStoreQueryer.step, IngressesForService_osq]; exact cachesKept_refl osq
  | OwnerReference env ns ownerReference =>
    rcases OwnerReference_osq osq env ns ownerReference with h | ⟨object, hmiss, h⟩
    · simp only [ObjectStoreQueryer.step, h]; exact cachesKept_refl osq
    · simp only [ObjectStoreQueryer.step, h]
      exact ⟨fun _ _ hv => hv, fun _ _ hv => hv,
        fun key v hv => lookup_set_of_absent _ _ _ _ _ hmiss hv⟩
  | PodsForService env service =>
    rcases PodsForService_osq osq env service with h | ⟨svc, pods, _, hmiss, h⟩
    · simp only [ObjectStoreQueryer.step, h]; exact cachesKept_refl osq
    · simp only [ObjectStoreQueryer.step, h]
      exact ⟨fun _ _ hv => hv, fun uid v hv => lookup_set_of_absent _ _ _ _ _ hmiss hv,
        fun _ _ hv => hv⟩
  | ServicesForIngress env ingress =>
    simp only [ObjectStoreQueryer.step, ServicesForIngress_osq]; exact cachesKept_refl osq
  | ServicesForPod env pod =>
    simp only [ObjectStoreQueryer.step, ServicesForPod_osq]; exact cachesKept_refl osq
  | ServiceAccountForPod env pod =>
    simp only [ObjectStoreQueryer.step, ServiceAccountForPod_osq]; exact cachesKept_refl osq

/-- A sequence of operations keeps every cache entry. -/
theorem run_cachesKept (ops : List Op) :
    ∀ osq : ObjectStoreQueryer, cachesKept osq (osq.run ops) := by
  induction ops with
  | nil => intro osq; exact cachesKept_refl osq
  | cons op ops ih =>
    intro osq
    exact cachesKept_trans (step_cachesKept osq op) (ih (osq.step op))

/-- C19: cache entries are write-once per key: for every sequence of resolver operations
run one after the other on one `ObjectStoreQueryer`, a key that is present in the
children, owner or pods-for-service cache is present with the same value after the
sequence (never replaced, never removed); moreover each operation writes only its own
cache (`Children` the children cache, `OwnerReference` the owner cache, `PodsForService`
the pods-for-service cache), and `Events`, `ServicesForPod`, `ServicesForIngress`,
`IngressesForService` and `ServiceAccountForPod` change no cache. -/
theorem C19_caches_write_once (osq : ObjectStoreQueryer) :
    (∀ (ops : List Op) uid children, childrenCache.get osq.children uid = some children →
      childrenCache.get (osq.run ops).children uid = some children) ∧
    (∀ (ops : List Op) uid pods,
      podsForServicesCache.get osq.podsForServices uid = some pods →
      podsForServicesCache.get (osq.run ops).podsForServices uid = some pods) ∧
    (∀ (ops : List Op) key object, ownerCache.get osq.owner key = some object →
      ownerCache.get (osq.run ops).owner key = some object) ∧
    (∀ env owner, (osq.Children env owner).osq.podsForServices = osq.podsForServices ∧
      (osq.Children env owner).osq.owner = osq.owner) ∧
    (∀ env ns ownerReference,
      (osq.OwnerReference env ns ownerReference).osq.children = osq.children ∧
      (osq.OwnerReference env ns ownerReference).osq.podsForServices = osq.podsForServices) ∧
    (∀ env service, (osq.PodsForService env service).osq.children = osq.children ∧
      (osq.PodsForService env service).osq.owner = osq.owner) ∧
    (∀ env object, (osq.Events env object).osq = osq) ∧
    (∀ env pod, (osq.ServicesForPod env pod).osq = osq) ∧
    (∀ env ingress, (osq.ServicesForIngress env ingress).osq = osq) ∧
    (∀ env service, (osq.IngressesForService env service).osq = osq) ∧
    (∀ env pod, (osq.ServiceAccountForPod env pod).osq = osq) := by
  refine ⟨fun ops => (run_cachesKept ops osq).1, fun ops => (run_cachesKept ops osq).2.1,
    fun ops => (run_cachesKept ops osq).2.2, ?_, ?_, ?_, Events_osq osq, ServicesForPod_osq osq,
    ServicesForIngress_osq osq, IngressesForService_osq osq, ServiceAccountForPod_osq osq⟩
  · intro env owner
    rcases Children_osq osq env owner with h | ⟨o, children, _, _, h⟩ <;> rw [h] <;> exact ⟨rfl, rfl⟩
  · intro env ns ownerReference
    rcases OwnerReference_osq osq env ns ownerReference with h | ⟨object, _, h⟩ <;> rw [h] <;>
      exact ⟨rfl, rfl⟩
  · intro env service
    rcases PodsForService_osq osq env service with h | ⟨svc, pods, _, _, h⟩ <;> rw [h] <;>
      exact ⟨rfl, rfl⟩

/-- C19 witness: the children of `web`, once cached, survive a second `Children` call
against a failing store, an owner lookup, a pods-for-service call and an events call. -/
theorem C19_caches_write_once_witness :
    childrenCache.get
      ((({} : ObjectStoreQueryer).Children exEnv (some exOwner)).osq.run
        [.Children failingEnv (some exOwner), .OwnerReference ownerEnv "default" webReference,
         .PodsForService sampleEnv (some serviceA),
         .Events eventEnv (some (some podWeb))]).children
      "uid-web" = some [exChild] :=
  (C19_caches_write_once (({} : ObjectStoreQueryer).Children exEnv (some exOwner)).osq).1
    [.Children failingEnv (some exOwner), .OwnerReference ownerEnv "default" webReference,
     .PodsForService sampleEnv (some serviceA), .Events eventEnv (some (some podWeb))]
    "uid-web" [exChild] (by rfl)

/-! ## `rebindHandler` -/

/-- A character that does not occur has no last index. -/
theorem lastIndex_eq_none (c : Char) (s : List Char) (h : c ∉ s) : lastIndex c s = none := by
  induction s with
  | nil => rfl
  | cons x xs ih =>
    simp only [List.mem_cons, not_or] at h
    have hx : ¬ x = c := fun e => h.1 e.symm
    simp [lastIndex, ih h.2, hx]

/-- A character that occurs has a last index. -/
theorem lastIndex_isSome (c : Char) (s : List Char) (h : c ∈ s) :
    ∃ i, lastIndex c s = some i := by
  induction s with
  | nil => simp at h
  | cons x xs ih =>
    cases hl : lastIndex c xs with
    | some i => exact ⟨i + 1, by simp [lastIndex, hl]⟩
    | none =>
      have hx : x = c := by
        rcases List.mem_cons.mp h with h1 | h1
        · exact h1.symm
        · obtain ⟨i, hi⟩ := ih h1
          rw [hl] at hi
          cases hi
      exact ⟨0, by simp [lastIndex, hl, hx]⟩

/-- When a character occurs twice, it occurs before its last occurrence. -/
theorem mem_take_lastIndex (c : Char) :
    ∀ (s : List Char) (i : Nat), lastIndex c s = some i → 2 ≤ s.count c → c ∈ s.take i := by
  intro s
  induction s with
  | nil => intro i h; simp [lastIndex] at h
  | cons x xs ih =>
    intro i h hcount
    cases hl : lastIndex c xs with
    | some j =>
      simp only [lastIndex, hl, Option.some.injEq] at h
      subst h
      by_cases hx : x = c
      · simp [hx]
      · have hcount2 : 2 ≤ xs.count c := by
          have hne : (x == c) = false := by simpa using hx
          simpa [List.count_cons, hne] using hcount
        simp only [List.take_succ_cons, List.mem_cons]
        exact Or.inr (ih j hl hcount2)
    | none =>
      exfalso
      have hnot : c ∉ xs := by
        intro hm
        obtain ⟨j, hj⟩ := lastIndex_isSome c xs hm
        rw [hl] at hj
        cases hj
      have h0 : xs.count c = 0 := List.count_eq_zero.mpr hnot
      rw [List.count_cons, h0] at hcount
      split at hcount <;> omega

/-- The first index of a character put behind a list it does not occur in. -/
theorem firstIndex_append_singleton (c : Char) (l : List Char) (h : c ∉ l) :
    firstIndex c (l ++ [c]) = some l.length := by
  induction l with
  | nil => simp [firstIndex]
  | cons x xs ih =>
    simp only [List.mem_cons, not_or] at h
    have hx : ¬ x = c := fun e => h.1 e.symm
    simp [firstIndex, hx, ih h.2]

/-- An address without brackets and with two colons cannot be split. -/
theorem SplitHostPort_bare_literal (hostport : String)
    (hhead : hostport.toList.head? ≠ some '[') (hcount : 2 ≤ hostport.toList.count ':') :
    SplitHostPort hostport = .error (.New "too many colons in address") := by
  have hmem : ':' ∈ hostport.toList := by
    apply List.count_pos_iff.mp
    omega
  obtain ⟨i, hi⟩ := lastIndex_isSome ':' hostport.toList hmem
  have htake := mem_take_lastIndex ':' hostport.toList i hi hcount
  simp only [SplitHostPort, hi, hhead, if_false, htake, if_true]

/-- A literal with a colon in brackets and without port cannot be split. -/
theorem SplitHostPort_bracketed_literal (lit : List Char) (hcolon : ':' ∈ lit)
    (hclose : ']' ∉ lit) :
    SplitHostPort (String.mk ('[' :: (lit ++ [']'])))
      = .error (.New "missing port in address") := by
  have hmem : ':' ∈ ('[' :: (lit ++ [']'])) := by simp [hcolon]
  obtain ⟨i, hi⟩ := lastIndex_isSome ':' _ hmem
  have hfirst : firstIndex ']' ('[' :: (lit ++ [']'])) = some (lit.length + 1) := by
    have := firstIndex_append_singleton ']' lit hclose
    simp [firstIndex, this]
  have hlist : (String.mk ('[' :: (lit ++ [']']))).toList = '[' :: (lit ++ [']']) := rfl
  simp only [SplitHostPort, hlist, hi, List.head?_cons, if_true, hfirst]
  simp

/-- The three ways a request leaves the middleware. -/
theorem rebindHandler_cases (acceptedHosts : List String) (h : Request → Response)
    (r : Request) :
    (hostWithoutPort r.Host = none →
      rebindHandler acceptedHosts h r = ⟨httpError "bad request" 400, 0⟩) ∧
    (∀ host, hostWithoutPort r.Host = some host → host ∈ acceptedHosts →
      rebindHandler acceptedHosts h r = ⟨h r, 1⟩) ∧
    (∀ host, hostWithoutPort r.Host = some host → host ∉ acceptedHosts →
      rebindHandler acceptedHosts h r = ⟨httpError "forbidden" 403, 0⟩) := by
  unfold rebindHandler hostWithoutPort
  by_cases hc : ':' ∈ r.Host.toList
  · simp only [hc, if_true]
    cases hs : SplitHostPort r.Host with
    | error err => simp
    | ok hp =>
      obtain ⟨host, port⟩ := hp
      refine ⟨by simp, ?_, ?_⟩
      · intro host2 h2 hm
        simp only [Option.some.injEq] at h2
        subst h2
        have : dashstrings.Contains host acceptedHosts = true := by
          simpa [dashstrings.Contains] using hm
        simp [this]
      · intro host2 h2 hm
        simp only [Option.some.injEq] at h2
        subst h2
        have : dashstrings.Contains host acceptedHosts = false := by
          simpa [dashstrings.Contains] using hm
        simp [this]
  · simp only [hc, if_false]
    refine ⟨by simp, ?_, ?_⟩
    · intro host2 h2 hm
      simp only [Option.some.injEq] at h2
      subst h2
      have : dashstrings.Contains r.Host acceptedHosts = true := by
        simpa [dashstrings.Contains] using hm
      simp [this]
    · intro host2 h2 hm
      simp only [Option.some.injEq] at h2
      subst h2
      have : dashstrings.Contains r.Host acceptedHosts = false := by
        simpa [dashstrings.Contains] using hm
      simp [this]

/-- The request's Host has no host part exactly when it contains a colon and cannot be
split into host and port. -/
theorem hostWithoutPort_eq_none_iff (hostHeader : String) :
    hostWithoutPort hostHeader = none ↔
      ':' ∈ hostHeader.toList ∧ ∃ err, SplitHostPort hostHeader = .error err := by
  unfold hostWithoutPort
  by_cases hc : ':' ∈ hostHeader.toList
  · simp only [hc, if_true, true_and]
    cases hs : SplitHostPort hostHeader with
    | error err => simp
    | ok hp => simp
  · have hc2 : ':' ∉ hostHeader.data := hc
    simp [hc2]

/-- C21: the `rebindHandler` middleware only accepts the supplied hosts: for every request
and every `acceptedHosts` list, the wrapped handler is invoked (once, and its response
is the response) if and only if the request's Host with any port removed (the Host
itself when it has no colon, otherwise the host part of `net.SplitHostPort`, which for a
bracketed host is what stands between the brackets) is an element of `acceptedHosts`;
otherwise the wrapped handler is not invoked and the response is 403 forbidden, or 400
bad request exactly when the Host contains `:` but cannot be split into host and port.
The latter includes a literal with a colon given in brackets without a port and a bare
literal with two or more colons, whatever `acceptedHosts` holds. -/
theorem C21_rebindHandler_only_accepted_hosts (acceptedHosts : List String)
    (h : Request → Response) (r : Request) :
    ((rebindHandler acceptedHosts h r).calls = 1 ↔
      ∃ host, hostWithoutPort r.Host = some host ∧ host ∈ acceptedHosts) ∧
    ((∃ host, hostWithoutPort r.Host = some host ∧ host ∈ acceptedHosts) →
      rebindHandler acceptedHosts h r = ⟨h r, 1⟩) ∧
    ((¬ ∃ host, hostWithoutPort r.Host = some host ∧ host ∈ acceptedHosts) →
      (rebindHandler acceptedHosts h r).calls = 0 ∧
      ((rebindHandler acceptedHosts h r).response = httpError "forbidden" 403 ∨
        (rebindHandler acceptedHosts h r).response = httpError "bad request" 400)) ∧
    (rebindHandler acceptedHosts h r = ⟨httpError "bad request" 400, 0⟩ ↔
      ':' ∈ r.Host.toList ∧ ∃ err, SplitHostPort r.Host = .error err) ∧
    (rebindHandler acceptedHosts h r = ⟨httpError "forbidden" 403, 0⟩ ↔
      ∃ host, hostWithoutPort r.Host = some host ∧ host ∉ acceptedHosts) ∧
    (∀ lit : List Char, ':' ∈ lit → ']' ∉ lit → r.Host = String.mk ('[' :: (lit ++ [']'])) →
      rebindHandler acceptedHosts h r = ⟨httpError "bad request" 400, 0⟩) ∧
    (r.Host.toList.head? ≠ some '[' → 2 ≤ r.Host.toList.count ':' →
      rebindHandler acceptedHosts h r = ⟨httpError "bad request" 400, 0⟩) := by
  obtain ⟨hbad, hserve, hforbid⟩ := rebindHandler_cases acceptedHosts h r
  have h400 : rebindHandler acceptedHosts h r = ⟨httpError "bad request" 400, 0⟩ ↔
      hostWithoutPort r.Host = none := by
    constructor
    · intro hrun
      cases hh : hostWithoutPort r.Host with
      | none => rfl
      | some host =>
        exfalso
        by_cases hm : host ∈ acceptedHosts
        · rw [hserve host hh hm] at hrun
          have := congrArg Served.calls hrun
          simp at this
        · rw [hforbid host hh hm] at hrun
          have := congrArg (fun s => s.response.status) hrun
          simp [httpError] at this
    · exact hbad
  refine ⟨?_, ?_, ?_, ?_, ?_, ?_, ?_⟩
  · constructor
    · intro hcalls
      cases hh : hostWithoutPort r.Host with
      | none => rw [hbad hh] at hcalls; simp at hcalls
      | some host =>
        by_cases hm : host ∈ acceptedHosts
        · exact ⟨host, rfl, hm⟩
        · rw [hforbid host hh hm] at hcalls; simp at hcalls
    · rintro ⟨host, hh, hm⟩
      rw [hserve host hh hm]
  · rintro ⟨host, hh, hm⟩
    exact hserve host hh hm
  · intro hno
    cases hh : hostWithoutPort r.Host with
    | none => rw [hbad hh]; exact ⟨rfl, Or.inr rfl⟩
    | some host =>
      have hm : host ∉ acceptedHosts := fun hm => hno ⟨host, hh, hm⟩
      rw [hforbid host hh hm]
      exact ⟨rfl, Or.inl rfl⟩
  · rw [h400, hostWithoutPort_eq_none_iff]
  · constructor
    · intro hrun
      cases hh : hostWithoutPort r.Host with
      | none =>
        exfalso
        rw [hbad hh] at hrun
        have := congrArg (fun s => s.response.status) hrun
        simp [httpError] at this
      | some host =>
        refine ⟨host, rfl, ?_⟩
        intro hm
        rw [hserve host hh hm] at hrun
        have := congrArg Served.calls hrun
        simp at this
    · rintro ⟨host, hh, hm⟩
      exact hforbid host hh hm
  · intro lit hcolon hclose hhost
    apply h400.mpr
    rw [hostWithoutPort_eq_none_iff, hhost]
    exact ⟨by simp [String.toList, hcolon], _, SplitHostPort_bracketed_literal lit hcolon hclose⟩
  · intro hhead hcount
    apply h400.mpr
    rw [hostWithoutPort_eq_none_iff]
    exact ⟨List.count_pos_iff.mp (by omega), _, SplitHostPort_bare_literal r.Host hhead hcount⟩

/-- C21 witness: with `localhost` and `::1` accepted, `localhost:7777` is served, and the
bare literal `::1` and the bracketed `[::1]` get 400 although `::1` is accepted. -/
theorem C21_rebindHandler_only_accepted_hosts_witness :
    rebindHandler ["localhost", "::1"] echoHandler { Host := "localhost:7777", Path := "/api" }
      = ⟨echoHandler { Host := "localhost:7777", Path := "/api" }, 1⟩ ∧
    rebindHandler ["localhost", "::1"] echoHandler { Host := "::1", Path := "/api" }
      = ⟨httpError "bad request" 400, 0⟩ ∧
    rebindHandler ["localhost", "::1"] echoHandler { Host := "[::1]", Path := "/api" }
      = ⟨httpError "bad request" 400, 0⟩ :=
  ⟨(C21_rebindHandler_only_accepted_hosts ["localhost", "::1"] echoHandler
      { Host := "localhost:7777", Path := "/api" }).2.1 ⟨"localhost", by rfl, by decide⟩,
   (C21_rebindHandler_only_accepted_hosts ["localhost", "::1"] echoHandler
      { Host := "::1", Path := "/api" }).2.2.2.2.2.2 (by decide) (by decide),
   (C21_rebindHandler_only_accepted_hosts ["localhost", "::1"] echoHandler
      { Host := "[::1]", Path := "/api" }).2.2.2.2.2.1 [':', ':', '1'] (by decide) (by decide)
      rfl⟩

/-! ## `ServiceAccountForPod` and an absent store result -/

/-- C22 (what the code does): for every non-nil pod with a non-empty service-account name,
when the store answers the get with an error the call returns an error, and when it
answers with an object the call returns a service account or an error; but when it
answers with no object and no error, the call dereferences the nil pointer and faults:
it returns neither a service account nor an error. -/
theorem C22_ServiceAccountForPod_absent_result_faults (osq : ObjectStoreQueryer) (env : Env)
    (pod : Pod) (hname : pod.ServiceAccountName ≠ "") :
    (∀ err, env.objectStore.Get (ServiceAccountForPod.key pod) = .error err →
      ∃ e, (osq.ServiceAccountForPod env (some pod)).result = .error e) ∧
    (∀ u, env.objectStore.Get (ServiceAccountForPod.key pod) = .ok (some u) →
      (∃ sa, (osq.ServiceAccountForPod env (some pod)).result = .ok (some sa)) ∨
      ∃ e, (osq.ServiceAccountForPod env (some pod)).result = .error e) ∧
    (env.objectStore.Get (ServiceAccountForPod.key pod) = .ok none →
      (osq.ServiceAccountForPod env (some pod)).result
        = .panic "invalid memory address or nil pointer dereference" ∧
      (¬ ∃ sa, (osq.ServiceAccountForPod env (some pod)).result = .ok sa) ∧
      ¬ ∃ e, (osq.ServiceAccountForPod env (some pod)).result = .error e) := by
  refine ⟨?_, ?_, ?_⟩
  · intro err hget
    obtain ⟨msg, hm⟩ := ServiceAccountForPod_get_error osq env pod err hname hget
    exact ⟨_, hm⟩
  · intro u hget
    cases hc : env.toServiceAccount u with
    | error e =>
      right
      simp only [ObjectStoreQueryer.ServiceAccountForPod, hname, if_false, hget, hc]
      exact ⟨_, rfl⟩
    | ok sa =>
      left
      simp only [ObjectStoreQueryer.ServiceAccountForPod, hname, if_false, hget, hc]
      exact ⟨_, rfl⟩
  · intro hget
    have hres := ServiceAccountForPod_no_object osq env pod hname hget
    refine ⟨hres, ?_, ?_⟩
    · rintro ⟨sa, h⟩
      rw [hres] at h
      cases h
    · rintro ⟨e, h⟩
      rw [hres] at h
      cases h

/-- C22 witness: the pod `job-1` names `builder`, for which the sample store answers with
no object and no error. -/
theorem C22_ServiceAccountForPod_absent_result_faults_witness :
    (({} : ObjectStoreQueryer).ServiceAccountForPod sampleEnv (some builderPod)).result
      = .panic "invalid memory address or nil pointer dereference" :=
  ((C22_ServiceAccountForPod_absent_result_faults {} sampleEnv builderPod (by decide)).2.2
    (by rfl)).1

end Octant
